import Mathlib

/-!
# securetag: fundamentalnode configuration reader and RPC commands

A shallow embedding of `src/fundamentalnodeconfig.cpp` (the reader of
`fundamentalnode.conf`) and of commands of `src/rpc/fundamentalnode.cpp` (the
`fundamentalnodebroadcast` commands, `fundamentalnodelist`, and the `count`, `current`,
`winner`, `winners` and start commands of `fundamentalnode`), followed by the
properties proved about them.

Conventions of the embedding:
* a `std::string` is a Lean `String`; its characters are reached through `.data`;
* an `int` is an `Int` (ports, counters) or a `Nat` (the line counter, which only
  counts up from 1; a file of 2^31 lines is outside the model);
* `_("...")` is the untranslated message (the default when no translation is
  installed) and `strprintf("...%d...", n)` splices the decimal rendering of `n`;
* an in/out reference parameter is an argument together with a component of the
  result.
-/

namespace SecureTag

/-! ## `std::istringstream` and `operator>>` into a `std::string` -/

/-- The whitespace of the classic "C" locale, which `operator>>` skips and stops at. -/
def isspace (c : Char) : Bool :=
  c == ' ' || c == '\t' || c == '\n' || c == '\x0b' || c == '\x0c' || c == '\r'

/-- A `std::istringstream`: the characters not yet consumed and the failure state.
The stream tests `true` in a condition exactly when `failbit` is clear. (`eofbit`
is not stored: it is set exactly when `buf` has been exhausted by a read, and the
next extraction then fails because nothing is left in `buf`.) -/
structure IStringStream where
  buf : List Char
  failbit : Bool
deriving DecidableEq, Repr

namespace IStringStream

/-- The stream `std::istringstream iss(line)`. -/
def ofString (line : String) : IStringStream := ⟨line.data, false⟩

/-- The call `iss.str(line)`: replace the buffer and rewind; the state flags stay. -/
def str (s : IStringStream) (line : String) : IStringStream := { s with buf := line.data }

/-- The call `iss.clear()`: reset the state flags. -/
def clear (s : IStringStream) : IStringStream := { s with failbit := false }

/-- The extraction `iss >> x` for a `std::string x` whose value before the call is `old`.
On a failed stream nothing happens. Otherwise leading whitespace is skipped; if the
buffer ends there the stream fails and `x` keeps its value; otherwise `x` becomes the
maximal run of non-whitespace characters. -/
def extract (s : IStringStream) (old : String) : IStringStream × String :=
  if s.failbit then (s, old)
  else
    match s.buf.dropWhile isspace with
    | [] => (⟨[], true⟩, old)
    | c :: cs =>
      (⟨(c :: cs).dropWhile (fun d => !isspace d), false⟩,
       String.mk ((c :: cs).takeWhile (fun d => !isspace d)))

end IStringStream

/-! ## The configuration entries and the environment of `read` -/

/-- The class `CFundamentalnodeEntry`, as built by `add`: five strings (`alias_` is the
member `alias`, a reserved word here). -/
structure CFundamentalnodeEntry where
  alias_ : String
  ip : String
  privKey : String
  txHash : String
  outputIndex : String
deriving DecidableEq, Repr

/-- What `read` takes from the rest of the program.
* `isMain` is `Params().NetworkIDString() == CBaseChainParams::MAIN`;
* `mainnetDefaultPort` is `Params(CBaseChainParams::MAIN).GetDefaultPort()`;
* `SplitHostPort ip` is the pair `(port, hostname)` left by the call
  `SplitHostPort(ip, port, hostname)` made with `port = 0` and `hostname = ""`
  (the function lives in `netbase`, outside the files modelled here). -/
structure ChainEnv where
  isMain : Bool
  mainnetDefaultPort : Int
  SplitHostPort : String → Int × String

/-- The five consecutive extractions `iss >> alias >> ip >> privKey >> txHash >> outputIndex`;
the result is the final stream together with the five variables. -/
def extract5 (s : IStringStream) (v : CFundamentalnodeEntry) :
    IStringStream × CFundamentalnodeEntry :=
  let r1 := s.extract v.alias_
  let r2 := r1.1.extract v.ip
  let r3 := r2.1.extract v.privKey
  let r4 := r3.1.extract v.txHash
  let r5 := r4.1.extract v.outputIndex
  (r5.1, ⟨r1.2, r2.2, r3.2, r4.2, r5.2⟩)

/-- The text after the message head that every error of `read` carries:
`strprintf(_("Line: %d"), linenumber) + "\n\"" + line + "\""`. -/
def lineInfo (linenumber : Nat) (line : String) : String :=
  ("Line: " ++ toString linenumber) ++ "\n\"" ++ line ++ "\""

/-- The error of lines 51-52. -/
def errCouldNotParse (linenumber : Nat) (line : String) : String :=
  "Could not parse fundamentalnode.conf" ++ "\n" ++ lineInfo linenumber line

/-- The error of lines 62-63. -/
def errHostPort (linenumber : Nat) (line : String) : String :=
  "Failed to parse host:port string" ++ "\n" ++ lineInfo linenumber line

/-- The error of lines 70-73 (mainnet, port differs from the default). -/
def errPortMainnet (port : Int) (linenumber : Nat) (line : String) (mainnetDefaultPort : Int) :
    String :=
  "Invalid port detected in fundamentalnode.conf" ++ "\n" ++
    ("Port: " ++ toString port) ++ "\n" ++
    lineInfo linenumber line ++ "\n" ++
    ("(must be " ++ toString mainnetDefaultPort ++ " for mainnet)")

/-- The error of lines 78-80 (other networks, port equals the mainnet default). -/
def errPortOther (linenumber : Nat) (line : String) (mainnetDefaultPort : Int) : String :=
  "Invalid port detected in fundamentalnode.conf" ++ "\n" ++
    lineInfo linenumber line ++ "\n" ++
    ("(" ++ toString mainnetDefaultPort ++ " could be used only on mainnet)")

/-- What one iteration of the loop of `read` does with a line. -/
inductive LineOutcome where
  /-- The statement `continue`: the line is skipped. -/
  | skip
  /-- The call `add(alias, ip, privKey, txHash, outputIndex)`. -/
  | add (e : CFundamentalnodeEntry)
  /-- The assignment `strErrRet = ...` followed by `return false`. -/
  | fail (strErrRet : String)
deriving DecidableEq, Repr

/-- Lines 58-86 of `read`: the host:port check and the port policy, for a line whose
five variables have been extracted into `v`. -/
def checkPort (env : ChainEnv) (linenumber : Nat) (line : String)
    (v : CFundamentalnodeEntry) : LineOutcome :=
  let (port, hostname) := env.SplitHostPort v.ip
  if port == 0 || hostname == "" then
    .fail (errHostPort linenumber line)
  else if env.isMain then
    if port != env.mainnetDefaultPort then
      .fail (errPortMainnet port linenumber line env.mainnetDefaultPort)
    else .add v
  else if port == env.mainnetDefaultPort then
    .fail (errPortOther linenumber line env.mainnetDefaultPort)
  else .add v

/-- The body of the loop of `read` (lines 36-86) for one line. -/
def readLine (env : ChainEnv) (linenumber : Nat) (line : String) : LineOutcome :=
  if line.data.isEmpty then .skip
  else
    let iss := IStringStream.ofString line
    let v0 : CFundamentalnodeEntry := ⟨"", "", "", "", ""⟩
    let (iss1, comment) := iss.extract ""
    if !iss1.failbit && comment.data.head? == some '#' then .skip
    else
      -- after a successful first extraction the stream is rewound and cleared;
      -- after a failed one it is left as it is, in the failed state
      let iss2 := if !iss1.failbit then (iss1.str line).clear else iss1
      let (iss3, v1) := extract5 iss2 v0
      if iss3.failbit then
        -- the second attempt, on the rewound and cleared stream
        let (iss4, v2) := extract5 ((iss3.str line).clear) v1
        if iss4.failbit then .fail (errCouldNotParse linenumber line)
        else checkPort env linenumber line v2
      else checkPort env linenumber line v1

/-- The state that `read` acts on and returns: its `bool` result, the in/out string
`strErrRet`, and the member `entries`. -/
structure ReadState where
  ret : Bool
  strErrRet : String
  entries : List CFundamentalnodeEntry
deriving DecidableEq, Repr

/-- The loop `for (std::string line; std::getline(streamConfig, line); linenumber++)`
over the lines still to be read, from line number `linenumber` on. -/
def readLoop (env : ChainEnv) :
    List String → Nat → List CFundamentalnodeEntry → String → ReadState
  | [], _, entries, strErrRet => ⟨true, strErrRet, entries⟩
  | line :: rest, linenumber, entries, strErrRet =>
    match readLine env linenumber line with
    | .skip => readLoop env rest (linenumber + 1) entries strErrRet
    | .add e => readLoop env rest (linenumber + 1) (entries ++ [e]) strErrRet
    | .fail msg => ⟨false, msg, entries⟩

/-- The lines that repeated `std::getline` calls deliver for a stream holding `cs`:
each line ends at a newline, which is dropped; a last line without a newline is
delivered too; after a final newline there is no further (empty) line. -/
def getLinesAux : List Char → List (List Char)
  | [] => []
  | c :: cs =>
    if c == '\n' then [] :: getLinesAux cs
    else
      match getLinesAux cs with
      | [] => [[c]]
      | l :: ls => (c :: l) :: ls

/-- The lines of a file, as `String`s. -/
def getLines (content : String) : List String :=
  (getLinesAux content.data).map String.mk

/-- The header written to a configuration file that could not be opened (lines 25-27). -/
def strHeader : String :=
  "# Fundamentalnode config file\n" ++
  "# Format: alias IP:port fundamentalnodeprivkey collateral_output_txid collateral_output_index\n" ++
  "# Example: fn1 127.0.0.2:24130 93HaYBVUCYjEMeeH1Y4sBGLALQZE1Yc1K64xiqgX37tGBDQL8Xg 2bcd3c84c84f87eaa86e4e56834c92927a07f9e18718810b92e0d0324456a67c 0\n"

/-- The file `fundamentalnode.conf` as `read` meets it.
* `content` is `none` when there is no such file;
* `canRead` says whether opening an existing file for reading succeeds
  (`streamConfig.good()`);
* `canAppend` says whether `fopen(path, "a")` succeeds. -/
structure ConfigFile where
  content : Option String
  canRead : Bool
  canAppend : Bool
deriving DecidableEq, Repr

/-- The value of `streamConfig.good()` right after the stream is opened. -/
def ConfigFile.good (f : ConfigFile) : Bool := f.content.isSome && f.canRead

/-- The effect of `fopen(path, "a")`, `fwrite(strHeader)`, `fclose`: when the file can
be opened for appending, the header goes after what the file holds (nothing, when it
did not exist). -/
def ConfigFile.appendHeader (f : ConfigFile) : ConfigFile :=
  if f.canAppend then { f with content := some (f.content.getD "" ++ strHeader) } else f

/-- The member function `CFundamentalnodeConfig::read(std::string& strErrRet)`: the
result state and the file afterwards. -/
def read (env : ChainEnv) (f : ConfigFile) (entries : List CFundamentalnodeEntry)
    (strErrRet : String) : ReadState × ConfigFile :=
  if !f.good then
    (⟨true, strErrRet, entries⟩, f.appendHeader)
  else
    (readLoop env (getLines (f.content.getD "")) 1 entries strErrRet, f)

/-! ## Vocabulary of the properties of `read` -/

/-- The whitespace-delimited fields of a character list: the non-empty pieces between
whitespace characters. -/
def fieldsL (buf : List Char) : List (List Char) :=
  (buf.splitOnP isspace).filter (fun t => !t.isEmpty)

/-- The whitespace-delimited fields of a line. -/
def fields (line : String) : List String := (fieldsL line.data).map String.mk

/-- A comment line: its first whitespace-delimited field starts with `#`. -/
def isComment (line : String) : Bool :=
  match fields line with
  | t :: _ => t.data.head? == some '#'
  | [] => false

/-- The port policy: on mainnet the port is the mainnet default port, on any other
network it is not. -/
def portPolicy (env : ChainEnv) (p : Int) : Prop :=
  (env.isMain = true ∧ p = env.mainnetDefaultPort) ∨
  (env.isMain = false ∧ p ≠ env.mainnetDefaultPort)

/-- One string occurs inside another, as a run of consecutive characters. -/
def Contains (text piece : String) : Prop := piece.data <:+: text.data

/-- The one-pass reading of a line, without the second parse attempt: an empty line
and a comment line are skipped, a line with at least five fields goes to the port
check with its first five fields, any other line is a parse error. -/
def readLineTolerant (env : ChainEnv) (linenumber : Nat) (line : String) : LineOutcome :=
  if line.data.isEmpty then .skip
  else
    match fields line with
    | [] => .fail (errCouldNotParse linenumber line)
    | t :: ts =>
      if t.data.head? == some '#' then .skip
      else
        match t :: ts with
        | a :: b :: c :: d :: e :: _ => checkPort env linenumber line ⟨a, b, c, d, e⟩
        | _ => .fail (errCouldNotParse linenumber line)

/-- A line that is neither empty nor a comment. -/
def isConfigLine (line : String) : Bool := !line.data.isEmpty && !isComment line

/-- The entry made of the first five fields of a line, verbatim. -/
def entryOfFields (fs : List String) : CFundamentalnodeEntry :=
  ⟨fs.getD 0 "", fs.getD 1 "", fs.getD 2 "", fs.getD 3 "", fs.getD 4 ""⟩

/-- A line with exactly five fields whose second field splits into a non-empty host
and a non-zero port that complies with the port policy. -/
def GoodLine (env : ChainEnv) (line : String) : Prop :=
  (fields line).length = 5 ∧
  (env.SplitHostPort ((fields line).getD 1 "")).2 ≠ "" ∧
  (env.SplitHostPort ((fields line).getD 1 "")).1 ≠ 0 ∧
  portPolicy env (env.SplitHostPort ((fields line).getD 1 "")).1

instance (env : ChainEnv) (p : Int) : Decidable (portPolicy env p) := by
  unfold portPolicy; infer_instance

instance (env : ChainEnv) (line : String) : Decidable (GoodLine env line) := by
  unfold GoodLine; infer_instance

/-- The outcome of a line with the text of an error forgotten. -/
def LineOutcome.kind : LineOutcome → LineOutcome
  | .fail _ => .fail ""
  | o => o

/-- Modelled from the spec: `SplitHostPort` of `netbase` is not among the modelled
files; the spec only speaks of a "host:port" string. This stand-in, used for the
concrete instances, splits at the last `:` and takes what follows as the port when it
is a decimal number in 1..65535; otherwise the port stays 0 and the whole string is
the host. (Bracketed IPv6 hosts are not treated.) -/
def splitHostPortModel (s : String) : Int × String :=
  let r := s.data.reverse
  let digits := r.takeWhile (fun c => c != ':')
  match r.dropWhile (fun c => c != ':') with
  | [] => (0, s)
  | _ :: hostRev =>
    let n : Nat := digits.reverse.foldl (fun acc c => 10 * acc + (c.toNat - 48)) 0
    if !digits.isEmpty && digits.all Char.isDigit && 0 < n && n < 65536 then
      ((n : Int), String.mk hostRev.reverse)
    else (0, s)

/-- Mainnet with the default port 24130 of the example in the file header. -/
def mainnetEnv : ChainEnv := ⟨true, 24130, splitHostPortModel⟩

/-- A test network, with the same mainnet default port. -/
def testnetEnv : ChainEnv := ⟨false, 24130, splitHostPortModel⟩

/-! ## The broadcast commands of `rpc/fundamentalnode.cpp` -/

/-- A byte of a serialized stream. -/
abbrev Byte := Fin 256

/-- Modelled from the spec: the JSON values of the request/response layer (`UniValue`
is not among the modelled files). An object is the ordered list of its members, and
`obj.push_back(Pair(key, value))` puts a member at the end of that list, whether or not
the key is already there. -/
inductive UniValue where
  | null
  | str (s : String)
  | num (n : Int)
  | obj (members : List (String × UniValue))

/-- The error codes that the modelled commands pass to `JSONRPCError`. -/
inductive RpcErrorCode where
  | RPC_INVALID_PARAMETER
  | RPC_INTERNAL_ERROR
  | RPC_DESERIALIZATION_ERROR
  | RPC_CLIENT_IN_INITIAL_DOWNLOAD
deriving DecidableEq, Repr

/-- What a command throws instead of returning a value. -/
inductive RpcError where
  /-- The `std::runtime_error` carrying the usage text. -/
  | usage
  /-- The object thrown by `throw JSONRPCError(code, message)`. -/
  | jsonrpc (code : RpcErrorCode) (message : String)
  /-- Something thrown by one of the wallet guards. -/
  | guard (what : String)
deriving DecidableEq, Repr

/-- The wallet-related state that the commands test before they start: the outcomes of
`EnsureWalletIsAvailable(request.fHelp)` and `EnsureWalletIsUnlocked()` (either may
throw) and the flags `fImporting`, `fReindex`. -/
structure WalletState where
  EnsureWalletIsAvailable : Except RpcError Bool
  EnsureWalletIsUnlocked : Except RpcError Unit
  fImporting : Bool
  fReindex : Bool

/-- What the commands take from the class `CFundamentalnodeBroadcast`, from the
registry `fnodeman` and from the stream classes, none of which is among the modelled
files. `Fnb` is the type of an announcement and `W` the state of everything outside
the command (wallet, clock, registry).
* `Create w ip privKey txHash outputIndex fOffline` gives `(fResult, strError, fnb)`
  and the state after the call;
* `CheckSignature fnb` gives the result and the value left in `nDos`;
* `CheckFnbAndUpdateFundamentalnodeList w fnb nDos` gives the result, the value left
  in `nDos`, and the state after the call;
* `Serialize`/`Unserialize` are `ss << fnb` and `ss >> fnb` (`none`: an exception),
  `WriteCompactSize`/`ReadCompactSize` write and read the length of a vector;
* the remaining fields are the renderings that `decode` and `relay` print. -/
structure FnbOps (Fnb W : Type) where
  Create : W → String → String → String → String → Bool → (Bool × String × Fnb) × W
  CheckSignature : Fnb → Bool × Int
  CheckFnbAndUpdateFundamentalnodeList : W → Fnb → Int → (Bool × Int) × W
  NotifyFundamentalnodeUpdates : W → W
  GetHash : Fnb → String
  Serialize : Fnb → List Byte
  Unserialize : List Byte → Option (Fnb × List Byte)
  WriteCompactSize : Nat → List Byte
  ReadCompactSize : List Byte → Option (Nat × List Byte)
  outpoint : Fnb → String
  addr : Fnb → String
  pubKeyCollateralAddress : Fnb → String
  pubKeyFundamentalnode : Fnb → String
  vchSig : Fnb → String
  sigTime : Fnb → Int
  nProtocolVersion : Fnb → Int
  nLastDsq : Fnb → Int
  lastPingOutpoint : Fnb → String
  lastPingBlockHash : Fnb → String
  lastPingSigTime : Fnb → Int
  lastPingVchSig : Fnb → String

/-- A call that a command makes to the outside; the commands record their calls in
order, so that what they did and did not do can be stated. -/
inductive Call (Fnb : Type) where
  | Create (ip privKey txHash outputIndex : String) (fOffline : Bool)
  | CheckSignature (fnb : Fnb)
  | CheckFnbAndUpdateFundamentalnodeList (fnb : Fnb)
  | NotifyFundamentalnodeUpdates

/-- The outcome of running a command: the value returned or the error thrown, the calls
made, and the outside state afterwards. -/
structure RpcRun (Fnb W : Type) where
  result : Except RpcError UniValue
  calls : List (Call Fnb)
  world : W

/-! ### Hexadecimal strings -/

/-- Modelled from the spec: the value of a hexadecimal digit, of either case (`HexDigit`
of `utilstrencodings`, not among the modelled files; the spec speaks of a "hex-encoded"
batch). `none` stands for the value -1 of a character that is not a digit. -/
def HexDigit (c : Char) : Option Nat :=
  if '0' ≤ c ∧ c ≤ '9' then some (c.toNat - 48)
  else if 'a' ≤ c ∧ c ≤ 'f' then some (c.toNat - 87)
  else if 'A' ≤ c ∧ c ≤ 'F' then some (c.toNat - 55)
  else none

/-- The lower-case digit of a value below 16. -/
def hexChar (n : Nat) : Char := "0123456789abcdef".data.getD n '0'

/-- Modelled from the spec: `HexStr`, two lower-case hexadecimal digits per byte. -/
def HexStr (bytes : List Byte) : String :=
  String.mk (bytes.flatMap (fun b => [hexChar (b.val / 16), hexChar (b.val % 16)]))

/-- Modelled from the spec: `IsHex`, a non-empty string of an even number of
hexadecimal digits. -/
def IsHex (str : String) : Bool :=
  str.data.all (fun c => (HexDigit c).isSome) && decide (0 < str.data.length) &&
    decide (str.data.length % 2 = 0)

/-- The bytes of the leading pairs of hexadecimal digits of a character list. -/
def ParseHexAux : List Char → List Byte
  | c :: d :: rest =>
    match HexDigit c, HexDigit d with
    | some hi, some lo => Fin.ofNat (hi * 16 + lo) :: ParseHexAux rest
    | _, _ => []
  | _ => []

/-- Modelled from the spec: `ParseHex`, the bytes of a hexadecimal string. (It is only
called on strings that passed `IsHex`, which hold no whitespace to skip.) -/
def ParseHex (str : String) : List Byte := ParseHexAux str.data

/-! ### Serialized vectors of announcements -/

/-- The stream operation `ss << vecFnb` for a vector: the length, then the elements in
order (the "length-prefixed ordered sequence" of the specification). -/
def SerializeVec {Fnb W : Type} (ops : FnbOps Fnb W) (vecFnb : List Fnb) : List Byte :=
  ops.WriteCompactSize vecFnb.length ++ (vecFnb.map ops.Serialize).flatten

/-- Reading `n` elements one after the other into `acc`. The result says whether all
were read, and gives the elements read and the bytes left. -/
def unserializeElems {Fnb W : Type} (ops : FnbOps Fnb W) :
    Nat → List Byte → List Fnb → Bool × List Fnb × List Byte
  | 0, data, acc => (true, acc, data)
  | n + 1, data, acc =>
    match ops.Unserialize data with
    | none => (false, acc, data)
    | some (fnb, rest) => unserializeElems ops n rest (acc ++ [fnb])

/-- The stream operation `ssData >> vecFnb`: the vector is cleared, the length is read,
then that many elements. `false` stands for an exception; the vector then holds what
had been read. -/
def UnserializeVec {Fnb W : Type} (ops : FnbOps Fnb W) (data : List Byte) :
    Bool × List Fnb × List Byte :=
  match ops.ReadCompactSize data with
  | none => (false, [], data)
  | some (n, rest) => unserializeElems ops n rest []

/-- The function `DecodeHexVecFnb(vecFnb, strHexFnb)`: its result and the vector
afterwards. Bytes left in the stream after the vector are not looked at. -/
def DecodeHexVecFnb {Fnb W : Type} (ops : FnbOps Fnb W) (vecFnb : List Fnb)
    (strHexFnb : String) : Bool × List Fnb :=
  if !IsHex strHexFnb then (false, vecFnb)
  else
    let fnbData := ParseHex strHexFnb
    let r := UnserializeVec ops fnbData
    if r.1 then (true, r.2.1) else (false, r.2.1)

/-! ### `fundamentalnodebroadcast create-all` and `create-alias` -/

/-- The local variables of the loop of `create-all`, with the calls made so far and the
outside state. -/
structure CreateAllAcc (Fnb W : Type) where
  nSuccessful : Int
  nFailed : Int
  resultsObj : List (String × UniValue)
  vecFnb : List Fnb
  calls : List (Call Fnb)
  world : W

/-- The loop over `fundamentalnodeConfig.getEntries()` of `create-all` (lines 693-712). -/
def createAllLoop {Fnb W : Type} (ops : FnbOps Fnb W) :
    List CFundamentalnodeEntry → CreateAllAcc Fnb W → CreateAllAcc Fnb W
  | [], acc => acc
  | fne :: rest, acc =>
    let r := ops.Create acc.world fne.ip fne.privKey fne.txHash fne.outputIndex true
    let fResult := r.1.1
    let strError := r.1.2.1
    let fnb := r.1.2.2
    let statusObj : List (String × UniValue) :=
      [("alias", .str fne.alias_), ("result", .str (if fResult then "successful" else "failed"))]
    let calls := acc.calls ++ [Call.Create fne.ip fne.privKey fne.txHash fne.outputIndex true]
    if fResult then
      createAllLoop ops rest
        { nSuccessful := acc.nSuccessful + 1, nFailed := acc.nFailed,
          resultsObj := acc.resultsObj ++ [("status", .obj statusObj)],
          vecFnb := acc.vecFnb ++ [fnb], calls := calls, world := r.2 }
    else
      createAllLoop ops rest
        { nSuccessful := acc.nSuccessful, nFailed := acc.nFailed + 1,
          resultsObj := acc.resultsObj ++
            [("status", .obj (statusObj ++ [("errorMessage", .str strError)]))],
          vecFnb := acc.vecFnb, calls := calls, world := r.2 }

/-- The text of the member `overall` of `create-all`. -/
def overallCreated (nSuccessful nFailed : Int) : String :=
  "Successfully created broadcast messages for " ++ toString nSuccessful ++
    " fundamentalnodes, failed to create " ++ toString nFailed ++
    ", total " ++ toString (nSuccessful + nFailed)

/-- The command `fundamentalnodebroadcast create-all` (lines 673-722). -/
def broadcastCreateAll {Fnb W : Type} (ops : FnbOps Fnb W) (ws : WalletState)
    (entries : List CFundamentalnodeEntry) (w : W) : RpcRun Fnb W :=
  match ws.EnsureWalletIsAvailable with
  | .error e => ⟨.error e, [], w⟩
  | .ok false => ⟨.ok .null, [], w⟩
  | .ok true =>
    if ws.fImporting || ws.fReindex then
      ⟨.error (.jsonrpc .RPC_INTERNAL_ERROR "Wait for reindex and/or import to finish"), [], w⟩
    else
      match ws.EnsureWalletIsUnlocked with
      | .error e => ⟨.error e, [], w⟩
      | .ok _ =>
        let acc := createAllLoop ops entries ⟨0, 0, [], [], [], w⟩
        ⟨.ok (.obj [("overall", .str (overallCreated acc.nSuccessful acc.nFailed)),
                    ("detail", .obj acc.resultsObj),
                    ("hex", .str (HexStr (SerializeVec ops acc.vecFnb)))]),
         acc.calls, acc.world⟩

/-- The loop of `create-alias` (lines 643-662): the first entry with the alias is
created and the loop ends; the result is `fFound`, the members added to `statusObj`,
the calls and the outside state. -/
def createAliasLoop {Fnb W : Type} (ops : FnbOps Fnb W) (strAlias : String) :
    List CFundamentalnodeEntry → W → Bool × List (String × UniValue) × List (Call Fnb) × W
  | [], w => (false, [], [], w)
  | fne :: rest, w =>
    if fne.alias_ == strAlias then
      let r := ops.Create w fne.ip fne.privKey fne.txHash fne.outputIndex true
      let call := Call.Create fne.ip fne.privKey fne.txHash fne.outputIndex true
      if r.1.1 then
        (true, [("result", .str "successful"),
                ("hex", .str (HexStr (SerializeVec ops [r.1.2.2])))], [call], r.2)
      else
        (true, [("result", .str "failed"), ("errorMessage", .str r.1.2.1)], [call], r.2)
    else createAliasLoop ops strAlias rest w

/-- The command `fundamentalnodebroadcast create-alias` (lines 618-671); `params` are
the parameters of the request, the command name first. -/
def broadcastCreateAlias {Fnb W : Type} (ops : FnbOps Fnb W) (ws : WalletState)
    (entries : List CFundamentalnodeEntry) (params : List String) (w : W) : RpcRun Fnb W :=
  match ws.EnsureWalletIsAvailable with
  | .error e => ⟨.error e, [], w⟩
  | .ok false => ⟨.ok .null, [], w⟩
  | .ok true =>
    if ws.fImporting || ws.fReindex then
      ⟨.error (.jsonrpc .RPC_INTERNAL_ERROR "Wait for reindex and/or import to finish"), [], w⟩
    else if params.length < 2 then
      ⟨.error (.jsonrpc .RPC_INVALID_PARAMETER "Please specify an alias"), [], w⟩
    else
      match ws.EnsureWalletIsUnlocked with
      | .error e => ⟨.error e, [], w⟩
      | .ok _ =>
        let strAlias := params.getD 1 ""
        let r := createAliasLoop ops strAlias entries w
        let statusObj : List (String × UniValue) := ("alias", .str strAlias) :: r.2.1
        if !r.1 then
          ⟨.ok (.obj (statusObj ++ [("result", .str "not found"),
              ("errorMessage", .str "Could not find alias in config. Verify with list-conf.")])),
            r.2.2.1, r.2.2.2⟩
        else ⟨.ok (.obj statusObj), r.2.2.1, r.2.2.2⟩

/-! ### `fundamentalnodebroadcast decode` and `relay` -/

/-- The error thrown by `decode` and `relay` when `DecodeHexVecFnb` returns `false`. -/
def decodeFailed : RpcError :=
  .jsonrpc .RPC_DESERIALIZATION_ERROR "Fundamentalnode broadcast message decode failed"

/-- The members that `decode` gives to the result of an announcement whose signature
verifies (lines 745-760). -/
def decodedFields {Fnb W : Type} (ops : FnbOps Fnb W) (fnb : Fnb) : List (String × UniValue) :=
  [("outpoint", .str (ops.outpoint fnb)),
   ("addr", .str (ops.addr fnb)),
   ("pubKeyCollateralAddress", .str (ops.pubKeyCollateralAddress fnb)),
   ("pubKeyFundamentalnode", .str (ops.pubKeyFundamentalnode fnb)),
   ("vchSig", .str (ops.vchSig fnb)),
   ("sigTime", .num (ops.sigTime fnb)),
   ("protocolVersion", .num (ops.nProtocolVersion fnb)),
   ("nLastDsq", .num (ops.nLastDsq fnb)),
   ("lastPing", .obj
     [("outpoint", .str (ops.lastPingOutpoint fnb)),
      ("blockHash", .str (ops.lastPingBlockHash fnb)),
      ("sigTime", .num (ops.lastPingSigTime fnb)),
      ("vchSig", .str (ops.lastPingVchSig fnb))])]

/-- The member `errorMessage` that `decode` and `relay` give to a failed announcement. -/
def signatureFailed : List (String × UniValue) :=
  [("errorMessage", .str "Fundamentalnode broadcast signature verification failed")]

/-- The local variables of the loop of `decode`, with the calls made so far. -/
structure DecodeAcc (Fnb : Type) where
  nSuccessful : Int
  nFailed : Int
  nDos : Int
  returnObj : List (String × UniValue)
  calls : List (Call Fnb)

/-- The loop over `vecFnb` of `decode` (lines 740-767). -/
def decodeLoop {Fnb W : Type} (ops : FnbOps Fnb W) :
    List Fnb → DecodeAcc Fnb → DecodeAcc Fnb
  | [], acc => acc
  | fnb :: rest, acc =>
    let c := ops.CheckSignature fnb
    let calls := acc.calls ++ [Call.CheckSignature fnb]
    if c.1 then
      decodeLoop ops rest
        { nSuccessful := acc.nSuccessful + 1, nFailed := acc.nFailed, nDos := c.2,
          returnObj := acc.returnObj ++ [(ops.GetHash fnb, .obj (decodedFields ops fnb))],
          calls := calls }
    else
      decodeLoop ops rest
        { nSuccessful := acc.nSuccessful, nFailed := acc.nFailed + 1, nDos := c.2,
          returnObj := acc.returnObj ++ [(ops.GetHash fnb, .obj signatureFailed)],
          calls := calls }

/-- The text of the member `overall` of `decode`. -/
def overallDecoded (nSuccessful nFailed : Int) : String :=
  "Successfully decoded broadcast messages for " ++ toString nSuccessful ++
    " fundamentalnodes, failed to decode " ++ toString nFailed ++
    ", total " ++ toString (nSuccessful + nFailed)

/-- The command `fundamentalnodebroadcast decode` (lines 725-772); `params` are the
parameters of the request, the command name first. -/
def broadcastDecode {Fnb W : Type} (ops : FnbOps Fnb W) (params : List String) (w : W) :
    RpcRun Fnb W :=
  if params.length != 2 then
    ⟨.error (.jsonrpc .RPC_INVALID_PARAMETER
      "Correct usage is 'fundamentalnodebroadcast decode \"hexstring\"'"), [], w⟩
  else
    let d := DecodeHexVecFnb ops [] (params.getD 1 "")
    if !d.1 then ⟨.error decodeFailed, [], w⟩
    else
      let acc := decodeLoop ops d.2 ⟨0, 0, 0, [], []⟩
      ⟨.ok (.obj (acc.returnObj ++
          [("overall", .str (overallDecoded acc.nSuccessful acc.nFailed))])),
        acc.calls, w⟩

/-- The local variables of the loop of `relay`, with the calls made so far and the
outside state. -/
structure RelayAcc (Fnb W : Type) where
  nSuccessful : Int
  nFailed : Int
  returnObj : List (String × UniValue)
  calls : List (Call Fnb)
  world : W

/-- The loop over `vecFnb` of `relay` (lines 791-813). -/
def relayLoop {Fnb W : Type} (ops : FnbOps Fnb W) :
    List Fnb → RelayAcc Fnb W → RelayAcc Fnb W
  | [], acc => acc
  | fnb :: rest, acc =>
    let resultObj : List (String × UniValue) :=
      [("outpoint", .str (ops.outpoint fnb)), ("addr", .str (ops.addr fnb))]
    let c := ops.CheckSignature fnb
    -- `fResult`, the outside state and the calls of lines 797-802
    let r : Bool × W × List (Call Fnb) :=
      if c.1 then
        let u := ops.CheckFnbAndUpdateFundamentalnodeList acc.world fnb c.2
        (u.1.1, ops.NotifyFundamentalnodeUpdates u.2,
          [Call.CheckSignature fnb, Call.CheckFnbAndUpdateFundamentalnodeList fnb,
            Call.NotifyFundamentalnodeUpdates])
      else (false, acc.world, [Call.CheckSignature fnb])
    let fResult := r.1
    let world := r.2.1
    let calls := acc.calls ++ r.2.2
    if fResult then
      relayLoop ops rest
        { nSuccessful := acc.nSuccessful + 1, nFailed := acc.nFailed,
          returnObj := acc.returnObj ++
            [(ops.GetHash fnb, .obj (resultObj ++ [(ops.GetHash fnb, .str "successful")]))],
          calls := calls, world := world }
    else
      relayLoop ops rest
        { nSuccessful := acc.nSuccessful, nFailed := acc.nFailed + 1,
          returnObj := acc.returnObj ++
            [(ops.GetHash fnb, .obj (resultObj ++ signatureFailed))],
          calls := calls, world := world }

/-- The text of the member `overall` of `relay`. -/
def overallRelayed (nSuccessful nFailed : Int) : String :=
  "Successfully relayed broadcast messages for " ++ toString nSuccessful ++
    " fundamentalnodes, failed to relay " ++ toString nFailed ++
    ", total " ++ toString (nSuccessful + nFailed)

/-- The command `fundamentalnodebroadcast relay` (lines 774-818); `params` are the
parameters of the request, the command name first. -/
def broadcastRelay {Fnb W : Type} (ops : FnbOps Fnb W) (params : List String) (w : W) :
    RpcRun Fnb W :=
  if params.length < 2 || params.length > 3 then
    ⟨.error (.jsonrpc .RPC_INVALID_PARAMETER
      ("fundamentalnodebroadcast relay \"hexstring\"\n" ++ "\nArguments:\n" ++
        "1. \"hex\"      (string, required) Broadcast messages hex string\n")), [], w⟩
  else
    let d := DecodeHexVecFnb ops [] (params.getD 1 "")
    if !d.1 then ⟨.error decodeFailed, [], w⟩
    else
      let acc := relayLoop ops d.2 ⟨0, 0, [], [], w⟩
      ⟨.ok (.obj (acc.returnObj ++
          [("overall", .str (overallRelayed acc.nSuccessful acc.nFailed))])),
        acc.calls, acc.world⟩

/-- The function `fundamentalnodebroadcast(request)` (lines 591-821): `fHelp` and
`params` are those of the request, `enableWallet` says whether the program was built
with `ENABLE_WALLET`, and `entries` are those of `fundamentalnodeConfig`. -/
def fundamentalnodebroadcast {Fnb W : Type} (ops : FnbOps Fnb W) (enableWallet : Bool)
    (ws : WalletState) (entries : List CFundamentalnodeEntry)
    (fHelp : Bool) (params : List String) (w : W) : RpcRun Fnb W :=
  let strCommand := if params.length ≥ 1 then params.getD 0 "" else ""
  if fHelp ||
      ((!enableWallet || (strCommand != "create-alias" && strCommand != "create-all")) &&
        strCommand != "decode" && strCommand != "relay") then
    ⟨.error .usage, [], w⟩
  else if enableWallet && strCommand == "create-alias" then
    broadcastCreateAlias ops ws entries params w
  else if enableWallet && strCommand == "create-all" then
    broadcastCreateAll ops ws entries w
  else if strCommand == "decode" then broadcastDecode ops params w
  else if strCommand == "relay" then broadcastRelay ops params w
  else ⟨.ok .null, [], w⟩

/-! ### Vocabulary of the properties of the broadcast commands -/

/-- The outcomes `(fResult, strError, fnb)` of calling `Create` once for each entry, in
the order of the configuration, each call starting from the outside state left by the
one before. -/
def createOutcomes {Fnb W : Type} (ops : FnbOps Fnb W) :
    List CFundamentalnodeEntry → W → List (Bool × String × Fnb)
  | [], _ => []
  | fne :: rest, w =>
    (ops.Create w fne.ip fne.privKey fne.txHash fne.outputIndex true).1 ::
      createOutcomes ops rest
        (ops.Create w fne.ip fne.privKey fne.txHash fne.outputIndex true).2

/-- The outside state after those calls. -/
def createWorld {Fnb W : Type} (ops : FnbOps Fnb W) : List CFundamentalnodeEntry → W → W
  | [], w => w
  | fne :: rest, w =>
    createWorld ops rest (ops.Create w fne.ip fne.privKey fne.txHash fne.outputIndex true).2

/-- The status reported for an alias whose `Create` had the outcome `out`: the alias,
"successful" or "failed", and the error message exactly when it failed. -/
def createStatus {Fnb : Type} (aliasName : String) (out : Bool × String × Fnb) : UniValue :=
  .obj ([("alias", .str aliasName),
         ("result", .str (if out.1 then "successful" else "failed"))] ++
        (if out.1 then [] else [("errorMessage", .str out.2.1)]))

/-- The result that the specification's `decode` reports for one announcement, under
the announcement's hash: when its signature verifies, its parsed fields (the outpoint,
the address, the two keys, the signature, its time, the protocol version, `nLastDsq`
and the last ping with its four fields); otherwise the signature-failure message and
nothing else. -/
def decodeItem {Fnb W : Type} (ops : FnbOps Fnb W) (fnb : Fnb) : String × UniValue :=
  (ops.GetHash fnb,
    .obj (if (ops.CheckSignature fnb).1 then
        [("outpoint", .str (ops.outpoint fnb)),
         ("addr", .str (ops.addr fnb)),
         ("pubKeyCollateralAddress", .str (ops.pubKeyCollateralAddress fnb)),
         ("pubKeyFundamentalnode", .str (ops.pubKeyFundamentalnode fnb)),
         ("vchSig", .str (ops.vchSig fnb)),
         ("sigTime", .num (ops.sigTime fnb)),
         ("protocolVersion", .num (ops.nProtocolVersion fnb)),
         ("nLastDsq", .num (ops.nLastDsq fnb)),
         ("lastPing", .obj
           [("outpoint", .str (ops.lastPingOutpoint fnb)),
            ("blockHash", .str (ops.lastPingBlockHash fnb)),
            ("sigTime", .num (ops.lastPingSigTime fnb)),
            ("vchSig", .str (ops.lastPingVchSig fnb))])]
      else
        [("errorMessage", .str "Fundamentalnode broadcast signature verification failed")]))

/-- Modelled from the spec: a stand-in for the announcement class and the stream
classes, none of which is among the modelled files, used for concrete instances. An
announcement is reduced to one byte `id` for everything it declares and one byte `sig`
for its signature, which verifies when it equals `id`. -/
structure SampleFnb where
  id : Byte
  sig : Byte
deriving DecidableEq, Repr

/-- Modelled from the spec: the operations on `SampleFnb`. An announcement is encoded
as its two bytes; a length below 253 is one byte, a longer one is the byte 253 and two
bytes; `Create` fails on an empty key; the outside state counts the calls that
reach it. -/
def sampleOps : FnbOps SampleFnb Nat where
  Create := fun w ip privKey _ _ _ =>
    if privKey.data.isEmpty then ((false, "Invalid fundamentalnode key", ⟨0, 0⟩), w + 1)
    else ((true, "", ⟨Fin.ofNat ip.data.length, Fin.ofNat ip.data.length⟩), w + 1)
  CheckSignature := fun fnb => if fnb.sig = fnb.id then (true, 0) else (false, 100)
  CheckFnbAndUpdateFundamentalnodeList := fun w _ nDos => ((true, nDos), w + 1)
  NotifyFundamentalnodeUpdates := fun w => w
  GetHash := fun fnb => HexStr [fnb.id, fnb.sig]
  Serialize := fun fnb => [fnb.id, fnb.sig]
  Unserialize := fun data =>
    match data with
    | a :: b :: rest => some (⟨a, b⟩, rest)
    | _ => none
  WriteCompactSize := fun n =>
    if n < 253 then [Fin.ofNat n] else [253, Fin.ofNat (n % 256), Fin.ofNat (n / 256)]
  ReadCompactSize := fun data =>
    match data with
    | [] => none
    | b :: rest =>
      if b.val < 253 then some (b.val, rest)
      else
        match rest with
        | lo :: hi :: rest2 => if b.val = 253 then some (lo.val + 256 * hi.val, rest2) else none
        | _ => none
  outpoint := fun fnb => HexStr [fnb.id]
  addr := fun fnb => HexStr [fnb.id]
  pubKeyCollateralAddress := fun fnb => HexStr [fnb.id]
  pubKeyFundamentalnode := fun fnb => HexStr [fnb.id]
  vchSig := fun fnb => HexStr [fnb.sig]
  sigTime := fun fnb => fnb.id.val
  nProtocolVersion := fun _ => 70208
  nLastDsq := fun _ => 0
  lastPingOutpoint := fun fnb => HexStr [fnb.id]
  lastPingBlockHash := fun _ => ""
  lastPingSigTime := fun fnb => fnb.id.val
  lastPingVchSig := fun fnb => HexStr [fnb.sig]

/-- The wallet state in which every guard lets the command through. -/
def walletReady : WalletState := ⟨.ok true, .ok (), false, false⟩

/-- The outcome of `relay` on each announcement of a batch, in order: whether its
signature verifies, and whether the registry accepts it (`false` when the signature
does not verify and the registry is not asked). Each call to the registry starts from
the outside state left by the announcements before. -/
def relayOutcomes {Fnb W : Type} (ops : FnbOps Fnb W) : List Fnb → W → List (Bool × Bool)
  | [], _ => []
  | fnb :: rest, w =>
    if (ops.CheckSignature fnb).1 then
      (true, (ops.CheckFnbAndUpdateFundamentalnodeList w fnb (ops.CheckSignature fnb).2).1.1) ::
        relayOutcomes ops rest
          (ops.NotifyFundamentalnodeUpdates
            (ops.CheckFnbAndUpdateFundamentalnodeList w fnb (ops.CheckSignature fnb).2).2)
    else (false, false) :: relayOutcomes ops rest w

/-- The outside state after `relay` has gone through a batch. -/
def relayWorld {Fnb W : Type} (ops : FnbOps Fnb W) : List Fnb → W → W
  | [], w => w
  | fnb :: rest, w =>
    if (ops.CheckSignature fnb).1 then
      relayWorld ops rest
        (ops.NotifyFundamentalnodeUpdates
          (ops.CheckFnbAndUpdateFundamentalnodeList w fnb (ops.CheckSignature fnb).2).2)
    else relayWorld ops rest w

/-- The calls that `relay` makes for one announcement: the signature check, and the
submission to the registry with its notification exactly when the signature
verifies. -/
def relayCalls {Fnb W : Type} (ops : FnbOps Fnb W) (fnb : Fnb) : List (Call Fnb) :=
  if (ops.CheckSignature fnb).1 then
    [Call.CheckSignature fnb, Call.CheckFnbAndUpdateFundamentalnodeList fnb,
      Call.NotifyFundamentalnodeUpdates]
  else [Call.CheckSignature fnb]

/-- The result that the specification's `relay` reports for one announcement with the
outcome `out`, under the announcement's hash: the outpoint and the address, then the
mark "successful" when the signature verifies and the registry accepts the
announcement, and the failure message otherwise. -/
def relayItem {Fnb W : Type} (ops : FnbOps Fnb W) (fnb : Fnb) (out : Bool × Bool) :
    String × UniValue :=
  (ops.GetHash fnb,
    .obj ([("outpoint", .str (ops.outpoint fnb)), ("addr", .str (ops.addr fnb))] ++
      (if out.1 && out.2 then [(ops.GetHash fnb, .str "successful")]
       else
        [("errorMessage", .str "Fundamentalnode broadcast signature verification failed")])))

/-- The first parse of a line by `read` (lines 38-47): the stream after the five
extractions, and the five variables. -/
def primaryParse (line : String) : IStringStream × CFundamentalnodeEntry :=
  let r := (IStringStream.ofString line).extract ""
  extract5 (if !r.1.failbit then (r.1.str line).clear else r.1) ⟨"", "", "", "", ""⟩

/-- The second parse of a line by `read` (lines 48-50), made on the rewound and cleared
stream when the first parse has failed. -/
def fallbackParse (line : String) : IStringStream × CFundamentalnodeEntry :=
  extract5 (((primaryParse line).1.str line).clear) (primaryParse line).2

/-- The loop of the reader that has no second parse: every line goes through
`readLineTolerant`. -/
def readLoopTolerant (env : ChainEnv) :
    List String → Nat → List CFundamentalnodeEntry → String → ReadState
  | [], _, entries, strErrRet => ⟨true, strErrRet, entries⟩
  | line :: rest, linenumber, entries, strErrRet =>
    match readLineTolerant env linenumber line with
    | .skip => readLoopTolerant env rest (linenumber + 1) entries strErrRet
    | .add e => readLoopTolerant env rest (linenumber + 1) (entries ++ [e]) strErrRet
    | .fail msg => ⟨false, msg, entries⟩

/-- The reader of the specification: one tolerant parser (five whitespace-delimited
fields, lines starting with `#` skipped) and no second parse. It treats a file that
cannot be opened as `read` does. -/
def readTolerant (env : ChainEnv) (f : ConfigFile) (entries : List CFundamentalnodeEntry)
    (strErrRet : String) : ReadState × ConfigFile :=
  if !f.good then
    (⟨true, strErrRet, entries⟩, f.appendHeader)
  else
    (readLoopTolerant env (getLines (f.content.getD "")) 1 entries strErrRet, f)

/-! ## The query commands of `rpc/fundamentalnode.cpp` -/

/-- The test `hay.find(needle) != std::string::npos` on character lists: `needle`
starts at some position of `hay`. -/
def hasSubstrL : List Char → List Char → Bool
  | [], needle => needle.isEmpty
  | c :: hay, needle => needle.isPrefixOf (c :: hay) || hasSubstrL hay needle

/-- The test `hay.find(needle) != std::string::npos`. -/
def hasSubstr (hay needle : String) : Bool := hasSubstrL hay.data needle.data

/-- The effect of `std::setw(n)` on the next item written to a stream: the item is
padded with spaces on the left up to the width `n`. -/
def setw (n : Nat) (item : String) : String :=
  String.mk (List.replicate (n - item.data.length) ' ') ++ item

/-- An entry of the registry (`CFundamentalnode`, not among the modelled files) as far
as the commands look at it: each field is the value that the commands print or test.
* `outpoint` is `outpoint.ToStringShort()`, `addr` is `addr.ToString()`;
* `payee` is `CBitcoinAddress(pubKeyCollateralAddress.GetID()).ToString()`;
* `pubKeyFundamentalnode` is `HexStr(pubKeyFundamentalnode)`;
* `status` is `GetStatus()`, `isEnabled` is `IsEnabled()`;
* `nDaemonVersion`, `nSentinelVersion`, `fSentinelIsCurrent`, `lastPingSigTime` are the
  members of `lastPing`;
* `lastPaidTime`, `lastPaidBlock` are `GetLastPaidTime()`, `GetLastPaidBlock()`. -/
structure CFundamentalnode where
  outpoint : String
  addr : String
  payee : String
  pubKeyFundamentalnode : String
  status : String
  isEnabled : Bool
  nProtocolVersion : Int
  sigTime : Int
  nDaemonVersion : Int
  nSentinelVersion : Int
  fSentinelIsCurrent : Bool
  lastPingSigTime : Int
  lastPaidTime : Int
  lastPaidBlock : Int
deriving DecidableEq, Repr

/-- The structure `fundamentalnode_info_t` as far as `current` and `winner` print it. -/
structure fundamentalnode_info_t where
  addr : String
  nProtocolVersion : Int
  outpoint : String
  payee : String
  nTimeLastPing : Int
  sigTime : Int
deriving DecidableEq, Repr

/-- What the query commands take from the registry `fnodeman`, the chain and the
version helpers, none of which is among the modelled files. `W` is the state of
everything outside the command.
* `Tip w` is the height of `chainActive.Tip()`, `none` for a null pointer;
* `UpdateLastPaid w` is the state after `fnodeman.UpdateLastPaid(pindex)`;
* `GetFullFundamentalnodeMap w` is the copy of the registry map, in the order of
  iteration, each key given by its `ToStringShort()`;
* `GetFundamentalnodeRanks w` is the vector of (rank, entry) pairs;
* `GetNextInQueue w nHeight fFilterSigTime` is the result, the count and the info
  of `GetNextFundamentalnodeInQueueForPayment` (`nHeight` is `none` for the overload
  without a height); as the preview of the specification, it reads the registry and
  leaves it as it is;
* `Get w txHash outputIndex` is the entry found for the outpoint built from the two
  strings, if any;
* `CountEnabled w v` is `fnodeman.CountEnabled(v)`, `v` being `none` for the default
  argument. -/
structure ManOps (W : Type) where
  Tip : W → Option Int
  UpdateLastPaid : W → W
  GetFullFundamentalnodeMap : W → List (String × CFundamentalnode)
  GetFundamentalnodeRanks : W → List (Int × CFundamentalnode)
  GetNextInQueue : W → Option Int → Bool → Bool × Int × fundamentalnode_info_t
  size : W → Int
  CountEnabled : W → Option Int → Int
  Get : W → String → String → Option CFundamentalnode
  IsFundamentalnodeListSynced : W → Bool
  GetRequiredPaymentsStringFN : W → Int → String
  DEFAULT_DAEMON_VERSION : Int
  DEFAULT_SENTINEL_VERSION : Int
  MIN_PRIVATESEND_PEER_PROTO_VERSION : Int
  FormatVersion : Int → String
  SafeIntVersionToString : Int → String
  atoi : String → Int

/-- A call that a query command makes to the registry. -/
inductive ManCall where
  | UpdateLastPaid
  | GetFullFundamentalnodeMap
  | GetFundamentalnodeRanks
  | GetNextFundamentalnodeInQueueForPayment
  | size
  | CountEnabled
deriving DecidableEq, Repr

/-- The outcome of running a query command: the value returned or the error thrown,
the calls made to the registry, and the outside state afterwards. -/
structure QueryRun (W : Type) where
  result : Except RpcError UniValue
  calls : List ManCall
  world : W

/-- The text `"current"` or `"expired"` for the sentinel state. -/
def sentinelState (fn : CFundamentalnode) : String :=
  if fn.fSentinelIsCurrent then "current" else "expired"

/-- The string `strDaemon` of the mode `daemon` (line 472). -/
def strDaemonOf {W : Type} (ops : ManOps W) (fn : CFundamentalnode) : String :=
  if fn.nDaemonVersion > ops.DEFAULT_DAEMON_VERSION then ops.FormatVersion fn.nDaemonVersion
  else "Unknown"

/-- The string `strSentinel` of the mode `sentinel` (line 477). -/
def strSentinelOf {W : Type} (ops : ManOps W) (fn : CFundamentalnode) : String :=
  if fn.nSentinelVersion > ops.DEFAULT_SENTINEL_VERSION then
    ops.SafeIntVersionToString fn.nSentinelVersion
  else "Unknown"

/-- The stream `streamFull` of the mode `full` (lines 483-492). -/
def streamFull (fn : CFundamentalnode) : String :=
  setw 18 fn.status ++ " " ++ toString fn.nProtocolVersion ++ " " ++ fn.payee ++ " " ++
    toString fn.lastPingSigTime ++ " " ++ setw 8 (toString (fn.lastPingSigTime - fn.sigTime)) ++
    " " ++ setw 10 (toString fn.lastPaidTime) ++ " " ++ setw 6 (toString fn.lastPaidBlock) ++
    " " ++ fn.addr

/-- The stream `streamInfo` of the mode `info` (lines 498-507). -/
def streamInfoInfo {W : Type} (ops : ManOps W) (fn : CFundamentalnode) : String :=
  setw 18 fn.status ++ " " ++ toString fn.nProtocolVersion ++ " " ++ fn.payee ++ " " ++
    toString fn.lastPingSigTime ++ " " ++ setw 8 (toString (fn.lastPingSigTime - fn.sigTime)) ++
    " " ++ ops.SafeIntVersionToString fn.nSentinelVersion ++ " " ++ sentinelState fn ++
    " " ++ fn.addr

/-- The stream `streamInfo` of the mode `json` (lines 513-524). -/
def streamInfoJson {W : Type} (ops : ManOps W) (fn : CFundamentalnode) : String :=
  fn.addr ++ " " ++ fn.payee ++ " " ++ fn.status ++ " " ++ toString fn.nProtocolVersion ++
    " " ++ toString fn.nDaemonVersion ++ " " ++ ops.SafeIntVersionToString fn.nSentinelVersion ++
    " " ++ sentinelState fn ++ " " ++ toString fn.lastPingSigTime ++ " " ++
    toString (fn.lastPingSigTime - fn.sigTime) ++ " " ++ toString fn.lastPaidTime ++ " " ++
    toString fn.lastPaidBlock

/-- The object `objFN` of the mode `json` (lines 528-540). -/
def objFN {W : Type} (ops : ManOps W) (fn : CFundamentalnode) : UniValue :=
  .obj [("address", .str fn.addr),
        ("payee", .str fn.payee),
        ("status", .str fn.status),
        ("protocol", .num fn.nProtocolVersion),
        ("daemonversion", .str
          (if fn.nDaemonVersion > ops.DEFAULT_DAEMON_VERSION then
            ops.FormatVersion fn.nDaemonVersion else "Unknown")),
        ("sentinelversion", .str
          (if fn.nSentinelVersion > ops.DEFAULT_SENTINEL_VERSION then
            ops.SafeIntVersionToString fn.nSentinelVersion else "Unknown")),
        ("sentinelstate", .str (sentinelState fn)),
        ("lastseen", .num fn.lastPingSigTime),
        ("activeseconds", .num (fn.lastPingSigTime - fn.sigTime)),
        ("lastpaidtime", .num fn.lastPaidTime),
        ("lastpaidblock", .num fn.lastPaidBlock)]

/-- The body of the loop over the registry map of `fundamentalnodelist` (lines 463-569)
for the entry `fn` under the key `strOutpoint`: the member pushed to `obj`, or `none`
when the entry is passed over (`continue`, or a mode without a branch). -/
def listItem {W : Type} (ops : ManOps W) (strMode strFilter strOutpoint : String)
    (fn : CFundamentalnode) : Option (String × UniValue) :=
  -- `strFilter != ""` and `strOutpoint.find(strFilter) == std::string::npos`
  let filtered := strFilter != ""
  let outMiss := !hasSubstr strOutpoint strFilter
  if strMode == "activeseconds" then
    if filtered && outMiss then none
    else some (strOutpoint, .num (fn.lastPingSigTime - fn.sigTime))
  else if strMode == "addr" then
    if filtered && !hasSubstr fn.addr strFilter && outMiss then none
    else some (strOutpoint, .str fn.addr)
  else if strMode == "daemon" then
    if filtered && !hasSubstr (strDaemonOf ops fn) strFilter && outMiss then none
    else some (strOutpoint, .str (strDaemonOf ops fn))
  else if strMode == "sentinel" then
    if filtered && !hasSubstr (strSentinelOf ops fn) strFilter && outMiss then none
    else some (strOutpoint, .str (strSentinelOf ops fn))
  else if strMode == "full" then
    if filtered && !hasSubstr (streamFull fn) strFilter && outMiss then none
    else some (strOutpoint, .str (streamFull fn))
  else if strMode == "info" then
    if filtered && !hasSubstr (streamInfoInfo ops fn) strFilter && outMiss then none
    else some (strOutpoint, .str (streamInfoInfo ops fn))
  else if strMode == "json" then
    if filtered && !hasSubstr (streamInfoJson ops fn) strFilter && outMiss then none
    else some (strOutpoint, objFN ops fn)
  else if strMode == "lastpaidblock" then
    if filtered && outMiss then none else some (strOutpoint, .num fn.lastPaidBlock)
  else if strMode == "lastpaidtime" then
    if filtered && outMiss then none else some (strOutpoint, .num fn.lastPaidTime)
  else if strMode == "lastseen" then
    if filtered && outMiss then none else some (strOutpoint, .num fn.lastPingSigTime)
  else if strMode == "payee" then
    if filtered && !hasSubstr fn.payee strFilter && outMiss then none
    else some (strOutpoint, .str fn.payee)
  else if strMode == "protocol" then
    if filtered && strFilter != toString fn.nProtocolVersion && outMiss then none
    else some (strOutpoint, .num fn.nProtocolVersion)
  else if strMode == "pubkey" then
    if filtered && outMiss then none else some (strOutpoint, .str fn.pubKeyFundamentalnode)
  else if strMode == "status" then
    if filtered && !hasSubstr fn.status strFilter && outMiss then none
    else some (strOutpoint, .str fn.status)
  else none

/-- The loop over the registry map of `fundamentalnodelist` (lines 461-570). -/
def listLoop {W : Type} (ops : ManOps W) (strMode strFilter : String) :
    List (String × CFundamentalnode) → List (String × UniValue) → List (String × UniValue)
  | [], obj => obj
  | fnpair :: rest, obj =>
    match listItem ops strMode strFilter fnpair.1 fnpair.2 with
    | none => listLoop ops strMode strFilter rest obj
    | some member => listLoop ops strMode strFilter rest (obj ++ [member])

/-- The loop over the rank vector of the mode `rank` (lines 454-458). -/
def rankLoop (strFilter : String) :
    List (Int × CFundamentalnode) → List (String × UniValue) → List (String × UniValue)
  | [], obj => obj
  | rankpair :: rest, obj =>
    if strFilter != "" && !hasSubstr rankpair.2.outpoint strFilter then
      rankLoop strFilter rest obj
    else rankLoop strFilter rest (obj ++ [(rankpair.2.outpoint, .num rankpair.1)])

/-- The modes that `fundamentalnodelist` accepts (lines 402-406). -/
def listModes : List String :=
  ["activeseconds", "addr", "daemon", "full", "info", "json", "lastseen", "lastpaidtime",
   "lastpaidblock", "protocol", "payee", "pubkey", "rank", "sentinel", "status"]

/-- The mode that `fundamentalnodelist` runs in (lines 396, 399): the first parameter,
or `json` when there is none. -/
def listModeOf (params : List String) : String :=
  if params.length ≥ 1 then params.getD 0 "" else "json"

/-- The filter that `fundamentalnodelist` applies (lines 397, 400): the second parameter
when there are exactly two, the empty string otherwise. -/
def listFilterOf (params : List String) : String :=
  if params.length == 2 then params.getD 1 "" else ""

/-- Lines 402-571 of `fundamentalnodelist`, once `strMode` and `strFilter` are set. -/
def listRun {W : Type} (ops : ManOps W) (fHelp : Bool) (strMode strFilter : String)
    (w : W) : QueryRun W :=
  if fHelp || !listModes.contains strMode then ⟨.error .usage, [], w⟩
  else
    -- lines 441-448
    let updates := strMode == "full" || strMode == "json" || strMode == "lastpaidtime" ||
      strMode == "lastpaidblock"
    let w1 := if updates then ops.UpdateLastPaid w else w
    let calls1 := if updates then [ManCall.UpdateLastPaid] else []
    if strMode == "rank" then
      ⟨.ok (.obj (rankLoop strFilter (ops.GetFundamentalnodeRanks w1) [])),
        calls1 ++ [ManCall.GetFundamentalnodeRanks], w1⟩
    else
      ⟨.ok (.obj (listLoop ops strMode strFilter (ops.GetFullFundamentalnodeMap w1) [])),
        calls1 ++ [ManCall.GetFullFundamentalnodeMap], w1⟩

/-- The function `fundamentalnodelist(request)` (lines 394-572); `fHelp` and `params`
are those of the request. -/
def fundamentalnodelist {W : Type} (ops : ManOps W) (fHelp : Bool) (params : List String)
    (w : W) : QueryRun W :=
  listRun ops fHelp (listModeOf params) (listFilterOf params) w

/-! ### Vocabulary of the properties of the query commands -/

/-- The "formatted or Unknown" version string of the specification: the formatted
version when the reported version is strictly greater than the default, "Unknown"
otherwise. -/
def versionOrUnknown (format : Int → String) (reported dflt : Int) : String :=
  if reported > dflt then format reported else "Unknown"

/-- The members of a JSON object (none for another value). -/
def UniValue.members : UniValue → List (String × UniValue)
  | .obj ms => ms
  | _ => []

/-! ### A stand-in registry for concrete instances -/

/-- Modelled from the spec: a stand-in for the outside state of the query commands,
used for concrete instances: the height of the tip, the entries of the registry in the
order of their keys, and whether the list is synced. -/
structure SampleRegistry where
  tip : Option Int
  nodes : List CFundamentalnode
  synced : Bool
deriving DecidableEq, Repr

/-- Modelled from the spec: a decimal number with an optional minus sign, standing for
`atoi` in concrete instances. -/
def sampleAtoi (s : String) : Int :=
  match s.data with
  | '-' :: ds => - ((ds.foldl (fun acc c => 10 * acc + (c.toNat - 48)) 0 : Nat) : Int)
  | ds => ((ds.foldl (fun acc c => 10 * acc + (c.toNat - 48)) 0 : Nat) : Int)

/-- Modelled from the spec: the operations on `SampleRegistry`. The map is keyed by the
outpoint of each entry; the ranks are the positions in the list, from 1; the last-paid
update records the tip as the last paid block of every entry; the version strings are
the decimal parts `a.b.c` of a daemon version `1000000 a + 10000 b + 100 c` and of a
sentinel version `65536 a + 256 b + c`; the payment string of a height names the
outpoint of the entry at the position `height mod (number of entries)`. -/
def sampleMan : ManOps SampleRegistry where
  Tip := fun r => r.tip
  UpdateLastPaid := fun r =>
    { r with nodes := r.nodes.map (fun fn => { fn with lastPaidBlock := r.tip.getD 0 }) }
  GetFullFundamentalnodeMap := fun r => r.nodes.map (fun fn => (fn.outpoint, fn))
  GetFundamentalnodeRanks := fun r =>
    (List.range r.nodes.length).zipWith (fun i fn => (((i + 1 : Nat) : Int), fn)) r.nodes
  GetNextInQueue := fun r _ _ =>
    match r.nodes with
    | [] => (false, 0, ⟨"", 0, "", "", 0, 0⟩)
    | fn :: _ =>
      (true, (r.nodes.length : Int),
        ⟨fn.addr, fn.nProtocolVersion, fn.outpoint, fn.payee, fn.lastPingSigTime, fn.sigTime⟩)
  size := fun r => (r.nodes.length : Int)
  CountEnabled := fun r _ => ((r.nodes.filter (fun fn => fn.isEnabled)).length : Int)
  Get := fun r txHash outputIndex =>
    r.nodes.find? (fun fn => fn.outpoint == txHash ++ "-" ++ outputIndex)
  IsFundamentalnodeListSynced := fun r => r.synced
  GetRequiredPaymentsStringFN := fun r h =>
    match r.nodes.get? (h % (r.nodes.length : Int)).toNat with
    | some fn => fn.outpoint
    | none => "Unknown"
  DEFAULT_DAEMON_VERSION := 120200
  DEFAULT_SENTINEL_VERSION := 65536
  MIN_PRIVATESEND_PEER_PROTO_VERSION := 70208
  FormatVersion := fun v =>
    toString (v / 1000000) ++ "." ++ toString ((v / 10000) % 100) ++ "." ++
      toString ((v / 100) % 100)
  SafeIntVersionToString := fun v =>
    toString ((v / 65536) % 256) ++ "." ++ toString ((v / 256) % 256) ++ "." ++
      toString (v % 256)
  atoi := sampleAtoi

/-- A sample entry: outpoint `ab-0`, protocol 70208, daemon 0.12.3, sentinel 1.2.0. -/
def sampleNodeA : CFundamentalnode :=
  { outpoint := "ab-0", addr := "10.0.0.1:24130", payee := "SPayeeA", pubKeyFundamentalnode := "02aa",
    status := "ENABLED", isEnabled := true, nProtocolVersion := 70208, sigTime := 1000,
    nDaemonVersion := 120300, nSentinelVersion := 66048, fSentinelIsCurrent := true,
    lastPingSigTime := 1600, lastPaidTime := 0, lastPaidBlock := 0 }

/-- A sample entry: outpoint `cd-1`, protocol 70207, no daemon or sentinel version
reported. -/
def sampleNodeB : CFundamentalnode :=
  { outpoint := "cd-1", addr := "10.0.0.2:24130", payee := "SPayeeB", pubKeyFundamentalnode := "03bb",
    status := "EXPIRED", isEnabled := false, nProtocolVersion := 70207, sigTime := 2000,
    nDaemonVersion := 0, nSentinelVersion := 0, fSentinelIsCurrent := false,
    lastPingSigTime := 2100, lastPaidTime := 0, lastPaidBlock := 0 }

/-- A sample registry with the two sample entries and the tip at height 500. -/
def sampleRegistry : SampleRegistry := ⟨some 500, [sampleNodeA, sampleNodeB], true⟩

/-- The command `fundamentalnode count` (lines 103-144); `params` are the parameters of
the request, the command name first. With a second parameter that is none of the five
known ones the function reaches its end and returns the null value. -/
def fundamentalnodeCount {W : Type} (ops : ManOps W) (params : List String) (w : W) :
    QueryRun W :=
  if params.length > 2 then
    ⟨.error (.jsonrpc .RPC_INVALID_PARAMETER "Too many parameters"), [], w⟩
  else
    let nCount := (ops.GetNextInQueue w none true).2.1
    let total := ops.size w
    let ps := ops.CountEnabled w (some ops.MIN_PRIVATESEND_PEER_PROTO_VERSION)
    let enabled := ops.CountEnabled w none
    let calls := [ManCall.GetNextFundamentalnodeInQueueForPayment, ManCall.size,
      ManCall.CountEnabled, ManCall.CountEnabled]
    if params.length == 1 then
      ⟨.ok (.obj [("total", .num total), ("ps_compatible", .num ps),
          ("enabled", .num enabled), ("qualify", .num nCount)]), calls, w⟩
    else
      let strMode := params.getD 1 ""
      if strMode == "total" then ⟨.ok (.num total), calls, w⟩
      else if strMode == "ps" then ⟨.ok (.num ps), calls, w⟩
      else if strMode == "enabled" then ⟨.ok (.num enabled), calls, w⟩
      else if strMode == "qualify" then ⟨.ok (.num nCount), calls, w⟩
      else if strMode == "all" then
        ⟨.ok (.str ("Total: " ++ toString total ++ " (PS Compatible: " ++ toString ps ++
          " / Enabled: " ++ toString enabled ++ " / Qualify: " ++ toString nCount ++ ")")),
          calls, w⟩
      else ⟨.ok .null, calls, w⟩

/-- The commands `fundamentalnode current` and `fundamentalnode winner` (lines 146-171).
The tip is dereferenced without a test: with no tip the command has no defined
outcome, which the model reports as an error of its own. -/
def fundamentalnodeCurrentWinner {W : Type} (ops : ManOps W) (strCommand : String) (w : W) :
    QueryRun W :=
  match ops.Tip w with
  | none => ⟨.error (.guard "null chain tip"), [], w⟩
  | some tipHeight =>
    let nHeight := tipHeight + (if strCommand == "current" then 1 else 10)
    let w1 := ops.UpdateLastPaid w
    let q := ops.GetNextInQueue w1 (some nHeight) true
    let calls := [ManCall.UpdateLastPaid, ManCall.GetNextFundamentalnodeInQueueForPayment]
    if !q.1 then ⟨.ok (.str "unknown"), calls, w1⟩
    else
      let fnInfo := q.2.2
      ⟨.ok (.obj [("height", .num nHeight),
          ("IP:port", .str fnInfo.addr),
          ("protocol", .num fnInfo.nProtocolVersion),
          ("outpoint", .str fnInfo.outpoint),
          ("payee", .str fnInfo.payee),
          ("lastseen", .num fnInfo.nTimeLastPing),
          ("activeseconds", .num (fnInfo.nTimeLastPing - fnInfo.sigTime))]), calls, w1⟩

/-- The loop `for(int i = nHeight - nLast; i < nHeight + 20; i++)` of `winners` (lines
384-388), as the iterations still to run (`todo` of them), the value of `i`, and the
object built so far. -/
def winnersLoop {W : Type} (ops : ManOps W) (w : W) (strFilter : String) :
    Nat → Int → List (String × UniValue) → List (String × UniValue)
  | 0, _, obj => obj
  | todo + 1, i, obj =>
    let strPayment := ops.GetRequiredPaymentsStringFN w i
    if strFilter != "" && !hasSubstr strPayment strFilter then
      winnersLoop ops w strFilter todo (i + 1) obj
    else winnersLoop ops w strFilter todo (i + 1) (obj ++ [(toString i, .str strPayment)])

/-- The values of an `int`. -/
def inIntRange (x : Int) : Bool := decide (-2147483648 ≤ x) && decide (x ≤ 2147483647)

/-- The command `fundamentalnode winners` (lines 357-391); `params` are the parameters
of the request, the command name first. The loop runs while `i < nHeight + 20`, that is
`nHeight + 20 - (nHeight - nLast)` times when that number is positive and not at all
otherwise. When `nHeight - nLast` or `nHeight + 20` leaves the range of `int` the
program has no defined outcome, which the model reports as an error of its own. -/
def fundamentalnodeWinners {W : Type} (ops : ManOps W) (params : List String) (w : W) :
    QueryRun W :=
  match ops.Tip w with
  | none => ⟨.ok .null, [], w⟩
  | some nHeight =>
    let nLast := if params.length ≥ 2 then ops.atoi (params.getD 1 "") else 10
    let strFilter := if params.length == 3 then params.getD 2 "" else ""
    if params.length > 3 then
      ⟨.error (.jsonrpc .RPC_INVALID_PARAMETER
        "Correct usage is 'fundamentalnode winners ( \"count\" \"filter\" )'"), [], w⟩
    else if !inIntRange (nHeight - nLast) || !inIntRange (nHeight + 20) then
      ⟨.error (.guard "signed integer overflow"), [], w⟩
    else
      ⟨.ok (.obj (winnersLoop ops w strFilter
          ((nHeight + 20) - (nHeight - nLast)).toNat (nHeight - nLast) [])), [], w⟩

/-- The heights from `lo` up to, not including, `hi`, in ascending order. -/
def heightsFrom (lo hi : Int) : List Int :=
  (List.range (hi - lo).toNat).map (fun (k : Nat) => lo + (k : Int))

/-- The modes in which `fundamentalnodelist` calls `UpdateLastPaid` (line 441). -/
def listModesUpdating : List String := ["full", "json", "lastpaidtime", "lastpaidblock"]

/-! ### `fundamentalnode start-all`, `start-missing` and `start-disabled` -/

/-- The local variables of the loop of the start commands, with the calls made so far
and the outside state. -/
structure StartAcc (Fnb W : Type) where
  nSuccessful : Int
  nFailed : Int
  resultsObj : List (String × UniValue)
  calls : List (Call Fnb)
  world : W

/-- What the start commands do with one entry that is not passed over (lines 255-261):
`Create`, then the submission to the registry when `Create` succeeded. The result is
the final `fResult`, the final `strError`, the calls made and the outside state
afterwards. `nDoS` is the value that the uninitialised variable `nDoS` holds. -/
def startAttempt {Fnb W : Type} (fops : FnbOps Fnb W) (nDoS : Int) (w : W)
    (fne : CFundamentalnodeEntry) : Bool × String × List (Call Fnb) × W :=
  let r := fops.Create w fne.ip fne.privKey fne.txHash fne.outputIndex false
  let create := Call.Create fne.ip fne.privKey fne.txHash fne.outputIndex false
  if r.1.1 then
    let u := fops.CheckFnbAndUpdateFundamentalnodeList r.2 r.1.2.2 nDoS
    if !u.1.1 then
      (false, "Failed to verify FNB",
        [create, Call.CheckFnbAndUpdateFundamentalnodeList r.1.2.2], u.2)
    else (true, r.1.2.1, [create, Call.CheckFnbAndUpdateFundamentalnodeList r.1.2.2], u.2)
  else (false, r.1.2.1, [create], r.2)

/-- The loop over `fundamentalnodeConfig.getEntries()` of the start commands (lines
244-273). -/
def startLoop {Fnb W : Type} (fops : FnbOps Fnb W) (mops : ManOps W) (strCommand : String)
    (nDoS : Int) : List CFundamentalnodeEntry → StartAcc Fnb W → StartAcc Fnb W
  | [], acc => acc
  | fne :: rest, acc =>
    -- `fFound` and `fn` of lines 247-250
    let found := mops.Get acc.world fne.txHash fne.outputIndex
    if strCommand == "start-missing" && found.isSome then
      startLoop fops mops strCommand nDoS rest acc
    else if strCommand == "start-disabled" && found.isSome &&
        (match found with | some fn => fn.isEnabled | none => false) then
      startLoop fops mops strCommand nDoS rest acc
    else
      let a := startAttempt fops nDoS acc.world fne
      let statusObj : List (String × UniValue) :=
        [("alias", .str fne.alias_), ("result", .str (if a.1 then "successful" else "failed"))]
      if a.1 then
        startLoop fops mops strCommand nDoS rest
          { nSuccessful := acc.nSuccessful + 1, nFailed := acc.nFailed,
            resultsObj := acc.resultsObj ++ [("status", .obj statusObj)],
            calls := acc.calls ++ a.2.2.1, world := a.2.2.2 }
      else
        startLoop fops mops strCommand nDoS rest
          { nSuccessful := acc.nSuccessful, nFailed := acc.nFailed + 1,
            resultsObj := acc.resultsObj ++
              [("status", .obj (statusObj ++ [("errorMessage", .str a.2.1)]))],
            calls := acc.calls ++ a.2.2.1, world := a.2.2.2 }

/-- The text of the member `overall` of the start commands. -/
def overallStarted (nSuccessful nFailed : Int) : String :=
  "Successfully started " ++ toString nSuccessful ++
    " fundamentalnodes, failed to start " ++ toString nFailed ++
    ", total " ++ toString (nSuccessful + nFailed)

/-- The commands `fundamentalnode start-all`, `start-missing` and `start-disabled`
(lines 227-285), for `strCommand` one of the three. -/
def fundamentalnodeStart {Fnb W : Type} (fops : FnbOps Fnb W) (mops : ManOps W)
    (ws : WalletState) (strCommand : String) (nDoS : Int)
    (entries : List CFundamentalnodeEntry) (w : W) : RpcRun Fnb W :=
  match ws.EnsureWalletIsAvailable with
  | .error e => ⟨.error e, [], w⟩
  | .ok false => ⟨.ok .null, [], w⟩
  | .ok true =>
    match ws.EnsureWalletIsUnlocked with
    | .error e => ⟨.error e, [], w⟩
    | .ok _ =>
      if (strCommand == "start-missing" || strCommand == "start-disabled") &&
          !mops.IsFundamentalnodeListSynced w then
        ⟨.error (.jsonrpc .RPC_CLIENT_IN_INITIAL_DOWNLOAD
          "You can't use this command until fundamentalnode list is synced"), [], w⟩
      else
        let acc := startLoop fops mops strCommand nDoS entries ⟨0, 0, [], [], w⟩
        ⟨.ok (.obj [("overall", .str (overallStarted acc.nSuccessful acc.nFailed)),
                    ("detail", .obj acc.resultsObj)]),
         acc.calls ++ [Call.NotifyFundamentalnodeUpdates],
         fops.NotifyFundamentalnodeUpdates acc.world⟩

/-- Whether a start command attempts an entry, the outside state being `w` when the
entry is reached: `start-missing` attempts the entries whose collateral reference is
absent from the registry, `start-disabled` those that are absent or present but not
enabled, and `start-all` every entry. -/
def startAttempted {W : Type} (mops : ManOps W) (strCommand : String) (w : W)
    (fne : CFundamentalnodeEntry) : Bool :=
  if strCommand = "start-missing" then (mops.Get w fne.txHash fne.outputIndex).isNone
  else if strCommand = "start-disabled" then
    match mops.Get w fne.txHash fne.outputIndex with
    | none => true
    | some fn => !fn.isEnabled
  else true

/-- For each entry in the order of the configuration, `none` when the start command
passes it over and otherwise the outcome of its attempt: whether it succeeded (`Create`
succeeded and the registry accepted the announcement), the error text, and the calls
made. Each entry is looked at in the outside state left by the entries before it. -/
def startTrace {Fnb W : Type} (fops : FnbOps Fnb W) (mops : ManOps W) (strCommand : String)
    (nDoS : Int) : List CFundamentalnodeEntry → W → List (Option (Bool × String × List (Call Fnb)))
  | [], _ => []
  | fne :: rest, w =>
    if startAttempted mops strCommand w fne then
      some ((startAttempt fops nDoS w fne).1, (startAttempt fops nDoS w fne).2.1,
          (startAttempt fops nDoS w fne).2.2.1) ::
        startTrace fops mops strCommand nDoS rest (startAttempt fops nDoS w fne).2.2.2
    else none :: startTrace fops mops strCommand nDoS rest w

/-- The outside state after a start command has gone through the entries. -/
def startWorld {Fnb W : Type} (fops : FnbOps Fnb W) (mops : ManOps W) (strCommand : String)
    (nDoS : Int) : List CFundamentalnodeEntry → W → W
  | [], w => w
  | fne :: rest, w =>
    if startAttempted mops strCommand w fne then
      startWorld fops mops strCommand nDoS rest (startAttempt fops nDoS w fne).2.2.2
    else startWorld fops mops strCommand nDoS rest w

/-- The status reported for an attempted alias: the alias, "successful" or "failed",
and the error message exactly when it failed. -/
def startStatus {Fnb : Type} (aliasName : String) (out : Bool × String × List (Call Fnb)) :
    UniValue :=
  .obj ([("alias", .str aliasName),
         ("result", .str (if out.1 then "successful" else "failed"))] ++
        (if out.1 then [] else [("errorMessage", .str out.2.1)]))

/-- The outcomes of the attempted entries, each with the alias of its entry, in the
order of the configuration. -/
def startAttempts {Fnb : Type} (entries : List CFundamentalnodeEntry)
    (trace : List (Option (Bool × String × List (Call Fnb)))) :
    List (String × (Bool × String × List (Call Fnb))) :=
  (List.zip entries trace).filterMap (fun p => p.2.map (fun out => (p.1.alias_, out)))

/-- Modelled from the spec: operations on announcements over the sample registry, used
for concrete instances. `Create` fails on an empty key and otherwise builds an
announcement from the length of the address; the registry accepts an announcement
whose signature byte equals its identifying byte, and then records a new enabled entry
under the outpoint `id-0`. -/
def sampleStartOps : FnbOps SampleFnb SampleRegistry where
  Create := fun w ip privKey _ _ _ =>
    if privKey.data.isEmpty then ((false, "Invalid fundamentalnode key", ⟨0, 0⟩), w)
    else ((true, "", ⟨Fin.ofNat ip.data.length, Fin.ofNat ip.data.length⟩), w)
  CheckSignature := sampleOps.CheckSignature
  CheckFnbAndUpdateFundamentalnodeList := fun w fnb nDos =>
    if fnb.sig = fnb.id then
      ((true, nDos),
        { w with nodes := w.nodes ++
            [{ sampleNodeA with outpoint := toString fnb.id.val ++ "-0" }] })
    else ((false, nDos), w)
  NotifyFundamentalnodeUpdates := fun w => w
  GetHash := sampleOps.GetHash
  Serialize := sampleOps.Serialize
  Unserialize := sampleOps.Unserialize
  WriteCompactSize := sampleOps.WriteCompactSize
  ReadCompactSize := sampleOps.ReadCompactSize
  outpoint := sampleOps.outpoint
  addr := sampleOps.addr
  pubKeyCollateralAddress := sampleOps.pubKeyCollateralAddress
  pubKeyFundamentalnode := sampleOps.pubKeyFundamentalnode
  vchSig := sampleOps.vchSig
  sigTime := sampleOps.sigTime
  nProtocolVersion := sampleOps.nProtocolVersion
  nLastDsq := sampleOps.nLastDsq
  lastPingOutpoint := sampleOps.lastPingOutpoint
  lastPingBlockHash := sampleOps.lastPingBlockHash
  lastPingSigTime := sampleOps.lastPingSigTime
  lastPingVchSig := sampleOps.lastPingVchSig

/-- Three configured entries: `a` for the outpoint `ab-0` (present and enabled in the
sample registry), `b` for `cd-1` (present, not enabled) with an empty key, and `c` for
`ef-2` (absent). -/
def sampleEntries : List CFundamentalnodeEntry :=
  [⟨"a", "10.0.0.1:24130", "k", "ab", "0"⟩, ⟨"b", "10.0.0.2:24130", "", "cd", "1"⟩,
   ⟨"c", "10.0.0.3:24130", "k", "ef", "2"⟩]

/-! ## Vocabulary of the effect of `read` on the entries -/

/-- The outcomes of the loop body of `read` on consecutive lines, the first of which
has line number `linenumber`. -/
def lineOutcomes (env : ChainEnv) : List String → Nat → List LineOutcome
  | [], _ => []
  | line :: rest, linenumber => readLine env linenumber line :: lineOutcomes env rest (linenumber + 1)

/-- An offending line: the loop body rejects it. -/
def LineOutcome.isFail : LineOutcome → Bool
  | .fail _ => true
  | _ => false

/-- The entry of an accepted line; a skipped or rejected line has none. -/
def LineOutcome.entry? : LineOutcome → Option CFundamentalnodeEntry
  | .add e => some e
  | _ => none

/-- One entry for each accepted line that precedes the first offending line, in file
order (for each accepted line at all, when no line is offending). -/
def acceptedBeforeOffending (env : ChainEnv) (lines : List String) (linenumber : Nat) :
    List CFundamentalnodeEntry :=
  ((lineOutcomes env lines linenumber).takeWhile (fun o => !o.isFail)).filterMap
    LineOutcome.entry?

/-! # Lemmas and theorems -/

set_option maxRecDepth 100000

/-! ### Fields of a line and stream extraction -/

theorem splitOnP_takeWhile_dropWhile (p : Char → Bool) (l : List Char) :
    l.splitOnP p = l.takeWhile (fun d => !p d) ::
      (match l.dropWhile (fun d => !p d) with
       | [] => []
       | _ :: r => r.splitOnP p) := by
  induction l with
  | nil => simp
  | cons x xs ih =>
    rw [List.splitOnP_cons]
    by_cases hx : p x = true
    · simp [hx]
    · simp only [Bool.not_eq_true] at hx
      rw [ih]
      simp [hx, List.modifyHead]

theorem fieldsL_nil : fieldsL [] = [] := by
  simp [fieldsL]

theorem fieldsL_cons_space (c : Char) (cs : List Char) (h : isspace c = true) :
    fieldsL (c :: cs) = fieldsL cs := by
  simp [fieldsL, List.splitOnP_cons, h]

theorem fieldsL_dropWhile (buf : List Char) : fieldsL (buf.dropWhile isspace) = fieldsL buf := by
  induction buf with
  | nil => rfl
  | cons c cs ih =>
    by_cases h : isspace c = true
    · rw [List.dropWhile_cons_of_pos h, ih, fieldsL_cons_space c cs h]
    · rw [List.dropWhile_cons_of_neg h]

theorem fieldsL_cons_nonspace (c : Char) (cs : List Char) (h : isspace c = false) :
    fieldsL (c :: cs) = (c :: cs).takeWhile (fun d => !isspace d) ::
      fieldsL ((c :: cs).dropWhile (fun d => !isspace d)) := by
  have key : ∀ l : List Char,
      (match l.dropWhile (fun d => !isspace d) with
       | [] => []
       | _ :: r => r.splitOnP isspace).filter (fun t => !t.isEmpty)
        = fieldsL (l.dropWhile (fun d => !isspace d)) := by
    intro l
    induction l with
    | nil => simp [fieldsL]
    | cons x xs ih =>
      by_cases hx : isspace x = true
      · have : (x :: xs).dropWhile (fun d => !isspace d) = x :: xs := by
          simp [List.dropWhile, hx]
        rw [this]
        simp [fieldsL, List.splitOnP_cons, hx]
      · simp only [Bool.not_eq_true] at hx
        have : (x :: xs).dropWhile (fun d => !isspace d) = xs.dropWhile (fun d => !isspace d) := by
          simp [List.dropWhile, hx]
        rw [this]
        exact ih
  conv_lhs => rw [fieldsL, splitOnP_takeWhile_dropWhile]
  rw [List.filter_cons]
  have hne : (!((c :: cs).takeWhile (fun d => !isspace d)).isEmpty) = true := by
    simp [List.takeWhile, h]
  rw [if_pos hne, key]


theorem dropWhile_isspace_head (buf : List Char) (c : Char) (cs : List Char)
    (h : buf.dropWhile isspace = c :: cs) : isspace c = false := by
  have := List.head?_dropWhile_not isspace buf
  rw [h] at this
  simpa using this

theorem extract_failed (buf : List Char) (old : String) :
    IStringStream.extract ⟨buf, true⟩ old = (⟨buf, true⟩, old) := by
  simp [IStringStream.extract]

theorem extract_nil (buf : List Char) (old : String) (h : fieldsL buf = []) :
    IStringStream.extract ⟨buf, false⟩ old = (⟨[], true⟩, old) := by
  cases hd : buf.dropWhile isspace with
  | nil => simp [IStringStream.extract, hd]
  | cons c cs =>
    have hc := dropWhile_isspace_head buf c cs hd
    rw [← fieldsL_dropWhile, hd, fieldsL_cons_nonspace c cs hc] at h
    exact absurd h (List.cons_ne_nil _ _)

theorem extract_cons (buf : List Char) (old : String) (t : List Char) (ts : List (List Char))
    (h : fieldsL buf = t :: ts) :
    ∃ rest, IStringStream.extract ⟨buf, false⟩ old = (⟨rest, false⟩, String.mk t) ∧
      fieldsL rest = ts := by
  cases hd : buf.dropWhile isspace with
  | nil =>
    rw [← fieldsL_dropWhile, hd, fieldsL_nil] at h
    exact absurd h.symm (List.cons_ne_nil _ _)
  | cons c cs =>
    have hc := dropWhile_isspace_head buf c cs hd
    rw [← fieldsL_dropWhile, hd, fieldsL_cons_nonspace c cs hc] at h
    obtain ⟨h1, h2⟩ := List.cons.inj h
    refine ⟨(c :: cs).dropWhile (fun d => !isspace d), ?_, h2⟩
    simp only [IStringStream.extract, hd]
    simp [← h1]

theorem extract5_failed (buf : List Char) (v : CFundamentalnodeEntry) :
    extract5 ⟨buf, true⟩ v = (⟨buf, true⟩, v) := by
  simp [extract5, extract_failed]

theorem extract5_ok (buf : List Char) (v : CFundamentalnodeEntry)
    (a b c d e : List Char) (more : List (List Char))
    (h : fieldsL buf = a :: b :: c :: d :: e :: more) :
    ∃ rest, extract5 ⟨buf, false⟩ v =
      (⟨rest, false⟩, ⟨String.mk a, String.mk b, String.mk c, String.mk d, String.mk e⟩) ∧
      fieldsL rest = more := by
  obtain ⟨r1, e1, f1⟩ := extract_cons buf v.alias_ a _ h
  obtain ⟨r2, e2, f2⟩ := extract_cons r1 v.ip b _ f1
  obtain ⟨r3, e3, f3⟩ := extract_cons r2 v.privKey c _ f2
  obtain ⟨r4, e4, f4⟩ := extract_cons r3 v.txHash d _ f3
  obtain ⟨r5, e5, f5⟩ := extract_cons r4 v.outputIndex e _ f4
  exact ⟨r5, by simp [extract5, e1, e2, e3, e4, e5], f5⟩

theorem extract5_short (buf : List Char) (v : CFundamentalnodeEntry)
    (h : (fieldsL buf).length < 5) : (extract5 ⟨buf, false⟩ v).1.failbit = true := by
  match hf : fieldsL buf, h with
  | [], _ =>
    simp [extract5, extract_nil buf _ hf, extract_failed]
  | [a], _ =>
    obtain ⟨r1, e1, f1⟩ := extract_cons buf v.alias_ a _ hf
    simp [extract5, e1, extract_nil r1 _ f1, extract_failed]
  | [a, b], _ =>
    obtain ⟨r1, e1, f1⟩ := extract_cons buf v.alias_ a _ hf
    obtain ⟨r2, e2, f2⟩ := extract_cons r1 v.ip b _ f1
    simp [extract5, e1, e2, extract_nil r2 _ f2, extract_failed]
  | [a, b, c], _ =>
    obtain ⟨r1, e1, f1⟩ := extract_cons buf v.alias_ a _ hf
    obtain ⟨r2, e2, f2⟩ := extract_cons r1 v.ip b _ f1
    obtain ⟨r3, e3, f3⟩ := extract_cons r2 v.privKey c _ f2
    simp [extract5, e1, e2, e3, extract_nil r3 _ f3, extract_failed]
  | [a, b, c, d], _ =>
    obtain ⟨r1, e1, f1⟩ := extract_cons buf v.alias_ a _ hf
    obtain ⟨r2, e2, f2⟩ := extract_cons r1 v.ip b _ f1
    obtain ⟨r3, e3, f3⟩ := extract_cons r2 v.privKey c _ f2
    obtain ⟨r4, e4, f4⟩ := extract_cons r3 v.txHash d _ f3
    simp [extract5, e1, e2, e3, e4, extract_nil r4 _ f4, extract_failed]
  | _ :: _ :: _ :: _ :: _ :: _, h => exact absurd h (by simp)

/-- The loop body of `read`, with its second parse attempt, does on every line what the
one-pass reading does. -/
theorem readLine_eq_tolerant (env : ChainEnv) (linenumber : Nat) (line : String) :
    readLine env linenumber line = readLineTolerant env linenumber line := by
  unfold readLine readLineTolerant
  by_cases hE : line.data.isEmpty = true
  · simp [hE]
  · rw [if_neg hE, if_neg hE]
    simp only [fields, IStringStream.ofString]
    match hf : fieldsL line.data with
    | [] =>
      have h5 : (fieldsL line.data).length < 5 := by simp [hf]
      simp [extract_nil line.data "" hf, extract5_failed, IStringStream.str,
        IStringStream.clear, extract5_short line.data _ h5]
    | t :: ts =>
      obtain ⟨r1, e1, f1⟩ := extract_cons line.data "" t ts hf
      simp only [e1, List.map_cons]
      by_cases hc : (String.mk t).data.head? = some '#'
      · simp [hc]
      · simp only [Bool.not_false, Bool.true_and, beq_iff_eq, hc, if_false,
          IStringStream.str, IStringStream.clear, if_true]
        match hts : ts, hf with
        | b :: c :: d :: e :: more, hf =>
          obtain ⟨r5, e5, _⟩ := extract5_ok line.data ⟨"", "", "", "", ""⟩ t b c d e more hf
          simp [e5]
        | [], hf =>
          have h5 : (fieldsL line.data).length < 5 := by simp [hf]
          simp [extract5_short line.data _ h5]
        | [b], hf =>
          have h5 : (fieldsL line.data).length < 5 := by simp [hf]
          simp [extract5_short line.data _ h5]
        | [b, c], hf =>
          have h5 : (fieldsL line.data).length < 5 := by simp [hf]
          simp [extract5_short line.data _ h5]
        | [b, c, d], hf =>
          have h5 : (fieldsL line.data).length < 5 := by simp [hf]
          simp [extract5_short line.data _ h5]

/-! ### The loop of `read` -/

theorem readLine_kind (env : ChainEnv) (n m : Nat) (line : String) :
    (readLine env n line).kind = (readLine env m line).kind := by
  simp only [readLine_eq_tolerant, readLineTolerant, checkPort]
  split
  · rfl
  · split
    · rfl
    · split
      · rfl
      · split
        · split_ifs <;> rfl
        · rfl

theorem readLoop_linenumber (env : ChainEnv) (lines : List String) :
    ∀ (n m : Nat) (entries : List CFundamentalnodeEntry) (s s' : String),
      (readLoop env lines n entries s).ret = (readLoop env lines m entries s').ret ∧
      (readLoop env lines n entries s).entries = (readLoop env lines m entries s').entries := by
  induction lines with
  | nil => intro n m entries s s'; simp [readLoop]
  | cons line rest ih =>
    intro n m entries s s'
    have hk := readLine_kind env n m line
    cases h1 : readLine env n line <;> cases h2 : readLine env m line <;>
      simp [h1, h2, LineOutcome.kind] at hk <;> simp only [readLoop, h1, h2]
    · exact ih _ _ _ _ _
    · subst hk; exact ih _ _ _ _ _
    · simp

theorem readLoop_append_ok (env : ChainEnv) (pre : List String) :
    ∀ (post : List String) (n : Nat) (entries : List CFundamentalnodeEntry) (s : String),
      (readLoop env pre n entries s).ret = true →
      readLoop env (pre ++ post) n entries s =
        readLoop env post (n + pre.length) (readLoop env pre n entries s).entries s := by
  induction pre with
  | nil => intro post n entries s _; simp [readLoop]
  | cons line rest ih =>
    intro post n entries s h
    rw [List.cons_append]
    cases h1 : readLine env n line <;> simp only [readLoop, h1] at h ⊢
    · rw [ih post (n + 1) entries s h]; congr 1; simp; omega
    · rw [ih post (n + 1) _ s h]; congr 1; simp; omega
    · simp at h

theorem readLoop_append_fail (env : ChainEnv) (pre : List String) :
    ∀ (post : List String) (n : Nat) (entries : List CFundamentalnodeEntry) (s : String),
      (readLoop env pre n entries s).ret = false →
      readLoop env (pre ++ post) n entries s = readLoop env pre n entries s := by
  induction pre with
  | nil => intro post n entries s h; simp [readLoop] at h
  | cons line rest ih =>
    intro post n entries s h
    rw [List.cons_append]
    cases h1 : readLine env n line <;> simp only [readLoop, h1] at h ⊢
    · exact ih post (n + 1) entries s h
    · exact ih post (n + 1) _ s h

theorem readLoop_strErrRet_ok (env : ChainEnv) (lines : List String) :
    ∀ (n : Nat) (entries : List CFundamentalnodeEntry) (s : String),
      (readLoop env lines n entries s).ret = true →
      (readLoop env lines n entries s).strErrRet = s := by
  induction lines with
  | nil => intro n entries s _; rfl
  | cons line rest ih =>
    intro n entries s h
    cases h1 : readLine env n line <;> simp only [readLoop, h1] at h ⊢
    · exact ih _ _ _ h
    · exact ih _ _ _ h
    · simp at h

/-! ### Occurrence of a text inside a message -/

theorem Contains.refl (a : String) : Contains a a := List.infix_refl _

theorem Contains.append_right {b p : String} (a : String) (h : Contains b p) :
    Contains (a ++ b) p := by
  obtain ⟨s, t, hst⟩ := h
  refine ⟨a.data ++ s, t, ?_⟩
  simp only [String.data_append, ← hst, List.append_assoc]

theorem Contains.append_left {a p : String} (b : String) (h : Contains a p) :
    Contains (a ++ b) p := by
  obtain ⟨s, t, hst⟩ := h
  refine ⟨s, t ++ b.data, ?_⟩
  simp only [String.data_append, ← hst, List.append_assoc]

theorem contains_lineInfo_number (n : Nat) (line : String) :
    Contains (lineInfo n line) ("Line: " ++ toString n) :=
  Contains.append_left _ (Contains.append_left _ (Contains.append_left _ (Contains.refl _)))

theorem contains_lineInfo_quoted (n : Nat) (line : String) :
    Contains (lineInfo n line) ("\"" ++ line ++ "\"") := by
  refine ⟨("Line: " ++ toString n ++ "\n").data, [], ?_⟩
  simp [lineInfo, String.data_append]

theorem contains_invalid_port_head :
    Contains "Invalid port detected in fundamentalnode.conf" "Invalid port detected" :=
  ⟨[], " in fundamentalnode.conf".data, rfl⟩

/-! ### One line of the file -/

theorem fields_ne_nil_not_empty (line : String) (t : String) (ts : List String)
    (h : fields line = t :: ts) : line.data.isEmpty = false := by
  cases hd : line.data with
  | nil => simp [fields, hd, fieldsL_nil] at h
  | cons c cs => rfl

theorem readLine_of_fields (env : ChainEnv) (n : Nat) (line : String)
    (a ip k t o : String) (more : List String)
    (hfields : fields line = a :: ip :: k :: t :: o :: more)
    (hcomment : isComment line = false) :
    readLine env n line = checkPort env n line ⟨a, ip, k, t, o⟩ := by
  have hE := fields_ne_nil_not_empty line _ _ hfields
  have hc : ¬ (a.data.head? = some '#') := by
    simpa [isComment, hfields] using hcomment
  rw [readLine_eq_tolerant]
  simp [readLineTolerant, hE, hfields, hc]

theorem checkPort_policy (env : ChainEnv) (n : Nat) (line : String) (v : CFundamentalnodeEntry)
    (p : Int) (host : String) (hsplit : env.SplitHostPort v.ip = (p, host))
    (hp : p ≠ 0) (hhost : host ≠ "") :
    (portPolicy env p → checkPort env n line v = .add v) ∧
    (¬ portPolicy env p → ∃ msg, checkPort env n line v = .fail msg ∧
      (msg = errPortMainnet p n line env.mainnetDefaultPort ∨
        msg = errPortOther n line env.mainnetDefaultPort)) := by
  unfold checkPort portPolicy
  rw [hsplit]
  cases hm : env.isMain <;> by_cases hq : p = env.mainnetDefaultPort
  · have hd : env.mainnetDefaultPort ≠ 0 := hq ▸ hp
    simp [hhost, hq, hd]
  · simp [hp, hhost, hq]
  · have hd : env.mainnetDefaultPort ≠ 0 := hq ▸ hp
    simp [hhost, hq, hd]
  · simp [hp, hhost, hq]

theorem contains_errPortMainnet (p : Int) (n : Nat) (line : String) (d : Int) :
    Contains (errPortMainnet p n line d) "Invalid port detected" :=
  Contains.append_left _ (Contains.append_left _ (Contains.append_left _
    (Contains.append_left _ (Contains.append_left _ (Contains.append_left _
      contains_invalid_port_head)))))

theorem contains_errPortOther (n : Nat) (line : String) (d : Int) :
    Contains (errPortOther n line d) "Invalid port detected" :=
  Contains.append_left _ (Contains.append_left _ (Contains.append_left _
    (Contains.append_left _ contains_invalid_port_head)))

/-! ## The properties of `read` -/

/-- C1 (port policy of `read`). When the loop of `read` reaches a line that is not a
comment, has five fields `a ip k t o` (anything after them is ignored) and whose
`ip` splits into a non-empty host and a non-zero port `p`, then: the line is
accepted, i.e. the entry `(a, ip, k, t, o)` is added, if and only if either the
network is mainnet and `p` is the mainnet default port, or the network is not
mainnet and `p` is not the mainnet default port; when accepted the loop goes on with
the next line; in every other case `read` returns `false`, adds nothing, and the
error text contains "Invalid port detected". The test is equality with the one
default port. -/
theorem read_port_policy (env : ChainEnv) (linenumber : Nat) (line : String)
    (rest : List String) (entries : List CFundamentalnodeEntry) (strErrRet : String)
    (a ip k t o : String) (more : List String) (p : Int) (host : String)
    (hfields : fields line = a :: ip :: k :: t :: o :: more)
    (hcomment : isComment line = false)
    (hsplit : env.SplitHostPort ip = (p, host)) (hp : p ≠ 0) (hhost : host ≠ "") :
    (readLine env linenumber line = .add ⟨a, ip, k, t, o⟩ ↔ portPolicy env p) ∧
    (portPolicy env p →
      readLoop env (line :: rest) linenumber entries strErrRet =
        readLoop env rest (linenumber + 1) (entries ++ [⟨a, ip, k, t, o⟩]) strErrRet) ∧
    (¬ portPolicy env p →
      (readLoop env (line :: rest) linenumber entries strErrRet).ret = false ∧
      (readLoop env (line :: rest) linenumber entries strErrRet).entries = entries ∧
      Contains (readLoop env (line :: rest) linenumber entries strErrRet).strErrRet
        "Invalid port detected") := by
  have hrl := readLine_of_fields env linenumber line a ip k t o more hfields hcomment
  obtain ⟨hyes, hno⟩ :=
    checkPort_policy env linenumber line ⟨a, ip, k, t, o⟩ p host hsplit hp hhost
  refine ⟨⟨fun h => ?_, fun h => by rw [hrl, hyes h]⟩, fun h => ?_, fun h => ?_⟩
  · by_contra hn
    obtain ⟨msg, hmsg, _⟩ := hno hn
    rw [hrl, hmsg] at h
    exact LineOutcome.noConfusion h
  · simp only [readLoop, hrl, hyes h]
  · obtain ⟨msg, hmsg, hkind⟩ := hno h
    simp only [readLoop, hrl, hmsg, true_and]
    rcases hkind with hk | hk <;> rw [hk]
    · exact contains_errPortMainnet _ _ _ _
    · exact contains_errPortOther _ _ _

/-- C1, an instance: on mainnet with default port 24130 the line given as the example
in the file header is accepted. -/
theorem read_port_policy_witness :
    fields "fn1 127.0.0.2:24130 key txid 0" = ["fn1", "127.0.0.2:24130", "key", "txid", "0"] ∧
    isComment "fn1 127.0.0.2:24130 key txid 0" = false ∧
    mainnetEnv.SplitHostPort "127.0.0.2:24130" = (24130, "127.0.0.2") ∧
    ((readLine mainnetEnv 1 "fn1 127.0.0.2:24130 key txid 0" =
        .add ⟨"fn1", "127.0.0.2:24130", "key", "txid", "0"⟩ ↔ portPolicy mainnetEnv 24130) ∧
     (portPolicy mainnetEnv 24130 →
        readLoop mainnetEnv ["fn1 127.0.0.2:24130 key txid 0"] 1 [] "" =
          readLoop mainnetEnv [] (1 + 1)
            ([] ++ [⟨"fn1", "127.0.0.2:24130", "key", "txid", "0"⟩]) "") ∧
     (¬ portPolicy mainnetEnv 24130 →
        (readLoop mainnetEnv ["fn1 127.0.0.2:24130 key txid 0"] 1 [] "").ret = false ∧
        (readLoop mainnetEnv ["fn1 127.0.0.2:24130 key txid 0"] 1 [] "").entries = [] ∧
        Contains (readLoop mainnetEnv ["fn1 127.0.0.2:24130 key txid 0"] 1 [] "").strErrRet
          "Invalid port detected")) :=
  ⟨by decide, by decide, by decide,
    read_port_policy mainnetEnv 1 "fn1 127.0.0.2:24130 key txid 0" [] [] ""
      "fn1" "127.0.0.2:24130" "key" "txid" "0" [] 24130 "127.0.0.2"
      (by decide) (by decide) (by decide) (by decide) (by decide)⟩


theorem readLine_empty (env : ChainEnv) (n : Nat) (line : String)
    (h : line.data.isEmpty = true) : readLine env n line = .skip := by
  simp [readLine, h]

theorem readLine_comment (env : ChainEnv) (n : Nat) (line : String)
    (h : isComment line = true) : readLine env n line = .skip := by
  rw [readLine_eq_tolerant]
  unfold readLineTolerant
  unfold isComment at h
  split
  · rfl
  · split
    · rename_i hf; simp [hf] at h
    · rename_i t ts hf
      rw [hf] at h
      simp only [beq_iff_eq] at h
      simp [h]

theorem readLine_good (env : ChainEnv) (n : Nat) (line : String)
    (hc : isConfigLine line = true) (hg : GoodLine env line) :
    readLine env n line = .add (entryOfFields (fields line)) := by
  obtain ⟨h5, hhost, hport, hpol⟩ := hg
  simp only [isConfigLine, Bool.and_eq_true, Bool.not_eq_true'] at hc
  match hf : fields line, h5 with
  | [a, ip, k, t, o], _ =>
    rw [hf] at hhost hport hpol
    simp only [List.getD_cons_succ, List.getD_cons_zero] at hhost hport hpol
    rw [readLine_of_fields env n line a ip k t o [] hf hc.2]
    exact (checkPort_policy env n line ⟨a, ip, k, t, o⟩ _ _ rfl hport hhost).1 hpol

theorem readLoop_good (env : ChainEnv) (lines : List String) :
    ∀ (n : Nat) (entries : List CFundamentalnodeEntry) (s : String),
      (∀ line ∈ lines, isConfigLine line = true → GoodLine env line) →
      readLoop env lines n entries s =
        ⟨true, s, entries ++ (lines.filter isConfigLine).map (fun l => entryOfFields (fields l))⟩ := by
  induction lines with
  | nil => intro n entries s _; simp [readLoop]
  | cons line rest ih =>
    intro n entries s h
    have hrest : ∀ l ∈ rest, isConfigLine l = true → GoodLine env l :=
      fun l hl => h l (List.mem_cons_of_mem _ hl)
    by_cases hc : isConfigLine line = true
    · have hadd := readLine_good env n line hc (h line (List.mem_cons_self _ _) hc)
      simp only [readLoop, hadd, ih _ _ _ hrest, List.filter_cons, hc, if_true, List.map_cons,
        List.append_assoc, List.singleton_append]
    · have hskip : readLine env n line = .skip := by
        simp only [isConfigLine, Bool.and_eq_true, Bool.not_eq_true', not_and,
          Bool.not_eq_false] at hc
        by_cases hE : line.data.isEmpty = true
        · exact readLine_empty env n line hE
        · exact readLine_comment env n line (hc (by simpa using hE))
      simp only [readLoop, hskip, ih _ _ _ hrest, List.filter_cons, hc]
      simp

/-- C2 (a well-formed file is read in full). If the configuration file opens and every
line of it that is neither empty nor a comment has exactly five whitespace-delimited
fields, a host:port with non-empty host and non-zero port, and a port that complies
with the port policy, then `read` returns `true`, leaves the error text and the file
as they were, and appends to the entries exactly one entry per such line, in file
order, made of that line's five fields verbatim. -/
theorem read_well_formed_file (env : ChainEnv) (f : ConfigFile)
    (entries : List CFundamentalnodeEntry) (strErrRet content : String)
    (hcontent : f.content = some content) (hread : f.canRead = true)
    (hlines : ∀ line ∈ getLines content, isConfigLine line = true → GoodLine env line) :
    read env f entries strErrRet =
      (⟨true, strErrRet,
        entries ++ ((getLines content).filter isConfigLine).map
          (fun l => entryOfFields (fields l))⟩, f) := by
  have hgood : f.good = true := by simp [ConfigFile.good, hcontent, hread]
  simp only [read, hgood, Bool.not_true, Bool.false_eq_true, if_false, hcontent, Option.getD_some]
  rw [readLoop_good env _ 1 entries strErrRet hlines]

/-- C2, the instance of the specification: on mainnet with default port 24130 the file
holding the single line of the header's example yields exactly one entry, made of its
five fields. -/
theorem read_well_formed_file_witness :
    (∀ line ∈ getLines "fn1 127.0.0.2:24130 93HaYBVUCYjEMeeH1Y4sBGLALQZE1Yc1K64xiqgX37tGBDQL8Xg 2bcd3c84c84f87eaa86e4e56834c92927a07f9e18718810b92e0d0324456a67c 0\n",
      isConfigLine line = true → GoodLine mainnetEnv line) ∧
    read mainnetEnv ⟨some "fn1 127.0.0.2:24130 93HaYBVUCYjEMeeH1Y4sBGLALQZE1Yc1K64xiqgX37tGBDQL8Xg 2bcd3c84c84f87eaa86e4e56834c92927a07f9e18718810b92e0d0324456a67c 0\n", true, true⟩ [] "" =
      (⟨true, "",
        [] ++ ((getLines "fn1 127.0.0.2:24130 93HaYBVUCYjEMeeH1Y4sBGLALQZE1Yc1K64xiqgX37tGBDQL8Xg 2bcd3c84c84f87eaa86e4e56834c92927a07f9e18718810b92e0d0324456a67c 0\n").filter isConfigLine).map
          (fun l => entryOfFields (fields l))⟩,
        ⟨some "fn1 127.0.0.2:24130 93HaYBVUCYjEMeeH1Y4sBGLALQZE1Yc1K64xiqgX37tGBDQL8Xg 2bcd3c84c84f87eaa86e4e56834c92927a07f9e18718810b92e0d0324456a67c 0\n", true, true⟩) ∧
    ([] ++ ((getLines "fn1 127.0.0.2:24130 93HaYBVUCYjEMeeH1Y4sBGLALQZE1Yc1K64xiqgX37tGBDQL8Xg 2bcd3c84c84f87eaa86e4e56834c92927a07f9e18718810b92e0d0324456a67c 0\n").filter isConfigLine).map
        (fun l => entryOfFields (fields l))) =
      [⟨"fn1", "127.0.0.2:24130", "93HaYBVUCYjEMeeH1Y4sBGLALQZE1Yc1K64xiqgX37tGBDQL8Xg",
        "2bcd3c84c84f87eaa86e4e56834c92927a07f9e18718810b92e0d0324456a67c", "0"⟩] :=
  ⟨by decide,
   read_well_formed_file mainnetEnv _ [] "" _ rfl rfl (by decide),
   by decide⟩

/-- C3, as stated, fails: a configuration file that exists, opens and is empty is read
successfully with no entry and no error text, but nothing is written to it; it is
still empty afterwards and holds no header. -/
theorem read_empty_file_writes_no_header :
    read mainnetEnv ⟨some "", true, true⟩ [] "" = (⟨true, "", []⟩, ⟨some "", true, true⟩) ∧
    (read mainnetEnv ⟨some "", true, true⟩ [] "").2.content ≠ some strHeader := by
  decide

/-- C3, amended. When the configuration file cannot be opened for reading (it does
not exist, say), `read` returns `true`, adds no entry and leaves the error text as it
was; it appends the header to the file when the file can be opened for appending and
writes nothing otherwise. When the file opens and is empty,
`read` returns `true`, adds no entry, leaves the error text as it was and writes
nothing. The header consists of three lines, each starting with `#`. -/
theorem read_unopenable_or_empty (env : ChainEnv) (f : ConfigFile)
    (entries : List CFundamentalnodeEntry) (strErrRet : String) :
    (f.good = false →
      (read env f entries strErrRet).1 = ⟨true, strErrRet, entries⟩ ∧
      (f.canAppend = true →
        (read env f entries strErrRet).2.content = some (f.content.getD "" ++ strHeader)) ∧
      (f.canAppend = false → (read env f entries strErrRet).2 = f)) ∧
    (f.good = true → f.content = some "" →
      read env f entries strErrRet = (⟨true, strErrRet, entries⟩, f)) ∧
    (getLines strHeader).length = 3 ∧
    (∀ l ∈ getLines strHeader, l.data.head? = some '#') := by
  refine ⟨fun h => ?_, fun h hc => ?_, by decide, by decide⟩
  · refine ⟨by simp [read, h], fun ha => ?_, fun ha => ?_⟩
    · simp [read, h, ConfigFile.appendHeader, ha]
    · simp [read, h, ConfigFile.appendHeader, ha]
  · simp [read, h, hc, getLines, getLinesAux, readLoop]

/-- C3, amended, an instance: a missing file that can be created receives the header,
and an existing empty file is left alone. -/
theorem read_unopenable_or_empty_witness :
    ((⟨none, false, true⟩ : ConfigFile).good = false ∧
      (read mainnetEnv ⟨none, false, true⟩ [] "").1 = ⟨true, "", []⟩ ∧
      (read mainnetEnv ⟨none, false, true⟩ [] "").2.content = some ("" ++ strHeader)) ∧
    ((⟨some "", true, true⟩ : ConfigFile).good = true ∧
      read mainnetEnv ⟨some "", true, true⟩ [] "" = (⟨true, "", []⟩, ⟨some "", true, true⟩)) :=
  ⟨⟨by decide,
    ((read_unopenable_or_empty mainnetEnv ⟨none, false, true⟩ [] "").1 (by decide)).1,
    ((read_unopenable_or_empty mainnetEnv ⟨none, false, true⟩ [] "").1 (by decide)).2.1 rfl⟩,
   ⟨by decide,
    (read_unopenable_or_empty mainnetEnv ⟨some "", true, true⟩ [] "").2.1 (by decide) rfl⟩⟩

theorem readLoop_skip_line (env : ChainEnv) (pre post : List String) (c : String)
    (hc : c.data.isEmpty = true ∨ isComment c = true)
    (n : Nat) (entries : List CFundamentalnodeEntry) (s s' : String) :
    (readLoop env (pre ++ post) n entries s).ret =
        (readLoop env (pre ++ c :: post) n entries s').ret ∧
    (readLoop env (pre ++ post) n entries s).entries =
        (readLoop env (pre ++ c :: post) n entries s').entries := by
  have hpre := readLoop_linenumber env pre n n entries s s'
  have hskip : ∀ m, readLine env m c = .skip := fun m =>
    hc.elim (readLine_empty env m c) (readLine_comment env m c)
  cases hr : (readLoop env pre n entries s).ret with
  | false =>
    have hr' : (readLoop env pre n entries s').ret = false := by rw [← hpre.1, hr]
    rw [readLoop_append_fail env pre post n entries s hr,
      readLoop_append_fail env pre (c :: post) n entries s' hr']
    exact hpre
  | true =>
    have hr' : (readLoop env pre n entries s').ret = true := by rw [← hpre.1, hr]
    rw [readLoop_append_ok env pre post n entries s hr,
      readLoop_append_ok env pre (c :: post) n entries s' hr']
    simp only [readLoop, hskip, ← hpre.2]
    exact readLoop_linenumber env post _ _ _ _ _

/-- C4 (empty lines and comment lines are skipped). Let two configuration files that
can be opened differ by one line `c` that is empty or whose first whitespace-delimited
field starts with `#`: one has the lines `pre ++ post`, the other `pre ++ c :: post`. Then
`read` returns the same boolean and appends the same entries on both (so inserting or
deleting such a line changes neither), whatever the error text was before. -/
theorem read_skips_blank_and_comment (env : ChainEnv) (f g : ConfigFile)
    (content content' : String) (pre post : List String) (c : String)
    (entries : List CFundamentalnodeEntry) (s s' : String)
    (hf : f.content = some content) (hfr : f.canRead = true)
    (hg : g.content = some content') (hgr : g.canRead = true)
    (hlines : getLines content = pre ++ post)
    (hlines' : getLines content' = pre ++ c :: post)
    (hc : c = "" ∨ isComment c = true) :
    (read env f entries s).1.ret = (read env g entries s').1.ret ∧
    (read env f entries s).1.entries = (read env g entries s').1.entries := by
  have hfg : f.good = true := by simp [ConfigFile.good, hf, hfr]
  have hgg : g.good = true := by simp [ConfigFile.good, hg, hgr]
  have hc' : c.data.isEmpty = true ∨ isComment c = true :=
    hc.imp (fun h => by rw [h]; rfl) id
  simp only [read, hfg, hgg, Bool.not_true, Bool.false_eq_true, if_false, hf, hg,
    Option.getD_some, hlines, hlines']
  exact readLoop_skip_line env pre post c hc' 1 entries s s'

/-- C4, an instance: a comment line and an empty line put between two entries change
nothing in the result. -/
theorem read_skips_blank_and_comment_witness :
    (getLines "a 1.2.3.4:24130 k t 0\nb 1.2.3.5:24130 k t 1\n" =
        ["a 1.2.3.4:24130 k t 0"] ++ ["b 1.2.3.5:24130 k t 1"] ∧
      getLines "a 1.2.3.4:24130 k t 0\n  # note\nb 1.2.3.5:24130 k t 1\n" =
        ["a 1.2.3.4:24130 k t 0"] ++ "  # note" :: ["b 1.2.3.5:24130 k t 1"] ∧
      ("  # note" = "" ∨ isComment "  # note" = true)) ∧
    ((read mainnetEnv ⟨some "a 1.2.3.4:24130 k t 0\nb 1.2.3.5:24130 k t 1\n", true, true⟩
        [] "").1.ret =
      (read mainnetEnv
        ⟨some "a 1.2.3.4:24130 k t 0\n  # note\nb 1.2.3.5:24130 k t 1\n", true, true⟩
        [] "").1.ret ∧
     (read mainnetEnv ⟨some "a 1.2.3.4:24130 k t 0\nb 1.2.3.5:24130 k t 1\n", true, true⟩
        [] "").1.entries =
      (read mainnetEnv
        ⟨some "a 1.2.3.4:24130 k t 0\n  # note\nb 1.2.3.5:24130 k t 1\n", true, true⟩
        [] "").1.entries) :=
  ⟨⟨by decide, by decide, by decide⟩,
   read_skips_blank_and_comment mainnetEnv _ _ _ _
     ["a 1.2.3.4:24130 k t 0"] ["b 1.2.3.5:24130 k t 1"] "  # note" [] "" ""
     rfl rfl rfl rfl (by decide) (by decide) (by decide)⟩

theorem checkPort_fail_shape (env : ChainEnv) (n : Nat) (line : String)
    (v : CFundamentalnodeEntry) (msg : String) (h : checkPort env n line v = .fail msg) :
    msg = errHostPort n line ∨
    (∃ p, msg = errPortMainnet p n line env.mainnetDefaultPort) ∨
    msg = errPortOther n line env.mainnetDefaultPort := by
  unfold checkPort at h
  simp only at h
  split_ifs at h
  · exact Or.inl (LineOutcome.fail.inj h).symm
  · exact Or.inr (Or.inl ⟨_, (LineOutcome.fail.inj h).symm⟩)
  · exact Or.inr (Or.inr (LineOutcome.fail.inj h).symm)

theorem readLine_fail_shape (env : ChainEnv) (n : Nat) (line : String) (msg : String)
    (h : readLine env n line = .fail msg) :
    msg = errCouldNotParse n line ∨ msg = errHostPort n line ∨
    (∃ p, msg = errPortMainnet p n line env.mainnetDefaultPort) ∨
    msg = errPortOther n line env.mainnetDefaultPort := by
  rw [readLine_eq_tolerant] at h
  unfold readLineTolerant at h
  split at h
  · exact LineOutcome.noConfusion h
  · split at h
    · exact Or.inl (LineOutcome.fail.inj h).symm
    · split at h
      · exact LineOutcome.noConfusion h
      · split at h
        · exact Or.inr (checkPort_fail_shape env n line _ msg h)
        · exact Or.inl (LineOutcome.fail.inj h).symm

theorem contains_of_fail_shape (env : ChainEnv) (n : Nat) (line : String) (msg : String)
    (h : msg = errCouldNotParse n line ∨ msg = errHostPort n line ∨
      (∃ p, msg = errPortMainnet p n line env.mainnetDefaultPort) ∨
      msg = errPortOther n line env.mainnetDefaultPort) :
    Contains msg (lineInfo n line) := by
  rcases h with h | h | ⟨p, h⟩ | h <;> rw [h]
  · exact Contains.append_right _ (Contains.refl _)
  · exact Contains.append_right _ (Contains.refl _)
  · exact Contains.append_left _ (Contains.append_left _
      (Contains.append_right _ (Contains.refl _)))
  · exact Contains.append_left _ (Contains.append_left _
      (Contains.append_right _ (Contains.refl _)))

theorem Contains.trans {a b c : String} (h1 : Contains a b) (h2 : Contains b c) :
    Contains a c := List.IsInfix.trans h2 h1

theorem readLoop_fail_split (env : ChainEnv) (lines : List String) :
    ∀ (n : Nat) (entries : List CFundamentalnodeEntry) (s : String),
      (readLoop env lines n entries s).ret = false →
      ∃ pre line post msg, lines = pre ++ line :: post ∧
        (readLoop env pre n entries s).ret = true ∧
        readLine env (n + pre.length) line = .fail msg ∧
        readLoop env lines n entries s =
          ⟨false, msg, (readLoop env pre n entries s).entries⟩ := by
  induction lines with
  | nil => intro n entries s h; simp [readLoop] at h
  | cons l rest ih =>
    intro n entries s h
    cases h1 : readLine env n l with
    | fail msg =>
      exact ⟨[], l, rest, msg, rfl, rfl, by simpa using h1, by simp [readLoop, h1]⟩
    | skip =>
      simp only [readLoop, h1] at h ⊢
      obtain ⟨pre, line, post, msg, e1, e2, e3, e4⟩ := ih (n + 1) entries s h
      refine ⟨l :: pre, line, post, msg, by rw [e1]; rfl, ?_, ?_, ?_⟩
      · simpa only [readLoop, h1] using e2
      · rw [← e3]; congr 1; simp; omega
      · simpa only [readLoop, h1] using e4
    | add e =>
      simp only [readLoop, h1] at h ⊢
      obtain ⟨pre, line, post, msg, e1, e2, e3, e4⟩ := ih (n + 1) _ s h
      refine ⟨l :: pre, line, post, msg, by rw [e1]; rfl, ?_, ?_, ?_⟩
      · simpa only [readLoop, h1] using e2
      · rw [← e3]; congr 1; simp; omega
      · simpa only [readLoop, h1] using e4

theorem readLoop_stops_at_fail (env : ChainEnv) (pre : List String) (line : String)
    (post : List String) (n : Nat) (entries : List CFundamentalnodeEntry) (s msg : String)
    (hpre : (readLoop env pre n entries s).ret = true)
    (hline : readLine env (n + pre.length) line = .fail msg) :
    readLoop env (pre ++ line :: post) n entries s =
      ⟨false, msg, (readLoop env pre n entries s).entries⟩ := by
  rw [readLoop_append_ok env pre (line :: post) n entries s hpre]
  simp only [readLoop, hline]

/-- C5 (an error cites the offending line). Whenever `read` returns `false` on a
configuration file that opened, the lines of the file split as `pre ++ line :: post`
where reading `pre` alone succeeds (no line before `line` is offending) and `line`,
the physical line number `pre.length + 1` (empty and comment lines of `pre`
counted), is rejected. The error text is one of the three kinds of error (could not
parse, host:port, port policy in its two wordings) built for that line number and
that line; it contains "Line: n" for that number and the raw text of the line between
double quotes. The entries are those gathered from `pre`, and the outcome is the same
whatever follows the offending line: no later line is processed. -/
theorem read_error_cites_line (env : ChainEnv) (f : ConfigFile)
    (entries : List CFundamentalnodeEntry) (s content : String)
    (hcontent : f.content = some content) (hread : f.canRead = true)
    (hret : (read env f entries s).1.ret = false) :
    ∃ pre line post, getLines content = pre ++ line :: post ∧
      (readLoop env pre 1 entries s).ret = true ∧
      ((read env f entries s).1.strErrRet = errCouldNotParse (pre.length + 1) line ∨
        (read env f entries s).1.strErrRet = errHostPort (pre.length + 1) line ∨
        (∃ p, (read env f entries s).1.strErrRet =
          errPortMainnet p (pre.length + 1) line env.mainnetDefaultPort) ∨
        (read env f entries s).1.strErrRet =
          errPortOther (pre.length + 1) line env.mainnetDefaultPort) ∧
      Contains (read env f entries s).1.strErrRet ("Line: " ++ toString (pre.length + 1)) ∧
      Contains (read env f entries s).1.strErrRet ("\"" ++ line ++ "\"") ∧
      (read env f entries s).1.entries = (readLoop env pre 1 entries s).entries ∧
      ∀ post', readLoop env (pre ++ line :: post') 1 entries s = (read env f entries s).1 := by
  have hgood : f.good = true := by simp [ConfigFile.good, hcontent, hread]
  simp only [read, hgood, Bool.not_true, Bool.false_eq_true, if_false, hcontent,
    Option.getD_some] at hret ⊢
  obtain ⟨pre, line, post, msg, e1, e2, e3, e4⟩ :=
    readLoop_fail_split env (getLines content) 1 entries s hret
  have hn : 1 + pre.length = pre.length + 1 := by omega
  rw [hn] at e3
  have hshape := readLine_fail_shape env _ line msg e3
  have hinfo := contains_of_fail_shape env _ line msg hshape
  refine ⟨pre, line, post, e1, e2, ?_, ?_, ?_, ?_, ?_⟩
  · rw [e4]; exact hshape
  · rw [e4]; exact hinfo.trans (contains_lineInfo_number _ _)
  · rw [e4]; exact hinfo.trans (contains_lineInfo_quoted _ _)
  · rw [e4]
  · intro post'
    rw [e4]
    exact readLoop_stops_at_fail env pre line post' 1 entries s msg e2 (by rw [hn]; exact e3)

/-- C5, the instance of the specification: on mainnet with default port 24130 a line
with port 9999, third in its file after a comment and an empty line, makes `read`
fail. -/
theorem read_error_cites_line_witness :
    (read mainnetEnv ⟨some "# nodes\n\nfn1 127.0.0.2:9999 k t 0\nfn2 127.0.0.3:24130 k t 1\n",
        true, true⟩ [] "").1.ret = false ∧
    ∃ pre line post,
      getLines "# nodes\n\nfn1 127.0.0.2:9999 k t 0\nfn2 127.0.0.3:24130 k t 1\n" =
        pre ++ line :: post ∧
      (readLoop mainnetEnv pre 1 [] "").ret = true ∧
      ((read mainnetEnv ⟨some "# nodes\n\nfn1 127.0.0.2:9999 k t 0\nfn2 127.0.0.3:24130 k t 1\n",
          true, true⟩ [] "").1.strErrRet = errCouldNotParse (pre.length + 1) line ∨
        (read mainnetEnv ⟨some "# nodes\n\nfn1 127.0.0.2:9999 k t 0\nfn2 127.0.0.3:24130 k t 1\n",
          true, true⟩ [] "").1.strErrRet = errHostPort (pre.length + 1) line ∨
        (∃ p, (read mainnetEnv
          ⟨some "# nodes\n\nfn1 127.0.0.2:9999 k t 0\nfn2 127.0.0.3:24130 k t 1\n",
          true, true⟩ [] "").1.strErrRet =
          errPortMainnet p (pre.length + 1) line mainnetEnv.mainnetDefaultPort) ∨
        (read mainnetEnv ⟨some "# nodes\n\nfn1 127.0.0.2:9999 k t 0\nfn2 127.0.0.3:24130 k t 1\n",
          true, true⟩ [] "").1.strErrRet =
          errPortOther (pre.length + 1) line mainnetEnv.mainnetDefaultPort) ∧
      Contains (read mainnetEnv
        ⟨some "# nodes\n\nfn1 127.0.0.2:9999 k t 0\nfn2 127.0.0.3:24130 k t 1\n",
          true, true⟩ [] "").1.strErrRet ("Line: " ++ toString (pre.length + 1)) ∧
      Contains (read mainnetEnv
        ⟨some "# nodes\n\nfn1 127.0.0.2:9999 k t 0\nfn2 127.0.0.3:24130 k t 1\n",
          true, true⟩ [] "").1.strErrRet ("\"" ++ line ++ "\"") ∧
      (read mainnetEnv ⟨some "# nodes\n\nfn1 127.0.0.2:9999 k t 0\nfn2 127.0.0.3:24130 k t 1\n",
          true, true⟩ [] "").1.entries = (readLoop mainnetEnv pre 1 [] "").entries ∧
      ∀ post', readLoop mainnetEnv (pre ++ line :: post') 1 [] "" =
        (read mainnetEnv ⟨some "# nodes\n\nfn1 127.0.0.2:9999 k t 0\nfn2 127.0.0.3:24130 k t 1\n",
          true, true⟩ [] "").1 :=
  ⟨by decide,
   read_error_cites_line mainnetEnv _ [] "" _ rfl rfl (by decide)⟩

/-! ## The properties of the broadcast commands -/

theorem createAllLoop_eq {Fnb W : Type} (ops : FnbOps Fnb W)
    (entries : List CFundamentalnodeEntry) :
    ∀ acc : CreateAllAcc Fnb W,
      createAllLoop ops entries acc =
        { nSuccessful := acc.nSuccessful +
            (((createOutcomes ops entries acc.world).filter (fun o => o.1)).length : Int),
          nFailed := acc.nFailed +
            (((createOutcomes ops entries acc.world).filter (fun o => !o.1)).length : Int),
          resultsObj := acc.resultsObj ++
            List.zipWith (fun fne out => ("status", createStatus fne.alias_ out))
              entries (createOutcomes ops entries acc.world),
          vecFnb := acc.vecFnb ++
            ((createOutcomes ops entries acc.world).filter (fun o => o.1)).map (fun o => o.2.2),
          calls := acc.calls ++
            entries.map (fun fne =>
              Call.Create fne.ip fne.privKey fne.txHash fne.outputIndex true),
          world := createWorld ops entries acc.world } := by
  induction entries with
  | nil => intro acc; simp [createAllLoop, createOutcomes, createWorld]
  | cons fne rest ih =>
    intro acc
    cases hres : (ops.Create acc.world fne.ip fne.privKey fne.txHash fne.outputIndex true).1.1
    · simp only [createAllLoop, hres, ih, createOutcomes, createWorld, createStatus,
        List.filter_cons, List.zipWith_cons_cons, List.map_cons, Bool.false_eq_true, if_false,
        Bool.not_false, if_true, List.length_cons, List.append_assoc, List.singleton_append,
        List.cons_append, List.nil_append, Nat.cast_add, Nat.cast_one]
      congr 1
      omega
    · simp only [createAllLoop, hres, ih, createOutcomes, createWorld, createStatus,
        List.filter_cons, List.zipWith_cons_cons, List.map_cons, Bool.false_eq_true, if_false,
        Bool.not_true, if_true, List.length_cons, List.append_assoc, List.singleton_append,
        List.cons_append, List.nil_append, Nat.cast_add, Nat.cast_one, List.append_nil]
      congr 1
      omega

theorem createOutcomes_length {Fnb W : Type} (ops : FnbOps Fnb W)
    (entries : List CFundamentalnodeEntry) :
    ∀ w : W, (createOutcomes ops entries w).length = entries.length := by
  induction entries with
  | nil => intro w; rfl
  | cons fne rest ih => intro w; simp [createOutcomes, ih]

theorem filter_length_add_filter_not {α : Type} (p : α → Bool) (l : List α) :
    (l.filter p).length + (l.filter (fun a => !p a)).length = l.length := by
  induction l with
  | nil => rfl
  | cons a l ih =>
    cases h : p a <;> simp [List.filter_cons, h] <;> omega

/-- C6 (best-effort batch creation). When the guards of `create-all` let it through,
then for every list of configured entries and whatever the outcomes of `Create` are:
`Create` is called exactly once per entry, in the order of the configuration, and
nothing else is called; the member `detail` holds one status per entry, in that order,
made of the entry's alias, "successful" or "failed" according to that entry's own
outcome, and the error message exactly when it failed; the member `overall` reports the
number of successes and of failures, which add up to the number of entries; and the
member `hex` encodes exactly the announcements created successfully, in the order of
the configuration. No failure ends the loop or touches the status of another alias. -/
theorem create_all_best_effort {Fnb W : Type} (ops : FnbOps Fnb W) (ws : WalletState)
    (entries : List CFundamentalnodeEntry) (w : W)
    (hAvailable : ws.EnsureWalletIsAvailable = .ok true)
    (hImporting : ws.fImporting = false) (hReindex : ws.fReindex = false)
    (hUnlocked : ws.EnsureWalletIsUnlocked = .ok ()) :
    (broadcastCreateAll ops ws entries w).calls =
      entries.map (fun fne => Call.Create fne.ip fne.privKey fne.txHash fne.outputIndex true) ∧
    (broadcastCreateAll ops ws entries w).result =
      .ok (.obj
        [("overall", .str (overallCreated
            (((createOutcomes ops entries w).filter (fun o => o.1)).length : Int)
            (((createOutcomes ops entries w).filter (fun o => !o.1)).length : Int))),
         ("detail", .obj (List.zipWith
            (fun fne out => ("status", createStatus fne.alias_ out))
            entries (createOutcomes ops entries w))),
         ("hex", .str (HexStr (SerializeVec ops
            (((createOutcomes ops entries w).filter (fun o => o.1)).map
              (fun o => o.2.2)))))]) ∧
    (createOutcomes ops entries w).length = entries.length ∧
    (List.zipWith (fun fne out => ("status", createStatus fne.alias_ out))
      entries (createOutcomes ops entries w)).length = entries.length ∧
    ((createOutcomes ops entries w).filter (fun o => o.1)).length +
      ((createOutcomes ops entries w).filter (fun o => !o.1)).length = entries.length := by
  have hlen := createOutcomes_length ops entries w
  refine ⟨?_, ?_, hlen, by simp [hlen], ?_⟩
  · simp [broadcastCreateAll, hAvailable, hImporting, hReindex, hUnlocked, createAllLoop_eq]
  · simp [broadcastCreateAll, hAvailable, hImporting, hReindex, hUnlocked, createAllLoop_eq]
  · rw [filter_length_add_filter_not, hlen]

/-- C6, an instance: three configured aliases of which the second has no key. -/
theorem create_all_best_effort_witness :
    (walletReady.EnsureWalletIsAvailable = .ok true ∧ walletReady.fImporting = false ∧
      walletReady.fReindex = false ∧ walletReady.EnsureWalletIsUnlocked = .ok ()) ∧
    (broadcastCreateAll sampleOps walletReady
        [⟨"a", "1.2.3.4:5", "k", "t", "0"⟩, ⟨"b", "1.2.3.4:5", "", "t", "0"⟩,
          ⟨"c", "1.2.3.4:55", "k", "t", "0"⟩] 0).calls =
      [Call.Create "1.2.3.4:5" "k" "t" "0" true, Call.Create "1.2.3.4:5" "" "t" "0" true,
        Call.Create "1.2.3.4:55" "k" "t" "0" true] ∧
    (broadcastCreateAll sampleOps walletReady
        [⟨"a", "1.2.3.4:5", "k", "t", "0"⟩, ⟨"b", "1.2.3.4:5", "", "t", "0"⟩,
          ⟨"c", "1.2.3.4:55", "k", "t", "0"⟩] 0).result =
      .ok (.obj
        [("overall", .str
            "Successfully created broadcast messages for 2 fundamentalnodes, failed to create 1, total 3"),
         ("detail", .obj
            [("status", .obj [("alias", .str "a"), ("result", .str "successful")]),
             ("status", .obj [("alias", .str "b"), ("result", .str "failed"),
                ("errorMessage", .str "Invalid fundamentalnode key")]),
             ("status", .obj [("alias", .str "c"), ("result", .str "successful")])]),
         ("hex", .str "0209090a0a")]) :=
  ⟨⟨rfl, rfl, rfl, rfl⟩,
   (create_all_best_effort sampleOps walletReady
    [⟨"a", "1.2.3.4:5", "k", "t", "0"⟩, ⟨"b", "1.2.3.4:5", "", "t", "0"⟩,
      ⟨"c", "1.2.3.4:55", "k", "t", "0"⟩] 0 rfl rfl rfl rfl).1,
   (create_all_best_effort sampleOps walletReady
    [⟨"a", "1.2.3.4:5", "k", "t", "0"⟩, ⟨"b", "1.2.3.4:5", "", "t", "0"⟩,
      ⟨"c", "1.2.3.4:55", "k", "t", "0"⟩] 0 rfl rfl rfl rfl).2.1⟩

/-! ### Hexadecimal strings and serialized vectors -/

theorem HexDigit_hexChar (n : Nat) (h : n < 16) : HexDigit (hexChar n) = some n := by
  interval_cases n <;> decide

theorem HexStr_cons (b : Byte) (bs : List Byte) :
    (HexStr (b :: bs)).data = hexChar (b.val / 16) :: hexChar (b.val % 16) :: (HexStr bs).data := by
  simp [HexStr]

theorem ParseHex_HexStr (bs : List Byte) : ParseHex (HexStr bs) = bs := by
  unfold ParseHex
  induction bs with
  | nil => simp [HexStr, ParseHexAux]
  | cons b bs ih =>
    have h1 : b.val / 16 < 16 := by have := b.isLt; omega
    have h2 : b.val % 16 < 16 := Nat.mod_lt _ (by decide)
    rw [HexStr_cons, ParseHexAux, HexDigit_hexChar _ h1, HexDigit_hexChar _ h2]
    simp only [ih, List.cons.injEq, and_true]
    apply Fin.ext
    have := b.isLt
    simp only [Fin.ofNat, Fin.val_mk]
    omega

theorem IsHex_HexStr (bs : List Byte) (h : bs ≠ []) : IsHex (HexStr bs) = true := by
  have hall : ∀ l : List Byte, (HexStr l).data.all (fun c => (HexDigit c).isSome) = true := by
    intro l
    induction l with
    | nil => simp [HexStr]
    | cons b l ih =>
      have h1 : b.val / 16 < 16 := by have := b.isLt; omega
      have h2 : b.val % 16 < 16 := Nat.mod_lt _ (by decide)
      rw [HexStr_cons]
      simp only [List.all_cons, HexDigit_hexChar _ h1, HexDigit_hexChar _ h2, Option.isSome_some,
        Bool.true_and, ih]
  have hlen : ∀ l : List Byte, (HexStr l).data.length = 2 * l.length := by
    intro l
    induction l with
    | nil => simp [HexStr]
    | cons b l ih => rw [HexStr_cons]; simp [ih]; omega
  have hpos : 0 < bs.length := List.length_pos.mpr h
  simp only [IsHex, hall, hlen, Bool.true_and, Bool.and_eq_true, decide_eq_true_eq]
  omega

theorem IsHex_false_of_not_digit (pre post : List Char) (c : Char) (h : HexDigit c = none) :
    IsHex (String.mk (pre ++ c :: post)) = false := by
  simp [IsHex, h]

theorem unserializeElems_serialized {Fnb W : Type} (ops : FnbOps Fnb W) (v : List Fnb) :
    ∀ (acc : List Fnb) (rest : List Byte),
      (∀ x ∈ v, ∀ r, ops.Unserialize (ops.Serialize x ++ r) = some (x, r)) →
      unserializeElems ops v.length ((v.map ops.Serialize).flatten ++ rest) acc =
        (true, acc ++ v, rest) := by
  induction v with
  | nil => intro acc rest _; simp [unserializeElems]
  | cons x v ih =>
    intro acc rest h
    have hx := h x (List.mem_cons_self _ _)
    simp only [List.map_cons, List.flatten_cons, List.append_assoc, List.length_cons,
      unserializeElems, hx]
    rw [ih _ _ (fun y hy => h y (List.mem_cons_of_mem _ hy))]
    simp

theorem decode_of_encoded {Fnb W : Type} (ops : FnbOps Fnb W) (v v0 : List Fnb)
    (hsize : ∀ r, ops.ReadCompactSize (ops.WriteCompactSize v.length ++ r) = some (v.length, r))
    (hne : ops.WriteCompactSize v.length ≠ [])
    (helem : ∀ x ∈ v, ∀ r, ops.Unserialize (ops.Serialize x ++ r) = some (x, r)) :
    DecodeHexVecFnb ops v0 (HexStr (SerializeVec ops v)) = (true, v) := by
  have hne' : SerializeVec ops v ≠ [] := by
    simp [SerializeVec, hne]
  have hu : UnserializeVec ops (SerializeVec ops v) = (true, v, []) := by
    have := unserializeElems_serialized ops v [] [] helem
    simp only [List.append_nil, List.nil_append] at this
    simp only [UnserializeVec, SerializeVec, hsize, this]
  simp [DecodeHexVecFnb, IsHex_HexStr _ hne', ParseHex_HexStr, hu]

theorem unserializeElems_fail_later {Fnb W : Type} (ops : FnbOps Fnb W) (k : Nat) :
    ∀ (m : Nat) (data : List Byte) (acc acc' : List Fnb) (data' : List Byte),
      unserializeElems ops k data acc = (true, acc', data') →
      ops.Unserialize data' = none →
      unserializeElems ops (k + (m + 1)) data acc = (false, acc', data') := by
  induction k with
  | zero =>
    intro m data acc acc' data' h hnone
    simp only [unserializeElems, Prod.mk.injEq, true_and] at h
    obtain ⟨h1, h2⟩ := h
    subst h1 h2
    simp [unserializeElems, hnone]
  | succ k ih =>
    intro m data acc acc' data' h hnone
    have hk : k + 1 + (m + 1) = (k + (m + 1)) + 1 := by omega
    rw [hk]
    simp only [unserializeElems] at h ⊢
    cases hd : ops.Unserialize data with
    | none => simp [hd] at h
    | some p =>
      simp only [hd] at h ⊢
      exact ih m _ _ _ _ h hnone

/-- C7 (decoding fails as a whole). If the string is not valid hex, or the
deserialization of the batch throws (at the length, or at any element: after `k`
elements have been read, one of the remaining ones cannot be), then `DecodeHexVecFnb`
returns `false`. When it returns `false`, both `decode` and `relay`, called with that
string, throw the deserialization error for the whole batch: they return no result,
make no call at all (no signature is checked, nothing is submitted to the registry)
and leave the outside state as it was. -/
theorem decode_fails_atomically {Fnb W : Type} (ops : FnbOps Fnb W) (v0 : List Fnb)
    (hex : String) (w : W) :
    (IsHex hex = false → (DecodeHexVecFnb ops v0 hex).1 = false) ∧
    ((UnserializeVec ops (ParseHex hex)).1 = false → (DecodeHexVecFnb ops v0 hex).1 = false) ∧
    (∀ n data k m acc' data',
      ops.ReadCompactSize (ParseHex hex) = some (n, data) → n = k + (m + 1) →
      unserializeElems ops k data [] = (true, acc', data') →
      ops.Unserialize data' = none →
      (DecodeHexVecFnb ops v0 hex).1 = false) ∧
    ((DecodeHexVecFnb ops [] hex).1 = false →
      (∀ params : List String, params.length = 2 → params.getD 1 "" = hex →
        broadcastDecode ops params w = ⟨.error decodeFailed, [], w⟩) ∧
      (∀ params : List String, 2 ≤ params.length → params.length ≤ 3 →
        params.getD 1 "" = hex →
        broadcastRelay ops params w = ⟨.error decodeFailed, [], w⟩)) := by
  have hU : (UnserializeVec ops (ParseHex hex)).1 = false →
      (DecodeHexVecFnb ops v0 hex).1 = false := by
    intro h
    unfold DecodeHexVecFnb
    by_cases hh : IsHex hex = true
    · simp [hh, h]
    · simp [hh]
  refine ⟨fun h => by simp [DecodeHexVecFnb, h], hU, ?_, fun h => ⟨?_, ?_⟩⟩
  · intro n data k m acc' data' hsize hn hk hnone
    apply hU
    subst hn
    simp [UnserializeVec, hsize, unserializeElems_fail_later ops k m data [] acc' data' hk hnone]
  · intro params hlen hp
    subst hp
    simp only [broadcastDecode, hlen, bne_self_eq_false, Bool.false_eq_true, if_false, h,
      Bool.not_false, if_true]
  · intro params h2 h3 hp
    subst hp
    have hb : (decide (params.length < 2) || decide (params.length > 3)) = false := by
      simp only [Bool.or_eq_false_iff, decide_eq_false_iff_not]
      omega
    simp only [broadcastRelay, hb, Bool.false_eq_true, if_false, h, Bool.not_false, if_true]

/-- C7, an instance: a batch announcing two elements and holding one and a half is
refused by `decode` and by `relay`. -/
theorem decode_fails_atomically_witness :
    (UnserializeVec sampleOps (ParseHex "02010102")).1 = false ∧
    (DecodeHexVecFnb sampleOps [] "02010102").1 = false ∧
    broadcastDecode sampleOps ["decode", "02010102"] 0 = ⟨.error decodeFailed, [], 0⟩ ∧
    broadcastRelay sampleOps ["relay", "02010102"] 0 = ⟨.error decodeFailed, [], 0⟩ :=
  ⟨by decide,
   (decode_fails_atomically sampleOps [] "02010102" 0).2.1 (by decide),
   ((decode_fails_atomically sampleOps [] "02010102" 0).2.2.2 (by decide)).1
      ["decode", "02010102"] rfl rfl,
   ((decode_fails_atomically sampleOps [] "02010102" 0).2.2.2 (by decide)).2
      ["relay", "02010102"] (by decide) (by decide) rfl⟩

/-- C8 (round trip). For every list of announcements on whose length and elements the
stream operations round-trip (reading what was written gives it back and leaves the
rest of the stream), and whose length takes at least one byte, hex-encoding the
serialized vector, as `create-all` and `create-alias` do, and passing the string to
`DecodeHexVecFnb` returns `true` and yields exactly the same announcements in the same
order, whatever the vector held before. -/
theorem encode_decode_round_trip {Fnb W : Type} (ops : FnbOps Fnb W) (v v0 : List Fnb)
    (hsize : ∀ r, ops.ReadCompactSize (ops.WriteCompactSize v.length ++ r) = some (v.length, r))
    (hne : ops.WriteCompactSize v.length ≠ [])
    (helem : ∀ x ∈ v, ∀ r, ops.Unserialize (ops.Serialize x ++ r) = some (x, r)) :
    DecodeHexVecFnb ops v0 (HexStr (SerializeVec ops v)) = (true, v) ∧
    (DecodeHexVecFnb ops v0 (HexStr (SerializeVec ops v))).2.length = v.length :=
  ⟨decode_of_encoded ops v v0 hsize hne helem, by rw [decode_of_encoded ops v v0 hsize hne helem]⟩

theorem sampleOps_size (n : Nat) (h : n < 253) (r : List Byte) :
    sampleOps.ReadCompactSize (sampleOps.WriteCompactSize n ++ r) = some (n, r) := by
  have h' : n % 256 = n := Nat.mod_eq_of_lt (by omega)
  simp [sampleOps, h, Fin.ofNat, h']

theorem sampleOps_elem (x : SampleFnb) (r : List Byte) :
    sampleOps.Unserialize (sampleOps.Serialize x ++ r) = some (x, r) := by
  simp [sampleOps]

/-- C8, an instance: a batch of two announcements. -/
theorem encode_decode_round_trip_witness :
    HexStr (SerializeVec sampleOps [⟨1, 1⟩, ⟨2, 7⟩]) = "0201010207" ∧
    DecodeHexVecFnb sampleOps [] (HexStr (SerializeVec sampleOps [⟨1, 1⟩, ⟨2, 7⟩])) =
      (true, [⟨1, 1⟩, ⟨2, 7⟩]) ∧
    (DecodeHexVecFnb sampleOps []
      (HexStr (SerializeVec sampleOps [⟨1, 1⟩, ⟨2, 7⟩]))).2.length = 2 :=
  ⟨by decide,
   encode_decode_round_trip sampleOps [⟨1, 1⟩, ⟨2, 7⟩] []
     (fun r => sampleOps_size 2 (by decide) r) (by decide)
     (fun x _ r => sampleOps_elem x r)⟩

/-- C9, as stated, fails: decoding has no integrity check. On the stand-in encoding the
batch of the announcements (1,1) and (2,2) has the payload "0201010202"; with its
eighth character changed the payload still decodes, to a batch with a different second
announcement; and with its second character changed (the length 2 becoming 1) it still
decodes, to the first announcement alone, the bytes left over being ignored. -/
theorem corrupted_payload_still_decodes :
    HexStr (SerializeVec sampleOps [⟨1, 1⟩, ⟨2, 2⟩]) = "0201010202" ∧
    DecodeHexVecFnb sampleOps [] "0201010302" = (true, [⟨1, 1⟩, ⟨3, 2⟩]) ∧
    DecodeHexVecFnb sampleOps [] "0101010202" = (true, [⟨1, 1⟩]) := by
  decide

/-- C9, amended. Take the payload produced by encoding a batch `v`, which decodes to
`v` when the stream operations round-trip on `v`, and change one of its characters. If
the new character is not a hexadecimal digit, decoding fails for the whole batch:
`DecodeHexVecFnb` returns `false` and leaves the vector as it was. If the changed
payload is the encoding of another batch (on which the stream operations round-trip),
the change is not detected: `DecodeHexVecFnb` returns `true` with that other batch. -/
theorem corrupted_payload_outcome {Fnb W : Type} (ops : FnbOps Fnb W) (v v0 : List Fnb)
    (pre post : List Char) (c c' : Char)
    (hpayload : (HexStr (SerializeVec ops v)).data = pre ++ c :: post) :
    ((∀ r, ops.ReadCompactSize (ops.WriteCompactSize v.length ++ r) = some (v.length, r)) →
      ops.WriteCompactSize v.length ≠ [] →
      (∀ x ∈ v, ∀ r, ops.Unserialize (ops.Serialize x ++ r) = some (x, r)) →
      DecodeHexVecFnb ops v0 (String.mk (pre ++ c :: post)) = (true, v)) ∧
    (HexDigit c' = none →
      DecodeHexVecFnb ops v0 (String.mk (pre ++ c' :: post)) = (false, v0)) ∧
    (∀ v' : List Fnb,
      (∀ r, ops.ReadCompactSize (ops.WriteCompactSize v'.length ++ r) = some (v'.length, r)) →
      ops.WriteCompactSize v'.length ≠ [] →
      (∀ x ∈ v', ∀ r, ops.Unserialize (ops.Serialize x ++ r) = some (x, r)) →
      HexStr (SerializeVec ops v') = String.mk (pre ++ c' :: post) →
      DecodeHexVecFnb ops v0 (String.mk (pre ++ c' :: post)) = (true, v')) := by
  refine ⟨fun h1 h2 h3 => ?_, fun h => ?_, fun v' h1 h2 h3 h4 => ?_⟩
  · rw [← hpayload]
    exact decode_of_encoded ops v v0 h1 h2 h3
  · simp [DecodeHexVecFnb, IsHex_false_of_not_digit pre post c' h]
  · rw [← h4]
    exact decode_of_encoded ops v' v0 h1 h2 h3

/-- C9, amended, an instance: in the payload "0201010202" the eighth character is
replaced, once by a character that is no digit and once by another digit. -/
theorem corrupted_payload_outcome_witness :
    (HexStr (SerializeVec sampleOps [⟨1, 1⟩, ⟨2, 2⟩])).data =
      "0201010".data ++ '2' :: "02".data ∧
    DecodeHexVecFnb sampleOps [] (String.mk ("0201010".data ++ '2' :: "02".data)) =
      (true, [⟨1, 1⟩, ⟨2, 2⟩]) ∧
    (HexDigit 'x' = none ∧
      DecodeHexVecFnb sampleOps [] (String.mk ("0201010".data ++ 'x' :: "02".data)) =
        (false, [])) ∧
    (HexStr (SerializeVec sampleOps [⟨1, 1⟩, ⟨3, 2⟩]) =
        String.mk ("0201010".data ++ '3' :: "02".data) ∧
      DecodeHexVecFnb sampleOps [] (String.mk ("0201010".data ++ '3' :: "02".data)) =
        (true, [⟨1, 1⟩, ⟨3, 2⟩])) :=
  ⟨by decide,
   (corrupted_payload_outcome sampleOps [⟨1, 1⟩, ⟨2, 2⟩] [] "0201010".data "02".data '2' 'x'
      (by decide)).1 (fun r => sampleOps_size 2 (by decide) r) (by decide)
      (fun x _ r => sampleOps_elem x r),
   ⟨by decide,
    (corrupted_payload_outcome sampleOps [⟨1, 1⟩, ⟨2, 2⟩] [] "0201010".data "02".data '2' 'x'
      (by decide)).2.1 (by decide)⟩,
   ⟨by decide,
    (corrupted_payload_outcome sampleOps [⟨1, 1⟩, ⟨2, 2⟩] [] "0201010".data "02".data '2' '3'
      (by decide)).2.2 [⟨1, 1⟩, ⟨3, 2⟩]
      (fun r => sampleOps_size 2 (by decide) r) (by decide)
      (fun x _ r => sampleOps_elem x r) (by decide)⟩⟩

theorem decodeLoop_eq {Fnb W : Type} (ops : FnbOps Fnb W) (v : List Fnb) :
    ∀ acc : DecodeAcc Fnb,
      (decodeLoop ops v acc).nSuccessful =
        acc.nSuccessful + ((v.filter (fun fnb => (ops.CheckSignature fnb).1)).length : Int) ∧
      (decodeLoop ops v acc).nFailed =
        acc.nFailed + ((v.filter (fun fnb => !(ops.CheckSignature fnb).1)).length : Int) ∧
      (decodeLoop ops v acc).returnObj = acc.returnObj ++ v.map (decodeItem ops) ∧
      (decodeLoop ops v acc).calls = acc.calls ++ v.map Call.CheckSignature := by
  induction v with
  | nil => intro acc; simp [decodeLoop]
  | cons fnb rest ih =>
    intro acc
    cases hc : (ops.CheckSignature fnb).1
    · simp only [decodeLoop, hc, Bool.false_eq_true, if_false]
      obtain ⟨h1, h2, h3, h4⟩ := ih
        { nSuccessful := acc.nSuccessful, nFailed := acc.nFailed + 1,
          nDos := (ops.CheckSignature fnb).2,
          returnObj := acc.returnObj ++ [(ops.GetHash fnb, .obj signatureFailed)],
          calls := acc.calls ++ [Call.CheckSignature fnb] }
      rw [h1, h2, h3, h4]
      simp only [List.filter_cons, hc, Bool.false_eq_true, if_false, Bool.not_false, if_true,
        List.length_cons, Nat.cast_add, Nat.cast_one, List.map_cons, decodeItem,
        decodedFields, signatureFailed,
        List.append_assoc, List.singleton_append, true_and, and_true]
      omega
    · simp only [decodeLoop, hc, if_true]
      obtain ⟨h1, h2, h3, h4⟩ := ih
        { nSuccessful := acc.nSuccessful + 1, nFailed := acc.nFailed,
          nDos := (ops.CheckSignature fnb).2,
          returnObj := acc.returnObj ++ [(ops.GetHash fnb, .obj (decodedFields ops fnb))],
          calls := acc.calls ++ [Call.CheckSignature fnb] }
      rw [h1, h2, h3, h4]
      simp only [List.filter_cons, hc, Bool.false_eq_true, if_false, Bool.not_true, if_true,
        List.length_cons, Nat.cast_add, Nat.cast_one, List.map_cons, decodeItem,
        decodedFields, signatureFailed,
        List.append_assoc, List.singleton_append, true_and, and_true]
      omega

/-- C10 (decoding succeeds whatever the signatures are). For every string that
`DecodeHexVecFnb` decodes into a batch `v`, `decode` returns a value, never an error:
an object with one member per announcement, in the order of the batch, keyed by the
announcement's hash, that holds the parsed fields when the announcement's
`CheckSignature` succeeds and only the signature-failure message otherwise, followed
by the member `overall`, whose text reports as successes the number of announcements
whose signature verifies, as failures the number of the others, and as total the size
of the batch, which the two add up to. The only calls made are the signature checks,
one per announcement, and the outside state is left as it was. -/
theorem decode_reports_every_item {Fnb W : Type} (ops : FnbOps Fnb W)
    (params : List String) (w : W) (v : List Fnb)
    (hparams : params.length = 2)
    (hdecoded : DecodeHexVecFnb ops [] (params.getD 1 "") = (true, v)) :
    broadcastDecode ops params w =
      ⟨.ok (.obj (v.map (decodeItem ops) ++
          [("overall", .str
            ("Successfully decoded broadcast messages for " ++
              toString ((v.filter (fun fnb => (ops.CheckSignature fnb).1)).length : Int) ++
              " fundamentalnodes, failed to decode " ++
              toString ((v.filter (fun fnb => !(ops.CheckSignature fnb).1)).length : Int) ++
              ", total " ++ toString (v.length : Int)))])),
        v.map Call.CheckSignature, w⟩ ∧
    (v.map (decodeItem ops)).length = v.length ∧
    (v.filter (fun fnb => (ops.CheckSignature fnb).1)).length +
      (v.filter (fun fnb => !(ops.CheckSignature fnb).1)).length = v.length ∧
    (∀ fnb ∈ v,
      (((decodeItem ops fnb).2.members.lookup "errorMessage").isSome =
        !(ops.CheckSignature fnb).1) ∧
      (((decodeItem ops fnb).2.members.lookup "outpoint").isSome =
        (ops.CheckSignature fnb).1) ∧
      (decodeItem ops fnb).2.members.length = if (ops.CheckSignature fnb).1 then 9 else 1) := by
  have hsum := filter_length_add_filter_not (fun fnb => (ops.CheckSignature fnb).1) v
  refine ⟨?_, by simp, hsum, fun fnb _ => ?_⟩
  · obtain ⟨h1, h2, h3, h4⟩ := decodeLoop_eq ops v ⟨0, 0, 0, [], []⟩
    have htotal :
        ((v.filter (fun fnb => (ops.CheckSignature fnb).1)).length : Int) +
          ((v.filter (fun fnb => !(ops.CheckSignature fnb).1)).length : Int) =
        (v.length : Int) := by exact_mod_cast hsum
    simp only [broadcastDecode, hparams, bne_self_eq_false, Bool.false_eq_true, if_false,
      hdecoded, Bool.not_true, h1, h2, h3, h4, zero_add, List.nil_append, overallDecoded,
      htotal]
  · cases hc : (ops.CheckSignature fnb).1 <;>
      simp [decodeItem, hc, UniValue.members, List.lookup]

/-- C10, an instance: a batch of two announcements of which the second has a wrong
signature is decoded, and reported item by item: the first with its fields, the second
with the failure message only, and the counts 1, 1 and 2. -/
theorem decode_reports_every_item_witness :
    (["decode", "0201010302"].length = 2 ∧
      DecodeHexVecFnb sampleOps [] (["decode", "0201010302"].getD 1 "") =
        (true, [⟨1, 1⟩, ⟨3, 2⟩])) ∧
    broadcastDecode sampleOps ["decode", "0201010302"] 0 =
      ⟨.ok (.obj ([decodeItem sampleOps ⟨1, 1⟩, decodeItem sampleOps ⟨3, 2⟩] ++
          [("overall", .str
            "Successfully decoded broadcast messages for 1 fundamentalnodes, failed to decode 1, total 2")])),
        [Call.CheckSignature ⟨1, 1⟩, Call.CheckSignature ⟨3, 2⟩], 0⟩ ∧
    broadcastDecode sampleOps ["decode", "0201010302"] 0 =
      ⟨.ok (.obj
        [("0101", .obj
            [("outpoint", .str "01"), ("addr", .str "01"),
             ("pubKeyCollateralAddress", .str "01"), ("pubKeyFundamentalnode", .str "01"),
             ("vchSig", .str "01"), ("sigTime", .num 1), ("protocolVersion", .num 70208),
             ("nLastDsq", .num 0),
             ("lastPing", .obj
               [("outpoint", .str "01"), ("blockHash", .str ""), ("sigTime", .num 1),
                ("vchSig", .str "01")])]),
         ("0302", .obj
            [("errorMessage", .str "Fundamentalnode broadcast signature verification failed")]),
         ("overall", .str
            "Successfully decoded broadcast messages for 1 fundamentalnodes, failed to decode 1, total 2")]),
        [Call.CheckSignature ⟨1, 1⟩, Call.CheckSignature ⟨3, 2⟩], 0⟩ :=
  ⟨⟨by decide, by decide⟩,
   (decode_reports_every_item sampleOps ["decode", "0201010302"] 0 [⟨1, 1⟩, ⟨3, 2⟩]
      rfl (by decide)).1,
   rfl⟩

/-! ### `relay` -/

theorem relayLoop_eq {Fnb W : Type} (ops : FnbOps Fnb W) (v : List Fnb) :
    ∀ acc : RelayAcc Fnb W,
      relayLoop ops v acc =
        { nSuccessful := acc.nSuccessful +
            (((relayOutcomes ops v acc.world).filter (fun o => o.1 && o.2)).length : Int),
          nFailed := acc.nFailed +
            (((relayOutcomes ops v acc.world).filter (fun o => !(o.1 && o.2))).length : Int),
          returnObj := acc.returnObj ++
            List.zipWith (relayItem ops) v (relayOutcomes ops v acc.world),
          calls := acc.calls ++ (v.map (relayCalls ops)).flatten,
          world := relayWorld ops v acc.world } := by
  induction v with
  | nil => intro acc; simp [relayLoop, relayOutcomes, relayWorld]
  | cons fnb rest ih =>
    intro acc
    cases hc : (ops.CheckSignature fnb).1
    · simp only [relayLoop, hc, ih, relayOutcomes, relayWorld, relayCalls, relayItem, signatureFailed,
        Bool.false_eq_true, if_false, List.filter_cons, Bool.false_and, Bool.not_false, if_true,
        List.zipWith_cons_cons, List.map_cons, List.flatten_cons, List.length_cons,
        Nat.cast_add, Nat.cast_one, List.append_assoc, List.singleton_append]
      congr 1
      omega
    · cases hu : (ops.CheckFnbAndUpdateFundamentalnodeList acc.world fnb
          (ops.CheckSignature fnb).2).1.1
      · simp only [relayLoop, hc, hu, ih, relayOutcomes, relayWorld, relayCalls, relayItem, signatureFailed,
          Bool.false_eq_true, if_false, List.filter_cons, Bool.and_false, Bool.not_false,
          if_true, List.zipWith_cons_cons, List.map_cons, List.flatten_cons, List.length_cons,
          Nat.cast_add, Nat.cast_one, List.append_assoc, List.singleton_append,
          List.cons_append, List.nil_append]
        congr 1
        omega
      · simp only [relayLoop, hc, hu, ih, relayOutcomes, relayWorld, relayCalls, relayItem, signatureFailed,
          Bool.false_eq_true, if_false, List.filter_cons, Bool.and_self, Bool.not_true,
          if_true, List.zipWith_cons_cons, List.map_cons, List.flatten_cons, List.length_cons,
          Nat.cast_add, Nat.cast_one, List.append_assoc, List.singleton_append,
          List.cons_append, List.nil_append]
        congr 1
        omega

theorem relayOutcomes_length {Fnb W : Type} (ops : FnbOps Fnb W) (v : List Fnb) :
    ∀ w : W, (relayOutcomes ops v w).length = v.length := by
  induction v with
  | nil => intro w; rfl
  | cons fnb rest ih =>
    intro w
    by_cases hc : (ops.CheckSignature fnb).1 = true <;> simp [relayOutcomes, hc, ih]

theorem relayOutcomes_fst {Fnb W : Type} (ops : FnbOps Fnb W) (v : List Fnb) :
    ∀ w : W, (relayOutcomes ops v w).map (fun o => o.1) =
      v.map (fun fnb => (ops.CheckSignature fnb).1) := by
  induction v with
  | nil => intro w; rfl
  | cons fnb rest ih =>
    intro w
    by_cases hc : (ops.CheckSignature fnb).1 = true <;> simp [relayOutcomes, hc, ih]

/-- C11 (`relay` answers item by item). For every string that `DecodeHexVecFnb` decodes
into a batch `v`, `relay` goes through every element in the order of the batch and
returns a value, never an error. An element is submitted to the registry
(`CheckFnbAndUpdateFundamentalnodeList`, then the notification) exactly when its own
`CheckSignature` succeeds; it is reported and counted as successful exactly when its
signature verifies and the registry accepts it, and as failed otherwise. The result
holds one member per element, in order, followed by the member `overall`, whose text
gives the number of elements that the signature check and the registry both accept,
the number of the others, and as total the size of the batch, which the two add up
to. A rejected element ends nothing: the elements after it are processed all the
same. -/
theorem relay_reports_every_item {Fnb W : Type} (ops : FnbOps Fnb W)
    (params : List String) (w : W) (v : List Fnb)
    (hmin : 2 ≤ params.length) (hmax : params.length ≤ 3)
    (hdecoded : DecodeHexVecFnb ops [] (params.getD 1 "") = (true, v)) :
    broadcastRelay ops params w =
      ⟨.ok (.obj (List.zipWith (relayItem ops) v (relayOutcomes ops v w) ++
          [("overall", .str
            ("Successfully relayed broadcast messages for " ++
              toString (((relayOutcomes ops v w).filter (fun o => o.1 && o.2)).length : Int) ++
              " fundamentalnodes, failed to relay " ++
              toString (((relayOutcomes ops v w).filter (fun o => !(o.1 && o.2))).length : Int) ++
              ", total " ++ toString (v.length : Int)))])),
        (v.map (relayCalls ops)).flatten, relayWorld ops v w⟩ ∧
    (relayOutcomes ops v w).map (fun o => o.1) =
      v.map (fun fnb => (ops.CheckSignature fnb).1) ∧
    (List.zipWith (relayItem ops) v (relayOutcomes ops v w)).length = v.length ∧
    ((relayOutcomes ops v w).filter (fun o => o.1 && o.2)).length +
      ((relayOutcomes ops v w).filter (fun o => !(o.1 && o.2))).length = v.length := by
  have hlen := relayOutcomes_length ops v w
  have hsum : ((relayOutcomes ops v w).filter (fun o => o.1 && o.2)).length +
      ((relayOutcomes ops v w).filter (fun o => !(o.1 && o.2))).length = v.length := by
    rw [filter_length_add_filter_not, hlen]
  refine ⟨?_, relayOutcomes_fst ops v w, by simp [hlen], hsum⟩
  have hb : (decide (params.length < 2) || decide (params.length > 3)) = false := by
    simp only [Bool.or_eq_false_iff, decide_eq_false_iff_not]
    omega
  have htotal :
      (((relayOutcomes ops v w).filter (fun o => o.1 && o.2)).length : Int) +
        (((relayOutcomes ops v w).filter (fun o => !(o.1 && o.2))).length : Int) =
      (v.length : Int) := by exact_mod_cast hsum
  simp only [broadcastRelay, hb, Bool.false_eq_true, if_false, hdecoded, Bool.not_true,
    relayLoop_eq, zero_add, List.nil_append, overallRelayed, htotal]

/-- C11, an instance: a batch of two announcements of which the second has a wrong
signature. Both are gone through: the first is submitted to the registry, accepted and
marked successful, the second is not submitted and carries the failure message; the
counts are 1, 1 and 2, and the registry has been reached once. -/
theorem relay_reports_every_item_witness :
    (2 ≤ ["relay", "0201010302"].length ∧ ["relay", "0201010302"].length ≤ 3 ∧
      DecodeHexVecFnb sampleOps [] (["relay", "0201010302"].getD 1 "") =
        (true, [⟨1, 1⟩, ⟨3, 2⟩])) ∧
    relayOutcomes sampleOps [⟨1, 1⟩, ⟨3, 2⟩] 0 = [(true, true), (false, false)] ∧
    broadcastRelay sampleOps ["relay", "0201010302"] 0 =
      ⟨.ok (.obj ([relayItem sampleOps ⟨1, 1⟩ (true, true),
            relayItem sampleOps ⟨3, 2⟩ (false, false)] ++
          [("overall", .str
            "Successfully relayed broadcast messages for 1 fundamentalnodes, failed to relay 1, total 2")])),
        relayCalls sampleOps ⟨1, 1⟩ ++ relayCalls sampleOps ⟨3, 2⟩,
        relayWorld sampleOps [⟨1, 1⟩, ⟨3, 2⟩] 0⟩ ∧
    broadcastRelay sampleOps ["relay", "0201010302"] 0 =
      ⟨.ok (.obj
        [("0101", .obj
            [("outpoint", .str "01"), ("addr", .str "01"), ("0101", .str "successful")]),
         ("0302", .obj
            [("outpoint", .str "03"), ("addr", .str "03"),
             ("errorMessage", .str "Fundamentalnode broadcast signature verification failed")]),
         ("overall", .str
            "Successfully relayed broadcast messages for 1 fundamentalnodes, failed to relay 1, total 2")]),
        [Call.CheckSignature ⟨1, 1⟩, Call.CheckFnbAndUpdateFundamentalnodeList ⟨1, 1⟩,
          Call.NotifyFundamentalnodeUpdates, Call.CheckSignature ⟨3, 2⟩],
        1⟩ :=
  ⟨⟨by decide, by decide, by decide⟩, by decide,
   (relay_reports_every_item sampleOps ["relay", "0201010302"] 0 [⟨1, 1⟩, ⟨3, 2⟩]
      (by decide) (by decide) (by decide)).1,
   rfl⟩

/-- C12 fails on the code: `relay` does not verify all signatures before it submits
anything. In the batch of the announcements (1,1) and (3,2) the second signature does
not verify, yet the first announcement has been submitted to the registry (and the
outside state has changed) by the time the second is checked. -/
theorem relay_submits_before_all_signatures_checked :
    DecodeHexVecFnb sampleOps [] "0201010302" = (true, [⟨1, 1⟩, ⟨3, 2⟩]) ∧
    (sampleOps.CheckSignature ⟨3, 2⟩).1 = false ∧
    (broadcastRelay sampleOps ["relay", "0201010302"] 0).calls =
      [Call.CheckSignature ⟨1, 1⟩, Call.CheckFnbAndUpdateFundamentalnodeList ⟨1, 1⟩,
        Call.NotifyFundamentalnodeUpdates, Call.CheckSignature ⟨3, 2⟩] ∧
    (broadcastRelay sampleOps ["relay", "0201010302"] 0).world = 1 :=
  ⟨by decide, by decide, rfl, rfl⟩

/-! ### The second parse attempt of `read` -/

theorem readLoop_eq_tolerant (env : ChainEnv) (lines : List String) :
    ∀ (n : Nat) (entries : List CFundamentalnodeEntry) (s : String),
      readLoop env lines n entries s = readLoopTolerant env lines n entries s := by
  induction lines with
  | nil => intro n entries s; rfl
  | cons line rest ih =>
    intro n entries s
    simp only [readLoop, readLoopTolerant, readLine_eq_tolerant, ih]

theorem primaryParse_ok_of_five (line : String) (a b c d e : List Char)
    (more : List (List Char)) (h : fieldsL line.data = a :: b :: c :: d :: e :: more) :
    (primaryParse line).1.failbit = false := by
  obtain ⟨r1, e1, _⟩ := extract_cons line.data "" a _ h
  obtain ⟨r5, e5, _⟩ := extract5_ok line.data ⟨"", "", "", "", ""⟩ a b c d e more h
  simp [primaryParse, IStringStream.ofString, e1, IStringStream.str, IStringStream.clear, e5]

theorem fallbackParse_fails (line : String) (h : (primaryParse line).1.failbit = true) :
    (fallbackParse line).1.failbit = true := by
  have hshort : (fieldsL line.data).length < 5 := by
    by_contra hge
    match hf : fieldsL line.data with
    | a :: b :: c :: d :: e :: more =>
      rw [primaryParse_ok_of_five line a b c d e more hf] at h
      exact Bool.noConfusion h
    | [] => simp [hf] at hge
    | [_] => simp [hf] at hge
    | [_, _] => simp [hf] at hge
    | [_, _, _] => simp [hf] at hge
    | [_, _, _, _] => simp [hf] at hge
  exact extract5_short line.data _ hshort

/-- C18 (the second parse attempt is redundant). For every configuration file, every
network setting, every list of entries and every error text held before, `read`, with
its second attempt on the rewound stream, returns exactly what the reader without it
returns: the same boolean, the same error text, the same entries, the same file. The
reason is that on every line the second parse fails whenever the first has failed.
(The pieces named here are those of the loop body: `readLine` is an empty-line test, a
comment test, then the first parse and, if that failed, the second.) -/
theorem read_fallback_redundant (env : ChainEnv) (f : ConfigFile)
    (entries : List CFundamentalnodeEntry) (strErrRet : String) :
    read env f entries strErrRet = readTolerant env f entries strErrRet ∧
    (∀ line : String, (primaryParse line).1.failbit = true →
      (fallbackParse line).1.failbit = true) ∧
    (∀ (n : Nat) (line : String), readLine env n line =
      if line.data.isEmpty then .skip
      else if !((IStringStream.ofString line).extract "").1.failbit &&
          ((IStringStream.ofString line).extract "").2.data.head? == some '#' then .skip
      else if (primaryParse line).1.failbit then
        if (fallbackParse line).1.failbit then .fail (errCouldNotParse n line)
        else checkPort env n line (fallbackParse line).2
      else checkPort env n line (primaryParse line).2) := by
  refine ⟨?_, fallbackParse_fails, fun n line => rfl⟩
  unfold read readTolerant
  split
  · rfl
  · rw [readLoop_eq_tolerant]

/-! ### `fundamentalnodelist` -/

theorem hasSubstrL_iff (hay needle : List Char) :
    hasSubstrL hay needle = true ↔ needle <:+: hay := by
  induction hay with
  | nil => simp [hasSubstrL, List.isEmpty_iff]
  | cons c hay ih =>
    rw [hasSubstrL, Bool.or_eq_true, ih, List.infix_cons_iff, List.isPrefixOf_iff_prefix]

theorem hasSubstr_iff (hay needle : String) :
    hasSubstr hay needle = true ↔ Contains hay needle :=
  hasSubstrL_iff hay.data needle.data

theorem listLoop_eq {W : Type} (ops : ManOps W) (strMode strFilter : String)
    (l : List (String × CFundamentalnode)) :
    ∀ obj : List (String × UniValue),
      listLoop ops strMode strFilter l obj =
        obj ++ l.filterMap (fun p => listItem ops strMode strFilter p.1 p.2) := by
  induction l with
  | nil => intro obj; simp [listLoop]
  | cons p rest ih =>
    intro obj
    cases h : listItem ops strMode strFilter p.1 p.2 <;>
      simp [listLoop, h, ih, List.filterMap_cons]

theorem rankLoop_eq (strFilter : String) (l : List (Int × CFundamentalnode)) :
    ∀ obj : List (String × UniValue),
      rankLoop strFilter l obj =
        obj ++ (l.filter (fun q => !(strFilter != "" && !hasSubstr q.2.outpoint strFilter))).map
          (fun q => (q.2.outpoint, .num q.1)) := by
  induction l with
  | nil => intro obj; simp [rankLoop]
  | cons q rest ih =>
    intro obj
    by_cases h : (strFilter != "" && !hasSubstr q.2.outpoint strFilter) = true
    · simp only [rankLoop, h, if_true, ih, List.filter_cons, Bool.not_true, Bool.false_eq_true,
        if_false]
    · simp only [Bool.not_eq_true] at h
      simp only [rankLoop, h, Bool.false_eq_true, if_false, ih, List.filter_cons, Bool.not_false,
        if_true, List.map_cons, List.append_assoc, List.singleton_append]

theorem fundamentalnodelist_run {W : Type} (ops : ManOps W) (strMode strFilter : String)
    (params : List String) (w : W) (hmode : strMode ∈ listModes)
    (hp : (params = [strMode] ∧ strFilter = "") ∨ params = [strMode, strFilter]) :
    fundamentalnodelist ops false params w =
      if strMode = "rank" then
        ⟨.ok (.obj ((ops.GetFundamentalnodeRanks w).filter
            (fun q => !(strFilter != "" && !hasSubstr q.2.outpoint strFilter))
          |>.map (fun q => (q.2.outpoint, .num q.1)))),
          [ManCall.GetFundamentalnodeRanks], w⟩
      else
        ⟨.ok (.obj ((ops.GetFullFundamentalnodeMap
            (if (strMode == "full" || strMode == "json" || strMode == "lastpaidtime" ||
                strMode == "lastpaidblock") then ops.UpdateLastPaid w else w)).filterMap
            (fun p => listItem ops strMode strFilter p.1 p.2))),
          (if (strMode == "full" || strMode == "json" || strMode == "lastpaidtime" ||
              strMode == "lastpaidblock") then [ManCall.UpdateLastPaid] else []) ++
            [ManCall.GetFullFundamentalnodeMap],
          if (strMode == "full" || strMode == "json" || strMode == "lastpaidtime" ||
              strMode == "lastpaidblock") then ops.UpdateLastPaid w else w⟩ := by
  have hparams : listModeOf params = strMode ∧ listFilterOf params = strFilter := by
    rcases hp with ⟨hp, hf⟩ | hp
    · subst hp hf; exact ⟨rfl, rfl⟩
    · subst hp; exact ⟨rfl, rfl⟩
  unfold fundamentalnodelist
  rw [hparams.1, hparams.2]
  by_cases hr : strMode = "rank"
  · subst hr
    simp [listRun, hmode, rankLoop_eq]
  · simp [listRun, hmode, hr, listLoop_eq]

/-- C14 fails on the code: in the modes `daemon` and `sentinel` the filter is searched
for inside the version string (`find`) and is not compared with it. In the sample
registry the entry `ab-0` shows the daemon version "0.12.3" and the sentinel version
"1.2.0"; the filters "0.12" and "1.2" equal neither and occur in no outpoint, yet each
selects that entry. -/
theorem list_version_filter_is_substring_match :
    (fundamentalnodelist sampleMan false ["daemon", "0.12"] sampleRegistry).result =
      .ok (.obj [("ab-0", .str "0.12.3")]) ∧
    (fundamentalnodelist sampleMan false ["sentinel", "1.2"] sampleRegistry).result =
      .ok (.obj [("ab-0", .str "1.2.0")]) ∧
    strDaemonOf sampleMan sampleNodeA = "0.12.3" ∧ "0.12.3" ≠ "0.12" ∧
    strSentinelOf sampleMan sampleNodeA = "1.2.0" ∧ "1.2.0" ≠ "1.2" ∧
    hasSubstr "ab-0" "0.12" = false ∧ hasSubstr "ab-0" "1.2" = false :=
  ⟨rfl, rfl, by decide, by decide, by decide, by decide, by decide, by decide⟩

theorem listItem_protocol {W : Type} (ops : ManOps W) (strFilter k : String)
    (fn : CFundamentalnode) (hf : strFilter ≠ "") :
    (strFilter = toString fn.nProtocolVersion ∨ Contains k strFilter →
      listItem ops "protocol" strFilter k fn = some (k, .num fn.nProtocolVersion)) ∧
    (¬ (strFilter = toString fn.nProtocolVersion ∨ Contains k strFilter) →
      listItem ops "protocol" strFilter k fn = none) := by
  constructor
  · intro h
    rcases h with h | h
    · simp [listItem, ← h]
    · simp [listItem, (hasSubstr_iff k strFilter).mpr h]
  · intro h
    have h1 : ¬ strFilter = toString fn.nProtocolVersion := fun e => h (Or.inl e)
    have h2 : hasSubstr k strFilter = false := by
      cases hs : hasSubstr k strFilter
      · rfl
      · exact absurd (Or.inr ((hasSubstr_iff k strFilter).mp hs)) h
    simp [listItem, hf, h1, h2]

/-- C15 (exact match in the mode `protocol`). With a non-empty filter, the result of
the mode `protocol` holds exactly the entries of the registry map that the loop body
keeps, in the order of the map, each under its short outpoint string with its
protocol version; and the loop body keeps an entry if and only if the filter equals
the decimal rendering of the entry's protocol version or the entry's short outpoint
string contains the filter. A filter that is contained in the protocol number without
being equal to it, and is not contained in the outpoint, does not select the entry. -/
theorem list_protocol_exact_match {W : Type} (ops : ManOps W) (strFilter : String) (w : W)
    (hf : strFilter ≠ "") :
    fundamentalnodelist ops false ["protocol", strFilter] w =
      ⟨.ok (.obj ((ops.GetFullFundamentalnodeMap w).filterMap
          (fun p => listItem ops "protocol" strFilter p.1 p.2))),
        [ManCall.GetFullFundamentalnodeMap], w⟩ ∧
    (∀ (k : String) (fn : CFundamentalnode),
      ((listItem ops "protocol" strFilter k fn).isSome = true ↔
        (strFilter = toString fn.nProtocolVersion ∨ Contains k strFilter)) ∧
      (strFilter = toString fn.nProtocolVersion ∨ Contains k strFilter →
        listItem ops "protocol" strFilter k fn = some (k, .num fn.nProtocolVersion)) ∧
      (Contains (toString fn.nProtocolVersion) strFilter →
        strFilter ≠ toString fn.nProtocolVersion → ¬ Contains k strFilter →
        listItem ops "protocol" strFilter k fn = none)) := by
  constructor
  · rw [fundamentalnodelist_run ops "protocol" strFilter _ w (by decide) (Or.inr rfl)]
    simp
  · intro k fn
    obtain ⟨hyes, hno⟩ := listItem_protocol ops strFilter k fn hf
    refine ⟨⟨fun h => ?_, fun h => by rw [hyes h]; rfl⟩, hyes, fun _ h1 h2 => ?_⟩
    · by_contra hn
      rw [hno hn] at h
      exact Bool.noConfusion h
    · exact hno (fun h => h.elim h1 h2)

/-- C15, an instance: in the sample registry the filter "7020" is contained in both
protocol numbers and selects no entry, and the filter "70207" selects the entry with
that protocol version. -/
theorem list_protocol_exact_match_witness :
    ("7020" ≠ "" ∧ "70207" ≠ "") ∧
    fundamentalnodelist sampleMan false ["protocol", "7020"] sampleRegistry =
      ⟨.ok (.obj ((sampleMan.GetFullFundamentalnodeMap sampleRegistry).filterMap
          (fun p => listItem sampleMan "protocol" "7020" p.1 p.2))),
        [ManCall.GetFullFundamentalnodeMap], sampleRegistry⟩ ∧
    (sampleMan.GetFullFundamentalnodeMap sampleRegistry).filterMap
        (fun p => listItem sampleMan "protocol" "7020" p.1 p.2) = [] ∧
    fundamentalnodelist sampleMan false ["protocol", "70207"] sampleRegistry =
      ⟨.ok (.obj ((sampleMan.GetFullFundamentalnodeMap sampleRegistry).filterMap
          (fun p => listItem sampleMan "protocol" "70207" p.1 p.2))),
        [ManCall.GetFullFundamentalnodeMap], sampleRegistry⟩ ∧
    (sampleMan.GetFullFundamentalnodeMap sampleRegistry).filterMap
        (fun p => listItem sampleMan "protocol" "70207" p.1 p.2) = [("cd-1", .num 70207)] :=
  ⟨⟨by decide, by decide⟩,
   (list_protocol_exact_match sampleMan "7020" sampleRegistry (by decide)).1,
   rfl,
   (list_protocol_exact_match sampleMan "70207" sampleRegistry (by decide)).1,
   rfl⟩

theorem versionOrUnknown_eq_unknown_iff (format : Int → String) (reported dflt : Int)
    (hformat : ∀ v, format v ≠ "Unknown") :
    versionOrUnknown format reported dflt = "Unknown" ↔ ¬ reported > dflt := by
  unfold versionOrUnknown
  by_cases h : reported > dflt
  · simp [h, hformat]
  · simp [h]

theorem filterMap_of_some {α β : Type} (l : List α) (g : α → Option β) (f : α → β)
    (h : ∀ a, g a = some (f a)) : l.filterMap g = l.map f := by
  induction l with
  | nil => rfl
  | cons a rest ih => simp [List.filterMap_cons, h a, ih]

theorem listItem_daemon {W : Type} (ops : ManOps W) (strFilter k : String)
    (fn : CFundamentalnode) :
    listItem ops "daemon" strFilter k fn =
      if (strFilter != "" &&
          !hasSubstr (versionOrUnknown ops.FormatVersion fn.nDaemonVersion
            ops.DEFAULT_DAEMON_VERSION) strFilter &&
          !hasSubstr k strFilter) = true then none
      else some (k, .str (versionOrUnknown ops.FormatVersion fn.nDaemonVersion
        ops.DEFAULT_DAEMON_VERSION)) := by
  have hs : strDaemonOf ops fn =
      versionOrUnknown ops.FormatVersion fn.nDaemonVersion ops.DEFAULT_DAEMON_VERSION := rfl
  rw [← hs]
  simp [listItem]

theorem listItem_sentinel {W : Type} (ops : ManOps W) (strFilter k : String)
    (fn : CFundamentalnode) :
    listItem ops "sentinel" strFilter k fn =
      if (strFilter != "" &&
          !hasSubstr (versionOrUnknown ops.SafeIntVersionToString fn.nSentinelVersion
            ops.DEFAULT_SENTINEL_VERSION) strFilter &&
          !hasSubstr k strFilter) = true then none
      else some (k, .str (versionOrUnknown ops.SafeIntVersionToString fn.nSentinelVersion
        ops.DEFAULT_SENTINEL_VERSION)) := by
  have hs : strSentinelOf ops fn =
      versionOrUnknown ops.SafeIntVersionToString fn.nSentinelVersion
        ops.DEFAULT_SENTINEL_VERSION := rfl
  rw [← hs]
  simp [listItem]

theorem listItem_json {W : Type} (ops : ManOps W) (strFilter k : String)
    (fn : CFundamentalnode) :
    listItem ops "json" strFilter k fn =
      if (strFilter != "" && !hasSubstr (streamInfoJson ops fn) strFilter &&
          !hasSubstr k strFilter) = true then none
      else some (k, objFN ops fn) := by
  simp [listItem]

theorem objFN_versions {W : Type} (ops : ManOps W) (fn : CFundamentalnode) :
    (objFN ops fn).members.lookup "daemonversion" =
      some (.str (versionOrUnknown ops.FormatVersion fn.nDaemonVersion
        ops.DEFAULT_DAEMON_VERSION)) ∧
    (objFN ops fn).members.lookup "sentinelversion" =
      some (.str (versionOrUnknown ops.SafeIntVersionToString fn.nSentinelVersion
        ops.DEFAULT_SENTINEL_VERSION)) :=
  ⟨rfl, rfl⟩

/-- C17 (formatted or "Unknown" version string). Without a filter, `fundamentalnodelist`
in the mode `daemon` returns one member per entry of the registry map, in the order of
the map, under the entry's short outpoint string, holding the formatted-or-"Unknown"
daemon version of the entry; in the mode `sentinel` likewise with the sentinel version;
and in the mode `json` (which reads the map after the last-paid update) one member per
entry whose members `daemonversion` and `sentinelversion` hold these same two strings.
With a filter, every member that the three modes return is of that same form for an
entry of the map. The string is the formatted version when the reported version is
strictly greater than the default and "Unknown" when it is not; so, the formatter never
producing "Unknown", it is "Unknown" if and only if the reported version is not
strictly greater than the default. Both modes compute it from the entry alone, and so
show the same string for the same entry. -/
theorem list_version_or_unknown {W : Type} (ops : ManOps W) (w : W) (strFilter : String) :
    (fundamentalnodelist ops false ["daemon"] w).result =
      .ok (.obj ((ops.GetFullFundamentalnodeMap w).map (fun p =>
        (p.1, .str (versionOrUnknown ops.FormatVersion p.2.nDaemonVersion
          ops.DEFAULT_DAEMON_VERSION))))) ∧
    (fundamentalnodelist ops false ["sentinel"] w).result =
      .ok (.obj ((ops.GetFullFundamentalnodeMap w).map (fun p =>
        (p.1, .str (versionOrUnknown ops.SafeIntVersionToString p.2.nSentinelVersion
          ops.DEFAULT_SENTINEL_VERSION))))) ∧
    (∃ ms, (fundamentalnodelist ops false ["json"] w).result = .ok (.obj ms) ∧
      ms.map (fun m => (m.1, m.2.members.lookup "daemonversion",
          m.2.members.lookup "sentinelversion")) =
        (ops.GetFullFundamentalnodeMap (ops.UpdateLastPaid w)).map (fun p =>
          (p.1,
            some (.str (versionOrUnknown ops.FormatVersion p.2.nDaemonVersion
              ops.DEFAULT_DAEMON_VERSION)),
            some (.str (versionOrUnknown ops.SafeIntVersionToString p.2.nSentinelVersion
              ops.DEFAULT_SENTINEL_VERSION))))) ∧
    (∃ ms, (fundamentalnodelist ops false ["daemon", strFilter] w).result = .ok (.obj ms) ∧
      ∀ m ∈ ms, ∃ p ∈ ops.GetFullFundamentalnodeMap w,
        m = (p.1, .str (versionOrUnknown ops.FormatVersion p.2.nDaemonVersion
          ops.DEFAULT_DAEMON_VERSION))) ∧
    (∃ ms, (fundamentalnodelist ops false ["sentinel", strFilter] w).result = .ok (.obj ms) ∧
      ∀ m ∈ ms, ∃ p ∈ ops.GetFullFundamentalnodeMap w,
        m = (p.1, .str (versionOrUnknown ops.SafeIntVersionToString p.2.nSentinelVersion
          ops.DEFAULT_SENTINEL_VERSION))) ∧
    (∃ ms, (fundamentalnodelist ops false ["json", strFilter] w).result = .ok (.obj ms) ∧
      ∀ m ∈ ms, ∃ p ∈ ops.GetFullFundamentalnodeMap (ops.UpdateLastPaid w),
        m.1 = p.1 ∧
        m.2.members.lookup "daemonversion" =
          some (.str (versionOrUnknown ops.FormatVersion p.2.nDaemonVersion
            ops.DEFAULT_DAEMON_VERSION)) ∧
        m.2.members.lookup "sentinelversion" =
          some (.str (versionOrUnknown ops.SafeIntVersionToString p.2.nSentinelVersion
            ops.DEFAULT_SENTINEL_VERSION))) ∧
    (∀ fn : CFundamentalnode,
      (fn.nDaemonVersion > ops.DEFAULT_DAEMON_VERSION →
        versionOrUnknown ops.FormatVersion fn.nDaemonVersion ops.DEFAULT_DAEMON_VERSION =
          ops.FormatVersion fn.nDaemonVersion) ∧
      (¬ fn.nDaemonVersion > ops.DEFAULT_DAEMON_VERSION →
        versionOrUnknown ops.FormatVersion fn.nDaemonVersion ops.DEFAULT_DAEMON_VERSION =
          "Unknown") ∧
      (fn.nSentinelVersion > ops.DEFAULT_SENTINEL_VERSION →
        versionOrUnknown ops.SafeIntVersionToString fn.nSentinelVersion
          ops.DEFAULT_SENTINEL_VERSION = ops.SafeIntVersionToString fn.nSentinelVersion) ∧
      (¬ fn.nSentinelVersion > ops.DEFAULT_SENTINEL_VERSION →
        versionOrUnknown ops.SafeIntVersionToString fn.nSentinelVersion
          ops.DEFAULT_SENTINEL_VERSION = "Unknown")) ∧
    ((∀ v, ops.FormatVersion v ≠ "Unknown") → ∀ fn : CFundamentalnode,
      (versionOrUnknown ops.FormatVersion fn.nDaemonVersion ops.DEFAULT_DAEMON_VERSION =
        "Unknown" ↔ ¬ fn.nDaemonVersion > ops.DEFAULT_DAEMON_VERSION)) ∧
    ((∀ v, ops.SafeIntVersionToString v ≠ "Unknown") → ∀ fn : CFundamentalnode,
      (versionOrUnknown ops.SafeIntVersionToString fn.nSentinelVersion
        ops.DEFAULT_SENTINEL_VERSION = "Unknown" ↔
          ¬ fn.nSentinelVersion > ops.DEFAULT_SENTINEL_VERSION)) := by
  have hd : ("daemon" = "rank") = False := by decide
  have hs : ("sentinel" = "rank") = False := by decide
  have hj : ("json" = "rank") = False := by decide
  have hdu : ("daemon" == "full" || "daemon" == "json" || "daemon" == "lastpaidtime" ||
      "daemon" == "lastpaidblock") = false := by decide
  have hsu : ("sentinel" == "full" || "sentinel" == "json" || "sentinel" == "lastpaidtime" ||
      "sentinel" == "lastpaidblock") = false := by decide
  have hju : ("json" == "full" || "json" == "json" || "json" == "lastpaidtime" ||
      "json" == "lastpaidblock") = true := by decide
  refine ⟨?_, ?_, ?_, ?_, ?_, ?_, fun fn => ⟨?_, ?_, ?_, ?_⟩,
    fun h fn => versionOrUnknown_eq_unknown_iff _ _ _ h,
    fun h fn => versionOrUnknown_eq_unknown_iff _ _ _ h⟩
  · rw [fundamentalnodelist_run ops "daemon" "" ["daemon"] w (by decide) (Or.inl ⟨rfl, rfl⟩)]
    simp only [hd, if_false, hdu, Bool.false_eq_true]
    rw [filterMap_of_some _ _
      (fun p => (p.1, .str (versionOrUnknown ops.FormatVersion p.2.nDaemonVersion
        ops.DEFAULT_DAEMON_VERSION)))
      (fun p => by rw [listItem_daemon]; simp)]
  · rw [fundamentalnodelist_run ops "sentinel" "" ["sentinel"] w (by decide)
      (Or.inl ⟨rfl, rfl⟩)]
    simp only [hs, if_false, hsu, Bool.false_eq_true]
    rw [filterMap_of_some _ _
      (fun p => (p.1, .str (versionOrUnknown ops.SafeIntVersionToString p.2.nSentinelVersion
        ops.DEFAULT_SENTINEL_VERSION)))
      (fun p => by rw [listItem_sentinel]; simp)]
  · rw [fundamentalnodelist_run ops "json" "" ["json"] w (by decide) (Or.inl ⟨rfl, rfl⟩)]
    simp only [hj, if_false, hju, if_true]
    refine ⟨_, rfl, ?_⟩
    rw [filterMap_of_some _ _ (fun p => (p.1, objFN ops p.2))
      (fun p => by rw [listItem_json]; simp), List.map_map]
    exact List.map_congr_left (fun p _ => by
      simp only [Function.comp, (objFN_versions ops p.2).1, (objFN_versions ops p.2).2])
  · rw [fundamentalnodelist_run ops "daemon" strFilter ["daemon", strFilter] w (by decide)
      (Or.inr rfl)]
    simp only [hd, if_false, hdu, Bool.false_eq_true]
    refine ⟨_, rfl, fun m hm => ?_⟩
    obtain ⟨p, hp, hpm⟩ := List.mem_filterMap.mp hm
    rw [listItem_daemon] at hpm
    split_ifs at hpm
    exact ⟨p, hp, (Option.some.inj hpm).symm⟩
  · rw [fundamentalnodelist_run ops "sentinel" strFilter ["sentinel", strFilter] w (by decide)
      (Or.inr rfl)]
    simp only [hs, if_false, hsu, Bool.false_eq_true]
    refine ⟨_, rfl, fun m hm => ?_⟩
    obtain ⟨p, hp, hpm⟩ := List.mem_filterMap.mp hm
    rw [listItem_sentinel] at hpm
    split_ifs at hpm
    exact ⟨p, hp, (Option.some.inj hpm).symm⟩
  · rw [fundamentalnodelist_run ops "json" strFilter ["json", strFilter] w (by decide)
      (Or.inr rfl)]
    simp only [hj, if_false, hju, if_true]
    refine ⟨_, rfl, fun m hm => ?_⟩
    obtain ⟨p, hp, hpm⟩ := List.mem_filterMap.mp hm
    rw [listItem_json] at hpm
    split_ifs at hpm
    rw [← Option.some.inj hpm]
    exact ⟨p, hp, rfl, (objFN_versions ops p.2).1, (objFN_versions ops p.2).2⟩
  · intro h; unfold versionOrUnknown; rw [if_pos h]
  · intro h; unfold versionOrUnknown; rw [if_neg h]
  · intro h; unfold versionOrUnknown; rw [if_pos h]
  · intro h; unfold versionOrUnknown; rw [if_neg h]

theorem sample_version_ne_unknown (a b c : Int) :
    toString a ++ "." ++ toString b ++ "." ++ toString c ≠ "Unknown" := by
  intro h
  have hmem : '.' ∈ (toString a ++ "." ++ toString b ++ "." ++ toString c).data := by
    simp [String.data_append]
  rw [h] at hmem
  revert hmem
  decide

/-- C17, an instance on the sample registry. The entry `ab-0` reports the daemon version
120300, above the default 120200, and the sentinel version 66048, above the default
65536: the modes `daemon` and `sentinel` show "0.12.3" and "1.2.0", and so do the
members `daemonversion` and `sentinelversion` of the mode `json`. The entry `cd-1`
reports neither and is shown as "Unknown" throughout; a filter that selects one entry
leaves its string as it is. -/
theorem list_version_or_unknown_witness :
    (∀ v, sampleMan.FormatVersion v ≠ "Unknown") ∧
    (versionOrUnknown sampleMan.FormatVersion sampleNodeA.nDaemonVersion
        sampleMan.DEFAULT_DAEMON_VERSION = "Unknown" ↔
      ¬ sampleNodeA.nDaemonVersion > sampleMan.DEFAULT_DAEMON_VERSION) ∧
    (fundamentalnodelist sampleMan false ["daemon"] sampleRegistry).result =
      .ok (.obj [("ab-0", .str "0.12.3"), ("cd-1", .str "Unknown")]) ∧
    (fundamentalnodelist sampleMan false ["sentinel"] sampleRegistry).result =
      .ok (.obj [("ab-0", .str "1.2.0"), ("cd-1", .str "Unknown")]) ∧
    (fundamentalnodelist sampleMan false ["json"] sampleRegistry).result =
      .ok (.obj
        [("ab-0", .obj
            [("address", .str "10.0.0.1:24130"), ("payee", .str "SPayeeA"),
             ("status", .str "ENABLED"), ("protocol", .num 70208),
             ("daemonversion", .str "0.12.3"), ("sentinelversion", .str "1.2.0"),
             ("sentinelstate", .str "current"), ("lastseen", .num 1600),
             ("activeseconds", .num 600), ("lastpaidtime", .num 0),
             ("lastpaidblock", .num 500)]),
         ("cd-1", .obj
            [("address", .str "10.0.0.2:24130"), ("payee", .str "SPayeeB"),
             ("status", .str "EXPIRED"), ("protocol", .num 70207),
             ("daemonversion", .str "Unknown"), ("sentinelversion", .str "Unknown"),
             ("sentinelstate", .str "expired"), ("lastseen", .num 2100),
             ("activeseconds", .num 100), ("lastpaidtime", .num 0),
             ("lastpaidblock", .num 500)])]) ∧
    (fundamentalnodelist sampleMan false ["daemon", "cd"] sampleRegistry).result =
      .ok (.obj [("cd-1", .str "Unknown")]) ∧
    (fundamentalnodelist sampleMan false ["sentinel", "ab"] sampleRegistry).result =
      .ok (.obj [("ab-0", .str "1.2.0")]) :=
  ⟨fun _ => sample_version_ne_unknown _ _ _,
   (list_version_or_unknown sampleMan sampleRegistry "").2.2.2.2.2.2.2.1
     (fun _ => sample_version_ne_unknown _ _ _) sampleNodeA,
   (list_version_or_unknown sampleMan sampleRegistry "").1,
   (list_version_or_unknown sampleMan sampleRegistry "").2.1,
   rfl, rfl, rfl⟩

/-! ### The queries and the last-paid update -/

/-- C16, as stated, fails: `list` in the mode `json` and `current` do invoke the
last-paid update of the registry. On the sample registry, where no entry has been paid
(last paid block 0), each of them calls `UpdateLastPaid` before it reads the registry
and leaves every entry with the last paid block 500. -/
theorem query_invokes_last_paid_update :
    sampleRegistry.nodes.map (fun fn => fn.lastPaidBlock) = [0, 0] ∧
    (fundamentalnodelist sampleMan false ["json"] sampleRegistry).calls =
      [ManCall.UpdateLastPaid, ManCall.GetFullFundamentalnodeMap] ∧
    (fundamentalnodelist sampleMan false ["json"] sampleRegistry).world.nodes.map
      (fun fn => fn.lastPaidBlock) = [500, 500] ∧
    (fundamentalnodeCurrentWinner sampleMan "current" sampleRegistry).calls =
      [ManCall.UpdateLastPaid, ManCall.GetNextFundamentalnodeInQueueForPayment] ∧
    (fundamentalnodeCurrentWinner sampleMan "current" sampleRegistry).world.nodes.map
      (fun fn => fn.lastPaidBlock) = [500, 500] := by
  decide

theorem listModesUpdating_iff (strMode : String) :
    (strMode == "full" || strMode == "json" || strMode == "lastpaidtime" ||
      strMode == "lastpaidblock") = true ↔ strMode ∈ listModesUpdating := by
  simp [listModesUpdating, or_assoc]

theorem fundamentalnodelist_quiet {W : Type} (ops : ManOps W) (fHelp : Bool)
    (params : List String) (w : W)
    (h : fHelp = true ∨ listModeOf params ∉ listModesUpdating) :
    (fundamentalnodelist ops fHelp params w).world = w ∧
    ManCall.UpdateLastPaid ∉ (fundamentalnodelist ops fHelp params w).calls := by
  unfold fundamentalnodelist
  generalize listModeOf params = strMode at h
  generalize listFilterOf params = strFilter
  unfold listRun
  by_cases hh : (fHelp || !listModes.contains strMode) = true
  · rw [if_pos hh]
    simp
  · rw [if_neg hh]
    have hf : fHelp = false := by
      cases fHelp
      · rfl
      · simp at hh
    have hm : strMode ∉ listModesUpdating := h.resolve_left (by simp [hf])
    have hu : (strMode == "full" || strMode == "json" || strMode == "lastpaidtime" ||
        strMode == "lastpaidblock") = false := by
      rw [← Bool.not_eq_true, listModesUpdating_iff]
      exact hm
    simp only [hu, Bool.false_eq_true, if_false]
    split <;> simp

theorem fundamentalnodelist_updating {W : Type} (ops : ManOps W) (params : List String) (w : W)
    (h : listModeOf params ∈ listModesUpdating) :
    (fundamentalnodelist ops false params w).world = ops.UpdateLastPaid w ∧
    (fundamentalnodelist ops false params w).calls =
      [ManCall.UpdateLastPaid, ManCall.GetFullFundamentalnodeMap] := by
  unfold fundamentalnodelist
  generalize listModeOf params = strMode at h
  generalize listFilterOf params = strFilter
  simp only [listModesUpdating, List.mem_cons, List.mem_singleton, List.not_mem_nil,
    or_false] at h
  rcases h with h | h | h | h <;> subst h <;> simp [listRun, listModes]

/-- C16, amended. `count`, and `list` in every mode other than `full`, `json`,
`lastpaidtime` and `lastpaidblock` (as well as `list` answering with its usage text),
never call the last-paid update and leave the outside state, hence every entry's
last-paid height and time, as it was. `list` in the modes `full`, `json` (the mode taken
when none is given), `lastpaidtime` and `lastpaidblock`, and `current` and `winner`,
call `UpdateLastPaid` on the registry exactly once, before they read it; the state they
leave is the one that this update produces. -/
theorem queries_and_last_paid_update {W : Type} (ops : ManOps W) (w : W) :
    (∀ (fHelp : Bool) (params : List String),
      (fHelp = true ∨ listModeOf params ∉ listModesUpdating) →
      (fundamentalnodelist ops fHelp params w).world = w ∧
      ManCall.UpdateLastPaid ∉ (fundamentalnodelist ops fHelp params w).calls) ∧
    (∀ params : List String, listModeOf params ∈ listModesUpdating →
      (fundamentalnodelist ops false params w).world = ops.UpdateLastPaid w ∧
      (fundamentalnodelist ops false params w).calls =
        [ManCall.UpdateLastPaid, ManCall.GetFullFundamentalnodeMap]) ∧
    (∀ params : List String,
      (fundamentalnodeCount ops params w).world = w ∧
      ManCall.UpdateLastPaid ∉ (fundamentalnodeCount ops params w).calls) ∧
    (∀ (strCommand : String) (tipHeight : Int), ops.Tip w = some tipHeight →
      (fundamentalnodeCurrentWinner ops strCommand w).world = ops.UpdateLastPaid w ∧
      (fundamentalnodeCurrentWinner ops strCommand w).calls =
        [ManCall.UpdateLastPaid, ManCall.GetNextFundamentalnodeInQueueForPayment]) := by
  refine ⟨fun fHelp params h => fundamentalnodelist_quiet ops fHelp params w h,
    fun params h => fundamentalnodelist_updating ops params w h, fun params => ?_,
    fun strCommand tipHeight h => ?_⟩
  · unfold fundamentalnodeCount
    simp only
    split_ifs <;> simp
  · unfold fundamentalnodeCurrentWinner
    simp only [h]
    split_ifs <;> simp

/-- C16, amended, an instance: on the sample registry `list` in the mode `status` and
`count` change nothing, and `list` in the mode `json` leaves the updated registry. -/
theorem queries_and_last_paid_update_witness :
    ((fundamentalnodelist sampleMan false ["status"] sampleRegistry).world = sampleRegistry ∧
      ManCall.UpdateLastPaid ∉
        (fundamentalnodelist sampleMan false ["status"] sampleRegistry).calls) ∧
    ((fundamentalnodelist sampleMan false ["json"] sampleRegistry).world =
        sampleMan.UpdateLastPaid sampleRegistry ∧
      (fundamentalnodelist sampleMan false ["json"] sampleRegistry).calls =
        [ManCall.UpdateLastPaid, ManCall.GetFullFundamentalnodeMap]) ∧
    ((fundamentalnodeCount sampleMan ["count"] sampleRegistry).world = sampleRegistry ∧
      ManCall.UpdateLastPaid ∉ (fundamentalnodeCount sampleMan ["count"] sampleRegistry).calls) ∧
    (sampleMan.Tip sampleRegistry = some 500 ∧
      (fundamentalnodeCurrentWinner sampleMan "winner" sampleRegistry).world =
        sampleMan.UpdateLastPaid sampleRegistry ∧
      (fundamentalnodeCurrentWinner sampleMan "winner" sampleRegistry).calls =
        [ManCall.UpdateLastPaid, ManCall.GetNextFundamentalnodeInQueueForPayment]) :=
  ⟨(queries_and_last_paid_update sampleMan sampleRegistry).1 false ["status"]
      (Or.inr (by decide)),
   (queries_and_last_paid_update sampleMan sampleRegistry).2.1 ["json"] (by decide),
   (queries_and_last_paid_update sampleMan sampleRegistry).2.2.1 ["count"],
   ⟨rfl, (queries_and_last_paid_update sampleMan sampleRegistry).2.2.2 "winner" 500 rfl⟩⟩

/-! ### `winners` -/

theorem winnersLoop_eq {W : Type} (ops : ManOps W) (w : W) (strFilter : String) (todo : Nat) :
    ∀ (i : Int) (obj : List (String × UniValue)),
      winnersLoop ops w strFilter todo i obj =
        obj ++ (((List.range todo).map (fun (k : Nat) => i + (k : Int))).filter
            (fun h => !(strFilter != "" &&
              !hasSubstr (ops.GetRequiredPaymentsStringFN w h) strFilter))).map
          (fun h => (toString h, .str (ops.GetRequiredPaymentsStringFN w h))) := by
  induction todo with
  | zero => intro i obj; simp [winnersLoop]
  | succ todo ih =>
    intro i obj
    have hrange : (List.range (todo + 1)).map (fun (k : Nat) => i + (k : Int)) =
        i :: (List.range todo).map (fun (k : Nat) => (i + 1) + (k : Int)) := by
      rw [List.range_succ_eq_map, List.map_cons, List.map_map]
      simp only [Nat.cast_zero, add_zero, List.cons.injEq, true_and]
      apply List.map_congr_left
      intro k _
      simp only [Function.comp, Nat.cast_succ]
      omega
    rw [hrange]
    by_cases hc : (strFilter != "" &&
        !hasSubstr (ops.GetRequiredPaymentsStringFN w i) strFilter) = true
    · simp only [winnersLoop, hc, if_true, ih, List.filter_cons, Bool.not_true,
        Bool.false_eq_true, if_false]
    · simp only [Bool.not_eq_true] at hc
      simp only [winnersLoop, hc, Bool.false_eq_true, if_false, ih, List.filter_cons,
        Bool.not_false, if_true, List.map_cons, List.append_assoc, List.singleton_append]

theorem winners_filter_eq {W : Type} (ops : ManOps W) (w : W) (f : String) :
    (fun h => !(f != "" && !hasSubstr (ops.GetRequiredPaymentsStringFN w h) f)) =
      (fun h => decide (f = "") || hasSubstr (ops.GetRequiredPaymentsStringFN w h) f) := by
  funext h
  by_cases hf : f = "" <;> simp [hf]

theorem mem_heightsFrom (lo hi h : Int) : h ∈ heightsFrom lo hi ↔ lo ≤ h ∧ h < hi := by
  simp only [heightsFrom, List.mem_map, List.mem_range]
  constructor
  · rintro ⟨k, hk, rfl⟩
    omega
  · intro ⟨h1, h2⟩
    refine ⟨(h - lo).toNat, ?_, ?_⟩ <;> omega

theorem heightsFrom_ascending (lo hi : Int) : (heightsFrom lo hi).Pairwise (fun a b => a < b) := by
  unfold heightsFrom
  rw [List.pairwise_map]
  exact (List.pairwise_lt_range _).imp (fun h => by omega)

/-- C20 (the heights of `winners`). Let the tip be at height `H`, let `n` be the
requested count (10 when none is given) and `f` the filter (empty unless a third
parameter is given), and let `H - n` and `H + 20` be values of an `int`. Then `winners`
returns, for the heights `h` with `H - n ≤ h < H + 20` taken in ascending order, one
member per height whose payment string passes the filter, keyed by the decimal
rendering of the height and holding the payment string. Every height passes an empty
filter, so that the result then has `n + 20` members when that is positive and none
otherwise; a non-empty filter lets through exactly the heights whose payment string
contains it. -/
theorem winners_height_range {W : Type} (ops : ManOps W) (params : List String) (w : W)
    (H n : Int) (f strCommand strCount : String)
    (htip : ops.Tip w = some H)
    (hparams : (params = [strCommand] ∧ n = 10 ∧ f = "") ∨
      (params = [strCommand, strCount] ∧ n = ops.atoi strCount ∧ f = "") ∨
      (params = [strCommand, strCount, f] ∧ n = ops.atoi strCount))
    (hlo : inIntRange (H - n) = true) (hhi : inIntRange (H + 20) = true) :
    fundamentalnodeWinners ops params w =
      ⟨.ok (.obj (((heightsFrom (H - n) (H + 20)).filter
          (fun h => decide (f = "") || hasSubstr (ops.GetRequiredPaymentsStringFN w h) f)).map
          (fun h => (toString h, .str (ops.GetRequiredPaymentsStringFN w h))))), [], w⟩ ∧
    (∀ h, h ∈ heightsFrom (H - n) (H + 20) ↔ H - n ≤ h ∧ h < H + 20) ∧
    (heightsFrom (H - n) (H + 20)).Pairwise (fun a b => a < b) ∧
    (heightsFrom (H - n) (H + 20)).length = (n + 20).toNat ∧
    (f = "" → ((heightsFrom (H - n) (H + 20)).filter
      (fun h => decide (f = "") || hasSubstr (ops.GetRequiredPaymentsStringFN w h) f)) =
        heightsFrom (H - n) (H + 20)) ∧
    (∀ h, hasSubstr (ops.GetRequiredPaymentsStringFN w h) f = true ↔
      Contains (ops.GetRequiredPaymentsStringFN w h) f) := by
  refine ⟨?_, mem_heightsFrom _ _, heightsFrom_ascending _ _, ?_, ?_,
    fun h => hasSubstr_iff _ _⟩
  · have hnr : (!inIntRange (H - n) || !inIntRange (H + 20)) = false := by simp [hlo, hhi]
    rcases hparams with ⟨hp, hn, hf⟩ | ⟨hp, hn, hf⟩ | ⟨hp, hn⟩
    · subst hp hn hf
      simp only [fundamentalnodeWinners, htip, List.length_cons, List.length_nil]
      simp only [ge_iff_le, Nat.reduceLeDiff, if_false, Nat.reduceBEq, Bool.false_eq_true,
        gt_iff_lt, Nat.reduceLT, hnr, winnersLoop_eq, List.nil_append, heightsFrom,
        zero_add, Nat.reduceAdd]
      rw [winners_filter_eq]
      simp
    · subst hp hn hf
      simp only [fundamentalnodeWinners, htip, List.length_cons, List.length_nil]
      simp only [ge_iff_le, Nat.reduceLeDiff, if_true, Nat.reduceBEq, Bool.false_eq_true,
        if_false, gt_iff_lt, Nat.reduceLT, hnr, winnersLoop_eq, List.nil_append, heightsFrom,
        zero_add, Nat.reduceAdd, le_refl, List.getD_cons_succ, List.getD_cons_zero]
      rw [winners_filter_eq]
      simp
    · subst hp hn
      simp only [fundamentalnodeWinners, htip, List.length_cons, List.length_nil]
      simp only [ge_iff_le, Nat.reduceLeDiff, if_true, Nat.reduceBEq,
        gt_iff_lt, Nat.reduceLT, lt_self_iff_false, if_false, hnr, Bool.false_eq_true,
        winnersLoop_eq, List.nil_append, heightsFrom,
        zero_add, Nat.reduceAdd, List.getD_cons_succ, List.getD_cons_zero]
      rw [winners_filter_eq]
  · simp only [heightsFrom, List.length_map, List.length_range]
    congr 1
    omega
  · intro hf
    simp [hf]

/-- C20, an instance: on the sample registry, with the tip at 500, the count -18 gives
the heights 518 and 519, of which the filter "ab" keeps the first. -/
theorem winners_height_range_witness :
    (sampleMan.Tip sampleRegistry = some 500 ∧ (-18 : Int) = sampleMan.atoi "-18" ∧
      inIntRange (500 - (-18)) = true ∧ inIntRange (500 + 20) = true) ∧
    fundamentalnodeWinners sampleMan ["winners", "-18", "ab"] sampleRegistry =
      ⟨.ok (.obj (((heightsFrom (500 - (-18)) (500 + 20)).filter
          (fun h => decide ("ab" = "") ||
            hasSubstr (sampleMan.GetRequiredPaymentsStringFN sampleRegistry h) "ab")).map
          (fun h => (toString h,
            .str (sampleMan.GetRequiredPaymentsStringFN sampleRegistry h))))), [],
        sampleRegistry⟩ ∧
    heightsFrom (500 - (-18)) (500 + 20) = [518, 519] ∧
    (fundamentalnodeWinners sampleMan ["winners", "-18", "ab"] sampleRegistry).result =
      .ok (.obj [("518", .str "ab-0")]) :=
  ⟨⟨rfl, by decide, by decide, by decide⟩,
   (winners_height_range sampleMan ["winners", "-18", "ab"] sampleRegistry 500 (-18) "ab"
      "winners" "-18" rfl (Or.inr (Or.inr ⟨rfl, by decide⟩)) (by decide) (by decide)).1,
   by decide, rfl⟩

/-! ### The start commands -/

theorem startAttempted_false {W : Type} (mops : ManOps W) (strCommand : String) (w : W)
    (fne : CFundamentalnodeEntry) (h : startAttempted mops strCommand w fne = false) :
    (strCommand == "start-missing" && (mops.Get w fne.txHash fne.outputIndex).isSome) = true ∨
    (strCommand == "start-disabled" && (mops.Get w fne.txHash fne.outputIndex).isSome &&
      (match mops.Get w fne.txHash fne.outputIndex with
        | some fn => fn.isEnabled
        | none => false)) = true := by
  unfold startAttempted at h
  by_cases h1 : strCommand = "start-missing"
  · subst h1
    left
    cases hg : mops.Get w fne.txHash fne.outputIndex <;> simp [hg] at h ⊢
  · by_cases h2 : strCommand = "start-disabled"
    · subst h2
      right
      cases hg : mops.Get w fne.txHash fne.outputIndex <;> simp [hg] at h ⊢
      exact h
    · simp [h1, h2] at h

theorem startAttempted_true {W : Type} (mops : ManOps W) (strCommand : String) (w : W)
    (fne : CFundamentalnodeEntry) (h : startAttempted mops strCommand w fne = true) :
    (strCommand == "start-missing" && (mops.Get w fne.txHash fne.outputIndex).isSome) = false ∧
    (strCommand == "start-disabled" && (mops.Get w fne.txHash fne.outputIndex).isSome &&
      (match mops.Get w fne.txHash fne.outputIndex with
        | some fn => fn.isEnabled
        | none => false)) = false := by
  unfold startAttempted at h
  by_cases h1 : strCommand = "start-missing"
  · subst h1
    cases hg : mops.Get w fne.txHash fne.outputIndex <;> simp [hg] at h ⊢
  · by_cases h2 : strCommand = "start-disabled"
    · subst h2
      cases hg : mops.Get w fne.txHash fne.outputIndex <;> simp [hg] at h ⊢
      exact h
    · simp [h1, h2]

theorem startAttempts_cons_some {Fnb : Type} (fne : CFundamentalnodeEntry)
    (rest : List CFundamentalnodeEntry) (out : Bool × String × List (Call Fnb))
    (trace : List (Option (Bool × String × List (Call Fnb)))) :
    startAttempts (fne :: rest) (some out :: trace) =
      (fne.alias_, out) :: startAttempts rest trace := by
  simp [startAttempts]

theorem startAttempts_cons_none {Fnb : Type} (fne : CFundamentalnodeEntry)
    (rest : List CFundamentalnodeEntry)
    (trace : List (Option (Bool × String × List (Call Fnb)))) :
    startAttempts (fne :: rest) (none :: trace) = startAttempts rest trace := by
  simp [startAttempts]

theorem startLoop_eq {Fnb W : Type} (fops : FnbOps Fnb W) (mops : ManOps W)
    (strCommand : String) (nDoS : Int) (entries : List CFundamentalnodeEntry) :
    ∀ acc : StartAcc Fnb W,
      startLoop fops mops strCommand nDoS entries acc =
        { nSuccessful := acc.nSuccessful +
            (((startAttempts entries
              (startTrace fops mops strCommand nDoS entries acc.world)).filter
                (fun a => a.2.1)).length : Int),
          nFailed := acc.nFailed +
            (((startAttempts entries
              (startTrace fops mops strCommand nDoS entries acc.world)).filter
                (fun a => !a.2.1)).length : Int),
          resultsObj := acc.resultsObj ++
            (startAttempts entries
              (startTrace fops mops strCommand nDoS entries acc.world)).map
                (fun a => ("status", startStatus a.1 a.2)),
          calls := acc.calls ++
            ((startAttempts entries
              (startTrace fops mops strCommand nDoS entries acc.world)).map
                (fun a => a.2.2.2)).flatten,
          world := startWorld fops mops strCommand nDoS entries acc.world } := by
  induction entries with
  | nil => intro acc; simp [startLoop, startTrace, startWorld, startAttempts]
  | cons fne rest ih =>
    intro acc
    cases ha : startAttempted mops strCommand acc.world fne
    · simp only [startTrace, startWorld, ha, Bool.false_eq_true, if_false,
        startAttempts_cons_none]
      rcases startAttempted_false mops strCommand acc.world fne ha with hs | hs
      · rw [startLoop, if_pos hs]
        exact ih acc
      · by_cases hm : (strCommand == "start-missing" &&
            (mops.Get acc.world fne.txHash fne.outputIndex).isSome) = true
        · rw [startLoop, if_pos hm]
          exact ih acc
        · rw [startLoop, if_neg hm, if_pos hs]
          exact ih acc
    · obtain ⟨hn1, hn2⟩ := startAttempted_true mops strCommand acc.world fne ha
      simp only [startTrace, startWorld, ha, if_true, startAttempts_cons_some]
      rw [startLoop, if_neg (by rw [hn1]; simp), if_neg (by rw [hn2]; simp)]
      cases hres : (startAttempt fops nDoS acc.world fne).1
      · simp only [Bool.false_eq_true, if_false, ih, List.filter_cons, Bool.not_false, if_true,
          List.map_cons, List.flatten_cons, List.length_cons, Nat.cast_add, Nat.cast_one,
          List.append_assoc, List.singleton_append, startStatus, List.cons_append,
          List.nil_append, hres]
        congr 1
        omega
      · simp only [if_true, ih, List.filter_cons, Bool.not_true, Bool.false_eq_true, if_false,
          List.map_cons, List.flatten_cons, List.length_cons, Nat.cast_add, Nat.cast_one,
          List.append_assoc, List.singleton_append, startStatus, List.cons_append,
          List.nil_append, List.append_nil, hres]
        congr 1
        omega

theorem startTrace_length {Fnb W : Type} (fops : FnbOps Fnb W) (mops : ManOps W)
    (strCommand : String) (nDoS : Int) (entries : List CFundamentalnodeEntry) :
    ∀ w : W, (startTrace fops mops strCommand nDoS entries w).length = entries.length := by
  induction entries with
  | nil => intro w; rfl
  | cons fne rest ih =>
    intro w
    by_cases ha : startAttempted mops strCommand w fne = true <;>
      simp [startTrace, ha, ih]

theorem startAttempts_length {Fnb : Type} (entries : List CFundamentalnodeEntry) :
    ∀ trace : List (Option (Bool × String × List (Call Fnb))),
      (startAttempts entries trace).length = ((trace.take entries.length).filter
        (fun o => o.isSome)).length := by
  induction entries with
  | nil => intro trace; simp [startAttempts]
  | cons fne rest ih =>
    intro trace
    cases trace with
    | nil => simp [startAttempts]
    | cons o trace =>
      cases o with
      | none => rw [startAttempts_cons_none, ih]; simp
      | some out => rw [startAttempts_cons_some]; simp [ih]

theorem startTrace_all {Fnb W : Type} (fops : FnbOps Fnb W) (mops : ManOps W)
    (nDoS : Int) (entries : List CFundamentalnodeEntry) :
    ∀ w : W, ∀ o ∈ startTrace fops mops "start-all" nDoS entries w, o.isSome = true := by
  induction entries with
  | nil => intro w o ho; simp [startTrace] at ho
  | cons fne rest ih =>
    intro w o ho
    have ha : startAttempted mops "start-all" w fne = true := by simp [startAttempted]
    simp only [startTrace, ha, if_true, List.mem_cons] at ho
    rcases ho with rfl | ho
    · rfl
    · exact ih _ o ho

/-- C19 (the start modes). When the guards of a start command let it through (wallet
available and unlocked and, for `start-missing` and `start-disabled`, the list synced),
the command goes through the configured entries in order. An entry is attempted, that
is `Create` is called for it, exactly when: always for `start-all`; its collateral
reference is absent from the registry for `start-missing`; it is absent, or present but
not enabled, for `start-disabled` (the registry being looked at when the entry is
reached). Each attempted entry yields one status, in order, and is counted successful
exactly when `Create` succeeds and the registry accepts the announcement, failed
otherwise with its error message; the two counts reported add up to the number of
attempted entries, which for `start-all` is the number of configured entries. No
failure ends the loop; the registry is notified once at the end. -/
theorem start_modes_select_aliases {Fnb W : Type} (fops : FnbOps Fnb W) (mops : ManOps W)
    (ws : WalletState) (strCommand : String) (nDoS : Int)
    (entries : List CFundamentalnodeEntry) (w : W)
    (hAvailable : ws.EnsureWalletIsAvailable = .ok true)
    (hUnlocked : ws.EnsureWalletIsUnlocked = .ok ())
    (hsynced : strCommand = "start-missing" ∨ strCommand = "start-disabled" →
      mops.IsFundamentalnodeListSynced w = true) :
    fundamentalnodeStart fops mops ws strCommand nDoS entries w =
      ⟨.ok (.obj
        [("overall", .str (overallStarted
            (((startAttempts entries (startTrace fops mops strCommand nDoS entries w)).filter
              (fun a => a.2.1)).length : Int)
            (((startAttempts entries (startTrace fops mops strCommand nDoS entries w)).filter
              (fun a => !a.2.1)).length : Int))),
         ("detail", .obj
            ((startAttempts entries (startTrace fops mops strCommand nDoS entries w)).map
              (fun a => ("status", startStatus a.1 a.2))))]),
        ((startAttempts entries (startTrace fops mops strCommand nDoS entries w)).map
          (fun a => a.2.2.2)).flatten ++ [Call.NotifyFundamentalnodeUpdates],
        fops.NotifyFundamentalnodeUpdates (startWorld fops mops strCommand nDoS entries w)⟩ ∧
    (startTrace fops mops strCommand nDoS entries w).length = entries.length ∧
    (∀ (fne : CFundamentalnodeEntry) (rest : List CFundamentalnodeEntry) (w' : W),
      ((startTrace fops mops strCommand nDoS (fne :: rest) w').head?.bind id).isSome =
        startAttempted mops strCommand w' fne) ∧
    (startAttempts entries (startTrace fops mops strCommand nDoS entries w)).length =
      ((startTrace fops mops strCommand nDoS entries w).filter (fun o => o.isSome)).length ∧
    ((startAttempts entries (startTrace fops mops strCommand nDoS entries w)).filter
        (fun a => a.2.1)).length +
      ((startAttempts entries (startTrace fops mops strCommand nDoS entries w)).filter
        (fun a => !a.2.1)).length =
      (startAttempts entries (startTrace fops mops strCommand nDoS entries w)).length ∧
    (strCommand = "start-all" →
      (startAttempts entries (startTrace fops mops strCommand nDoS entries w)).length =
        entries.length) ∧
    (∀ (w' : W) (fne : CFundamentalnodeEntry),
      (startAttempt fops nDoS w' fne).1 =
        ((fops.Create w' fne.ip fne.privKey fne.txHash fne.outputIndex false).1.1 &&
          (fops.CheckFnbAndUpdateFundamentalnodeList
            (fops.Create w' fne.ip fne.privKey fne.txHash fne.outputIndex false).2
            (fops.Create w' fne.ip fne.privKey fne.txHash fne.outputIndex false).1.2.2
            nDoS).1.1) ∧
      ∃ more, (startAttempt fops nDoS w' fne).2.2.1 =
        Call.Create fne.ip fne.privKey fne.txHash fne.outputIndex false :: more) := by
  have hlen := startTrace_length fops mops strCommand nDoS entries w
  have hatt : (startAttempts entries (startTrace fops mops strCommand nDoS entries w)).length =
      ((startTrace fops mops strCommand nDoS entries w).filter (fun o => o.isSome)).length := by
    rw [startAttempts_length, ← hlen, List.take_length]
  refine ⟨?_, hlen, ?_, hatt, filter_length_add_filter_not _ _, ?_, ?_⟩
  · have hguard : ((strCommand == "start-missing" || strCommand == "start-disabled") &&
        !mops.IsFundamentalnodeListSynced w) = false := by
      by_cases hc : strCommand = "start-missing" ∨ strCommand = "start-disabled"
      · simp [hsynced hc]
      · have h1 : ¬ strCommand = "start-missing" := fun h => hc (Or.inl h)
        have h2 : ¬ strCommand = "start-disabled" := fun h => hc (Or.inr h)
        simp [h1, h2]
    simp only [fundamentalnodeStart, hAvailable, hUnlocked, hguard, Bool.false_eq_true, if_false,
      startLoop_eq, zero_add, List.nil_append]
  · intro fne rest w'
    by_cases ha : startAttempted mops strCommand w' fne = true
    · simp [startTrace, ha]
    · simp only [Bool.not_eq_true] at ha
      simp [startTrace, ha]
  · intro hall
    subst hall
    rw [hatt, List.filter_eq_self.mpr (startTrace_all fops mops nDoS entries w), hlen]
  · intro w' fne
    unfold startAttempt
    cases hc : (fops.Create w' fne.ip fne.privKey fne.txHash fne.outputIndex false).1.1
    · simp [hc]
    · cases hu : (fops.CheckFnbAndUpdateFundamentalnodeList
          (fops.Create w' fne.ip fne.privKey fne.txHash fne.outputIndex false).2
          (fops.Create w' fne.ip fne.privKey fne.txHash fne.outputIndex false).1.2.2
          nDoS).1.1 <;> simp [hc, hu]

/-- C19, an instance: on the sample registry, where `ab-0` is enabled, `cd-1` is present
but not enabled and `ef-2` is absent, `start-disabled` passes over the alias `a`, fails
on `b` (which has no key) and starts `c`. -/
theorem start_modes_select_aliases_witness :
    (walletReady.EnsureWalletIsAvailable = .ok true ∧
      walletReady.EnsureWalletIsUnlocked = .ok () ∧
      ("start-disabled" = "start-missing" ∨ "start-disabled" = "start-disabled" →
        sampleMan.IsFundamentalnodeListSynced sampleRegistry = true)) ∧
    (startTrace sampleStartOps sampleMan "start-disabled" 0 sampleEntries sampleRegistry).map
      (fun o => o.isSome) = [false, true, true] ∧
    (fundamentalnodeStart sampleStartOps sampleMan walletReady "start-disabled" 0
        sampleEntries sampleRegistry).result =
      .ok (.obj
        [("overall", .str
            "Successfully started 1 fundamentalnodes, failed to start 1, total 2"),
         ("detail", .obj
            [("status", .obj [("alias", .str "b"), ("result", .str "failed"),
                ("errorMessage", .str "Invalid fundamentalnode key")]),
             ("status", .obj [("alias", .str "c"), ("result", .str "successful")])])]) ∧
    (startAttempts sampleEntries
        (startTrace sampleStartOps sampleMan "start-disabled" 0 sampleEntries
          sampleRegistry)).length =
      ((startTrace sampleStartOps sampleMan "start-disabled" 0 sampleEntries
        sampleRegistry).filter (fun o => o.isSome)).length :=
  ⟨⟨rfl, rfl, fun _ => rfl⟩, by decide, rfl,
   (start_modes_select_aliases sampleStartOps sampleMan walletReady "start-disabled" 0
      sampleEntries sampleRegistry rfl rfl (fun _ => rfl)).2.2.2.1⟩

/-! ### The effect of `read` on the entries -/

theorem readLoop_effect (env : ChainEnv) (lines : List String) :
    ∀ (n : Nat) (entries : List CFundamentalnodeEntry) (s : String),
      (readLoop env lines n entries s).entries =
        entries ++ acceptedBeforeOffending env lines n ∧
      ((readLoop env lines n entries s).ret = true ↔
        ∀ o ∈ lineOutcomes env lines n, o.isFail = false) := by
  induction lines with
  | nil => intro n entries s; simp [readLoop, acceptedBeforeOffending, lineOutcomes]
  | cons line rest ih =>
    intro n entries s
    cases h1 : readLine env n line with
    | skip =>
      have := ih (n + 1) entries s
      simp only [acceptedBeforeOffending] at this
      simp [readLoop, acceptedBeforeOffending, lineOutcomes, h1, LineOutcome.isFail,
        LineOutcome.entry?, this]
    | add e =>
      have := ih (n + 1) (entries ++ [e]) s
      simp only [acceptedBeforeOffending] at this
      simp [readLoop, acceptedBeforeOffending, lineOutcomes, h1, LineOutcome.isFail,
        LineOutcome.entry?, this]
    | fail msg =>
      simp [readLoop, acceptedBeforeOffending, lineOutcomes, h1, LineOutcome.isFail]

theorem acceptedBeforeOffending_all (env : ChainEnv) (lines : List String) (n : Nat)
    (h : ∀ o ∈ lineOutcomes env lines n, o.isFail = false) :
    acceptedBeforeOffending env lines n =
      (lineOutcomes env lines n).filterMap LineOutcome.entry? := by
  unfold acceptedBeforeOffending
  congr 1
  rw [List.takeWhile_eq_self_iff]
  intro o ho
  simp [h o ho]

/-- C21 (effect of `read` on the entries, also on failure). The entries present before
the call stay, unchanged and in place, at the front of the entries after it, and a
file that cannot be opened adds nothing. For a file that opens, the entries after
the call are the entries before it followed by one entry for each accepted line that
precedes the first offending line, in file order; `read` returns `true` exactly when
no line is offending, and then every accepted line has its entry. So a failed read
is not atomic: when the lines before an offending line are not offending, `read`
returns `false` and the entries of those lines stay added. Reading the same file
again appends the same entries a second time. -/
theorem read_effect_on_entries (env : ChainEnv) (f : ConfigFile)
    (entries : List CFundamentalnodeEntry) (s s' : String) :
    entries <+: (read env f entries s).1.entries ∧
    (f.good = false → (read env f entries s).1.entries = entries) ∧
    (∀ content, f.content = some content → f.canRead = true →
      (read env f entries s).1.entries =
        entries ++ acceptedBeforeOffending env (getLines content) 1 ∧
      ((read env f entries s).1.ret = true ↔
        ∀ o ∈ lineOutcomes env (getLines content) 1, o.isFail = false) ∧
      ((read env f entries s).1.ret = true →
        (read env f entries s).1.entries =
          entries ++ (lineOutcomes env (getLines content) 1).filterMap LineOutcome.entry?) ∧
      (∀ pre line post msg, getLines content = pre ++ line :: post →
        (∀ o ∈ lineOutcomes env pre 1, o.isFail = false) →
        readLine env (pre.length + 1) line = .fail msg →
        (read env f entries s).1.ret = false ∧
        (read env f entries s).1.entries =
          entries ++ (lineOutcomes env pre 1).filterMap LineOutcome.entry?) ∧
      (read env (read env f entries s).2 (read env f entries s).1.entries s').1.entries =
        entries ++ acceptedBeforeOffending env (getLines content) 1 ++
          acceptedBeforeOffending env (getLines content) 1) := by
  refine ⟨?_, fun h => by simp [read, h], fun content hcontent hread => ?_⟩
  · by_cases hg : f.good = true
    · simp only [read, hg, Bool.not_true, Bool.false_eq_true, if_false]
      rw [(readLoop_effect env _ 1 entries s).1]
      exact List.prefix_append _ _
    · simp [read, hg]
  · have hgood : f.good = true := by simp [ConfigFile.good, hcontent, hread]
    simp only [read, hgood, Bool.not_true, Bool.false_eq_true, if_false, hcontent,
      Option.getD_some]
    obtain ⟨he, hr⟩ := readLoop_effect env (getLines content) 1 entries s
    refine ⟨he, hr, fun h => ?_, fun pre line post msg hl hpre hline => ?_, ?_⟩
    · rw [he, acceptedBeforeOffending_all env _ 1 (hr.mp h)]
    · have hp := readLoop_effect env pre 1 entries s
      have hline' : readLine env (1 + pre.length) line = .fail msg := by
        rw [Nat.add_comm]; exact hline
      rw [hl, readLoop_stops_at_fail env pre line post 1 entries s msg (hp.2.mpr hpre) hline']
      exact ⟨rfl, by rw [hp.1, acceptedBeforeOffending_all env pre 1 hpre]⟩
    · rw [(readLoop_effect env (getLines content) 1 _ s').1, he]

/-- C21, two instances on mainnet with default port 24130. A file whose second line
cannot be parsed makes `read` fail, yet the entry of its first line has been added
after the entry that was there before. A file of two accepted lines, read twice
starting from no entry, leaves four entries: each of the two, twice. -/
theorem read_effect_on_entries_witness :
    (getLines "a 1.2.3.4:24130 k t 0\nbad line\nb 1.2.3.5:24130 k t 1\n" =
        ["a 1.2.3.4:24130 k t 0"] ++ "bad line" :: ["b 1.2.3.5:24130 k t 1"] ∧
      (∀ o ∈ lineOutcomes mainnetEnv ["a 1.2.3.4:24130 k t 0"] 1, o.isFail = false) ∧
      readLine mainnetEnv (["a 1.2.3.4:24130 k t 0"].length + 1) "bad line" =
        .fail (errCouldNotParse 2 "bad line")) ∧
    ((read mainnetEnv ⟨some "a 1.2.3.4:24130 k t 0\nbad line\nb 1.2.3.5:24130 k t 1\n", true, true⟩
        [⟨"old", "1.1.1.1:24130", "k", "t", "9"⟩] "").1.ret = false ∧
      (read mainnetEnv ⟨some "a 1.2.3.4:24130 k t 0\nbad line\nb 1.2.3.5:24130 k t 1\n", true, true⟩
        [⟨"old", "1.1.1.1:24130", "k", "t", "9"⟩] "").1.entries =
        [⟨"old", "1.1.1.1:24130", "k", "t", "9"⟩] ++
          (lineOutcomes mainnetEnv ["a 1.2.3.4:24130 k t 0"] 1).filterMap LineOutcome.entry?) ∧
    [⟨"old", "1.1.1.1:24130", "k", "t", "9"⟩] ++
        (lineOutcomes mainnetEnv ["a 1.2.3.4:24130 k t 0"] 1).filterMap LineOutcome.entry? =
      [⟨"old", "1.1.1.1:24130", "k", "t", "9"⟩, ⟨"a", "1.2.3.4:24130", "k", "t", "0"⟩] ∧
    (read mainnetEnv
        (read mainnetEnv ⟨some "a 1.2.3.4:24130 k t 0\nb 1.2.3.5:24130 k t 1\n", true, true⟩
          [] "").2
        (read mainnetEnv ⟨some "a 1.2.3.4:24130 k t 0\nb 1.2.3.5:24130 k t 1\n", true, true⟩
          [] "").1.entries "").1.entries =
      [] ++ acceptedBeforeOffending mainnetEnv
          (getLines "a 1.2.3.4:24130 k t 0\nb 1.2.3.5:24130 k t 1\n") 1 ++
        acceptedBeforeOffending mainnetEnv
          (getLines "a 1.2.3.4:24130 k t 0\nb 1.2.3.5:24130 k t 1\n") 1 ∧
    [] ++ acceptedBeforeOffending mainnetEnv
          (getLines "a 1.2.3.4:24130 k t 0\nb 1.2.3.5:24130 k t 1\n") 1 ++
        acceptedBeforeOffending mainnetEnv
          (getLines "a 1.2.3.4:24130 k t 0\nb 1.2.3.5:24130 k t 1\n") 1 =
      [⟨"a", "1.2.3.4:24130", "k", "t", "0"⟩, ⟨"b", "1.2.3.5:24130", "k", "t", "1"⟩,
       ⟨"a", "1.2.3.4:24130", "k", "t", "0"⟩, ⟨"b", "1.2.3.5:24130", "k", "t", "1"⟩] :=
  ⟨⟨by decide, by decide, by decide⟩,
   ((read_effect_on_entries mainnetEnv
      ⟨some "a 1.2.3.4:24130 k t 0\nbad line\nb 1.2.3.5:24130 k t 1\n", true, true⟩
      [⟨"old", "1.1.1.1:24130", "k", "t", "9"⟩] "" "").2.2 _ rfl rfl).2.2.2.1
      ["a 1.2.3.4:24130 k t 0"] "bad line" ["b 1.2.3.5:24130 k t 1"]
      (errCouldNotParse 2 "bad line") (by decide) (by decide) (by decide),
   by decide,
   ((read_effect_on_entries mainnetEnv
      ⟨some "a 1.2.3.4:24130 k t 0\nb 1.2.3.5:24130 k t 1\n", true, true⟩
      [] "" "").2.2 _ rfl rfl).2.2.2.2,
   by decide⟩

/-! ### Lines of whitespace only -/

theorem fieldsL_of_all_space (buf : List Char) (h : ∀ c ∈ buf, isspace c = true) :
    fieldsL buf = [] := by
  induction buf with
  | nil => exact fieldsL_nil
  | cons c cs ih =>
    rw [fieldsL_cons_space c cs (h c (List.mem_cons_self _ _))]
    exact ih (fun d hd => h d (List.mem_cons_of_mem _ hd))

theorem readLine_whitespace_only (env : ChainEnv) (n : Nat) (line : String)
    (hne : line.data ≠ []) (hws : ∀ c ∈ line.data, isspace c = true) :
    readLine env n line = .fail (errCouldNotParse n line) := by
  have hE : line.data.isEmpty = false := by
    cases hd : line.data with
    | nil => exact absurd hd hne
    | cons c cs => rfl
  rw [readLine_eq_tolerant]
  simp [readLineTolerant, hE, fields, fieldsL_of_all_space line.data hws]

theorem readLoop_all_skipped (env : ChainEnv) (pre : List String)
    (hpre : ∀ l ∈ pre, isConfigLine l = false)
    (n : Nat) (entries : List CFundamentalnodeEntry) (s : String) :
    readLoop env pre n entries s = ⟨true, s, entries⟩ := by
  have hfil : pre.filter isConfigLine = [] := by
    rw [List.filter_eq_nil_iff]
    intro l hl
    simp [hpre l hl]
  rw [readLoop_good env pre n entries s (fun l hl hc => by rw [hpre l hl] at hc; cases hc), hfil]
  simp

theorem contains_errCouldNotParse_head (n : Nat) (line : String) :
    Contains (errCouldNotParse n line) "Could not parse fundamentalnode.conf" :=
  Contains.append_left _ (Contains.append_left _ (Contains.refl _))

/-- C22 (a line of whitespace only is a parse error, not a blank line). Let a
configuration file that opens have the lines `pre ++ line :: post`, where every line of
`pre` is empty or a comment and `line` holds at least one character, all of them
whitespace. Then `read` returns `false`, adds no entry, leaves the file as it was, and
sets the error text to the "Could not parse fundamentalnode.conf" error built for the
line number `pre.length + 1` and for `line`, which contains "Line: n" for that number,
whatever follows the line. With an empty line at that position instead, the line is
skipped: `read` goes on with the lines of `post`, from line number `pre.length + 2`,
with the entries and the error text as they were. -/
theorem read_whitespace_only_line (env : ChainEnv) (f g : ConfigFile)
    (entries : List CFundamentalnodeEntry) (s content content' : String)
    (pre post : List String) (line : String)
    (hf : f.content = some content) (hfr : f.canRead = true)
    (hg : g.content = some content') (hgr : g.canRead = true)
    (hlines : getLines content = pre ++ line :: post)
    (hlines' : getLines content' = pre ++ "" :: post)
    (hpre : ∀ l ∈ pre, isConfigLine l = false)
    (hne : line.data ≠ []) (hws : ∀ c ∈ line.data, isspace c = true) :
    read env f entries s =
      (⟨false, errCouldNotParse (pre.length + 1) line, entries⟩, f) ∧
    Contains (errCouldNotParse (pre.length + 1) line) "Could not parse fundamentalnode.conf" ∧
    Contains (errCouldNotParse (pre.length + 1) line)
      ("Line: " ++ toString (pre.length + 1)) ∧
    read env g entries s = (readLoop env post (pre.length + 2) entries s, g) := by
  have hfg : f.good = true := by simp [ConfigFile.good, hf, hfr]
  have hgg : g.good = true := by simp [ConfigFile.good, hg, hgr]
  have hskip := readLoop_all_skipped env pre hpre 1 entries s
  have hret : (readLoop env pre 1 entries s).ret = true := by rw [hskip]
  refine ⟨?_, contains_errCouldNotParse_head _ _,
    Contains.append_right _ (contains_lineInfo_number _ _), ?_⟩
  · simp only [read, hfg, Bool.not_true, Bool.false_eq_true, if_false, hf, Option.getD_some,
      hlines]
    have hline : readLine env (1 + pre.length) line =
        .fail (errCouldNotParse (pre.length + 1) line) := by
      rw [Nat.add_comm]; exact readLine_whitespace_only env _ line hne hws
    rw [readLoop_stops_at_fail env pre line post 1 entries s _ hret hline, hskip]
  · simp only [read, hgg, Bool.not_true, Bool.false_eq_true, if_false, hg, Option.getD_some,
      hlines']
    rw [readLoop_append_ok env pre ("" :: post) 1 entries s hret, hskip]
    have he : readLine env (1 + pre.length) "" = .skip := readLine_empty env _ "" rfl
    have hn : 1 + pre.length + 1 = pre.length + 2 := by omega
    simp only [readLoop, he, hn]

/-- C22, an instance on mainnet with default port 24130: after a comment line and an
empty line, a third line made of a space, a tab and a space makes `read` fail with the
parse error for line 3, although an accepted line follows; with an empty third line
the same file is read in full. -/
theorem read_whitespace_only_line_witness :
    (getLines "# nodes\n\n \t \nfn1 127.0.0.2:24130 k t 0\n" =
        ["# nodes", ""] ++ " \t " :: ["fn1 127.0.0.2:24130 k t 0"] ∧
      getLines "# nodes\n\n\nfn1 127.0.0.2:24130 k t 0\n" =
        ["# nodes", ""] ++ "" :: ["fn1 127.0.0.2:24130 k t 0"] ∧
      (∀ l ∈ ["# nodes", ""], isConfigLine l = false) ∧
      " \t ".data ≠ [] ∧ (∀ c ∈ " \t ".data, isspace c = true)) ∧
    (read mainnetEnv ⟨some "# nodes\n\n \t \nfn1 127.0.0.2:24130 k t 0\n", true, true⟩ [] "" =
        (⟨false, errCouldNotParse (["# nodes", ""].length + 1) " \t ", []⟩,
          ⟨some "# nodes\n\n \t \nfn1 127.0.0.2:24130 k t 0\n", true, true⟩) ∧
      Contains (errCouldNotParse (["# nodes", ""].length + 1) " \t ")
        "Could not parse fundamentalnode.conf" ∧
      Contains (errCouldNotParse (["# nodes", ""].length + 1) " \t ")
        ("Line: " ++ toString (["# nodes", ""].length + 1)) ∧
      read mainnetEnv ⟨some "# nodes\n\n\nfn1 127.0.0.2:24130 k t 0\n", true, true⟩ [] "" =
        (readLoop mainnetEnv ["fn1 127.0.0.2:24130 k t 0"] (["# nodes", ""].length + 2) [] "",
          ⟨some "# nodes\n\n\nfn1 127.0.0.2:24130 k t 0\n", true, true⟩)) ∧
    errCouldNotParse (["# nodes", ""].length + 1) " \t " =
      "Could not parse fundamentalnode.conf\nLine: 3\n\" \t \"" ∧
    readLoop mainnetEnv ["fn1 127.0.0.2:24130 k t 0"] (["# nodes", ""].length + 2) [] "" =
      ⟨true, "", [⟨"fn1", "127.0.0.2:24130", "k", "t", "0"⟩]⟩ :=
  ⟨⟨by decide, by decide, by decide, by decide, by decide⟩,
   read_whitespace_only_line mainnetEnv _ _ [] "" _ _ ["# nodes", ""]
     ["fn1 127.0.0.2:24130 k t 0"] " \t " rfl rfl rfl rfl
     (by decide) (by decide) (by decide) (by decide) (by decide),
   by decide, by decide⟩

end SecureTag
